import Mathlib

/-!
Verification of the `bevy-kdl-ui` repository core (template-kdl macro
expansion engine and bevy-reflect-deser type-directed builder) against its
natural-language specification.

The Rust sources are shallowly embedded: each Lean definition mirrors one
Rust item (file and function named in its doc comment).  Machine integers
are modelled as `Int`/`Nat` with explicit bounds; `panic!`/`unwrap`
failures are modelled by `Option` (with `none` meaning "panics"); Rust
`Result` is `Except`.
-/

set_option maxRecDepth 4000

namespace BevyKdlUi

/-! ## Multi-error accumulator

Embedding of `template-kdl/src/multi_err.rs`.  `MultiResult<T, E>` carries
either a success value, a success value plus accumulated non-fatal errors,
or only errors. -/

/-- `MultiResult<T, E>` from `multi_err.rs`: `Ok(T) | OkErr(T, Vec<E>) | Err(Vec<E>)`. -/
inductive MultiResult (α ε : Type) : Type where
  | ok (t : α)
  | okErr (t : α) (errs : List ε)
  | err (errs : List ε)
  deriving DecidableEq, Repr

namespace MultiResult

/-- The success value carried by a `MultiResult`, if any (`Ok` and `OkErr` carry one). -/
def resVal {α ε : Type} : MultiResult α ε → Option α
  | .ok t => some t
  | .okErr t _ => some t
  | .err _ => none

/-- The accumulated error list of a `MultiResult` (`Ok` carries none). -/
def resErrs {α ε : Type} : MultiResult α ε → List ε
  | .ok _ => []
  | .okErr _ es => es
  | .err es => es

/-- Whether the result is the `Err` variant (no usable value). -/
def isErrVariant {α ε : Type} : MultiResult α ε → Bool
  | .err _ => true
  | _ => false

/-- `MultiResult::into_result` (`multi_err.rs` lines 198–204): seals a
`MultiResult` into a plain `Result`, discarding the partial success value of
`OkErr`. -/
def intoResult {α ε : Type} : MultiResult α ε → Except (List ε) α
  | .ok t => Except.ok t
  | .okErr _ errs => Except.error errs
  | .err errs => Except.error errs

/-- One step of the `FromIterator for MultiResult` loop (`multi_err.rs` lines
214–223): the accumulator is (collected values, accumulated errors,
`had_any_ok`); `errors.optionally(r)` appends the element's errors and yields
its value when one exists. -/
def fromIterStep {α ε : Type} (acc : List α × List ε × Bool) (r : MultiResult α ε) :
    List α × List ε × Bool :=
  match r with
  | .ok t => (acc.1 ++ [t], acc.2.1, true)
  | .okErr t es => (acc.1 ++ [t], acc.2.1 ++ es, true)
  | .err es => (acc.1, acc.2.1 ++ es, acc.2.2)

/-- `FromIterator::from_iter` for `MultiResult` (`multi_err.rs` lines 206–230):
visits every element (no early return), accumulating all errors and all
success values, then chooses the variant from whether errors were seen and
whether any element yielded a usable value. -/
def fromIter {α ε : Type} (l : List (MultiResult α ε)) : MultiResult (List α) ε :=
  let acc := l.foldl fromIterStep ([], [], false)
  if acc.2.1.isEmpty then .ok acc.1
  else if acc.2.2 then .okErr acc.1 acc.2.1
  else .err acc.2.1

/-- Specification-side: the success values of the elements, in order. -/
def successes {α ε : Type} (l : List (MultiResult α ε)) : List α :=
  l.filterMap resVal

/-- Specification-side: concatenation of all elements' error lists, in order. -/
def allErrs {α ε : Type} (l : List (MultiResult α ε)) : List ε :=
  (l.map resErrs).flatten

/-- An element yields a usable value iff it is `Ok` or `OkErr`. -/
def hasVal {α ε : Type} (r : MultiResult α ε) : Bool :=
  (resVal r).isSome

end MultiResult

/-! ## KDL document model

Embedding of the parsed KDL tree consumed by the core (`kdl` crate types as
used by `template-kdl/src/span.rs`): a node has an optional type annotation,
a name, entries (positional or named arguments) and an optional children
document.  Byte spans are diagnostic metadata that no branching in the
verified claims depends on, so they are not carried. -/

/-- `kdl::KdlValue` (the integer bases are kept so that base-insensitivity
can be stated).  Float payloads are carried as opaque bit patterns: no
verified claim depends on float arithmetic. -/
inductive KdlValue : Type where
  | base10 (i : Int)
  | base2 (i : Int)
  | base8 (i : Int)
  | base16 (i : Int)
  | base10Float (bits : Nat)
  | string (s : String)
  | rawString (s : String)
  | bool (b : Bool)
  | null
  deriving DecidableEq, Repr

/-- `KdlValue::as_string`: `Some` exactly for `String` and `RawString`. -/
def KdlValue.asString : KdlValue → Option String
  | .string s => some s
  | .rawString s => some s
  | _ => none

/-- `kdl::KdlEntry`: optional name, optional type annotation, value. -/
structure KEntry : Type where
  name : Option String
  ty : Option String
  value : KdlValue
  deriving DecidableEq, Repr

/-- `kdl::KdlNode`: type annotation, name, entries, optional children
document (`children()` returning `None` differs from an empty document). -/
inductive KNode : Type where
  | mk (ty : Option String) (name : String) (entries : List KEntry)
       (children : Option (List KNode))

def KNode.ty : KNode → Option String
  | .mk t _ _ _ => t

def KNode.name : KNode → String
  | .mk _ n _ _ => n

def KNode.entries : KNode → List KEntry
  | .mk _ _ e _ => e

def KNode.children : KNode → Option (List KNode)
  | .mk _ _ _ c => c

/-! ## Template engine

Embedding of `template-kdl/src/template.rs` together with the document
driver of `template-kdl/src/lib.rs`.  The repository carries two
representations of the scope chain (an `Arc` linked list in
`bindings.rs`/`lib.rs` and an `Rc<[Binding]>` slice plus `binding_index` in
`template.rs`); both scan newest-binding-first and a binding's visible
scope is exactly the chain built before it.  The slice representation is
embedded: the binding at position `i` of the list carries
`bindingIndex = i`, and the left-to-right fold of the driver appends.

`unwrap`/`panic!` sites of the source are modelled by `Option` results:
`none` means the Rust code panics. -/

/-- `template-kdl/src/err.rs` `ErrorType` (spans omitted). -/
inductive TError : Type where
  | nonstringParam (v : KdlValue)
  | badTemplateNodeParam
  | noBody
  | notThunk
  | empty
  deriving DecidableEq, Repr

/-- `TdefaultArg<'s>` (template.rs lines 62–68). -/
inductive TdefaultArg : Type where
  | none
  | value (v : KdlValue)
  | node (n : KNode)
  | expand (doc : Option (List KNode))

/-- `Tparameter<'s>` (template.rs lines 74–78). -/
structure Tparameter : Type where
  name : String
  value : TdefaultArg

/-- `Declaration<'s>` (template.rs lines 141–145): one body node plus the
declared parameters. -/
structure Declaration : Type where
  body : KNode
  params : List Tparameter

/-- `Declaration::param_named`. -/
def Declaration.paramNamed (d : Declaration) (n : String) : Option Tparameter :=
  d.params.find? (fun p => p.name == n)

/-- `Declaration::param_at`. -/
def Declaration.paramAt (d : Declaration) (i : Nat) : Option Tparameter :=
  d.params.get? i

/-- `Binding<'s>` (template.rs lines 239–246): `binding_index` is the
position of the binding in the scope slice; `declaration` is `none` when the
declaration was malformed. -/
structure Binding : Type where
  name : String
  bindingIndex : Nat
  declaration : Option Declaration

mutual
/-- `Targuments<'s>` (template.rs lines 118–123): the three argument maps of
a call site.  `HashMap::insert` overwrites; the maps are only ever read back
through point lookups, so they are embedded as association lists with
head-insertion and first-match lookup (observationally equal). -/
inductive Targuments : Type where
  | mk (expandArgs : List (String × List NodeThunk))
       (values : List (String × KdlValue))
       (nodes : List (String × NodeThunk))

/-- `Context<'s>` (template.rs lines 277–283). -/
inductive Context : Type where
  | mk (bindingIndex : Nat) (bindings : List Binding) (arguments : Targuments)

/-- `NodeThunk<'s>` (template.rs lines 415–419): a node paired with the
context used to expand it. -/
inductive NodeThunk : Type where
  | mk (body : KNode) (context : Context)
end

def Targuments.expandArgs : Targuments → List (String × List NodeThunk)
  | .mk e _ _ => e

def Targuments.values : Targuments → List (String × KdlValue)
  | .mk _ v _ => v

def Targuments.nodes : Targuments → List (String × NodeThunk)
  | .mk _ _ n => n

/-- `Targuments::default()`. -/
def Targuments.empty : Targuments := .mk [] [] []

def Context.bindingIndex : Context → Nat
  | .mk i _ _ => i

def Context.bindings : Context → List Binding
  | .mk _ b _ => b

def Context.arguments : Context → Targuments
  | .mk _ _ a => a

def NodeThunk.body : NodeThunk → KNode
  | .mk b _ => b

def NodeThunk.context : NodeThunk → Context
  | .mk _ c => c

/-- First-match association-list lookup (the read side of `HashMap`). -/
def alistLookup {β : Type} (l : List (String × β)) (k : String) : Option β :=
  (l.find? (fun p => p.1 == k)).map Prod.snd

/-- `Targuments::expand` (template.rs lines 125–127). -/
def Targuments.expandLookup (a : Targuments) (k : String) : Option (List NodeThunk) :=
  alistLookup a.expandArgs k

/-- `Targuments::value` (template.rs lines 128–131): the key is the entry's
value, which must itself be a string naming a parameter. -/
def Targuments.valueLookup (a : Targuments) (v : KdlValue) : Option KdlValue :=
  v.asString.bind (fun k => alistLookup a.values k)

/-- `Targuments::ident` (template.rs lines 133–136). -/
def Targuments.identLookup (a : Targuments) (k : String) : Option String :=
  (alistLookup a.values k).bind KdlValue.asString

/-- `Targuments::node` (template.rs lines 137–139). -/
def Targuments.nodeLookup (a : Targuments) (k : String) : Option NodeThunk :=
  alistLookup a.nodes k

def Targuments.insertValue (a : Targuments) (k : String) (v : KdlValue) : Targuments :=
  .mk a.expandArgs ((k, v) :: a.values) a.nodes

def Targuments.insertNode (a : Targuments) (k : String) (t : NodeThunk) : Targuments :=
  .mk a.expandArgs a.values ((k, t) :: a.nodes)

def Targuments.insertExpand (a : Targuments) (k : String) (l : List NodeThunk) : Targuments :=
  .mk ((k, l) :: a.expandArgs) a.values a.nodes

/-- `NodeThunk::name` (template.rs lines 430–436): the effective name after
substituting a same-named string value argument. -/
def NodeThunk.effName (t : NodeThunk) : String :=
  (t.context.arguments.identLookup t.body.name).getD t.body.name

/-- `EntryThunk::value` (template.rs lines 333–336): the effective entry
value after argument substitution. -/
def entryValue (ctx : Context) (e : KEntry) : KdlValue :=
  (ctx.arguments.valueLookup e.value).getD e.value

/-- `ValueExt<'s>` (template.rs lines 345–349). -/
inductive ValueExt : Type where
  | node (t : NodeThunk)
  | value (v : KdlValue)

/-- `FieldThunk<'s>` (template.rs lines 366–371). -/
structure FieldThunk : Type where
  ty : Option String
  name : Option String
  value : ValueExt

/-- `FieldThunk::new` (template.rs lines 373–382): a field whose name is
exactly `"-"` is exposed with `name = None`. -/
def FieldThunk.new (declaredTy : Option String) (fieldName : Option String)
    (value : ValueExt) : FieldThunk :=
  { ty := declaredTy, name := fieldName.filter (fun n => n != "-"), value := value }

/-- `From<EntryThunk> for FieldThunk` (template.rs lines 396–402). -/
def fieldOfEntry (ctx : Context) (e : KEntry) : FieldThunk :=
  FieldThunk.new e.ty e.name (.value (entryValue ctx e))

/-- `From<NodeThunk> for FieldThunk` (template.rs lines 403–413); the field
name is the raw body name. -/
def fieldOfNode (t : NodeThunk) : FieldThunk :=
  FieldThunk.new t.body.ty (some t.body.name) (.node t)

/-- `TryFrom<SpannedEntry> for Tparameter` (template.rs lines 103–117): an
unnamed entry must be a (plain) string naming the parameter; a named entry
declares a value default. -/
def Tparameter.ofEntry (e : KEntry) : Except TError Tparameter :=
  match e.name, e.value with
  | none, .string s => .ok { name := s, value := .none }
  | none, v => .error (.nonstringParam v)
  | some n, v => .ok { name := n, value := .value v }

/-- `TryFrom<SpannedNode> for Tparameter` (template.rs lines 79–102): a
parameter node named `expand` unwraps its first entry (panicking when there
is none or it is not a string); any other node must have exactly one child.
`none` models the panic. -/
def Tparameter.ofNode (n : KNode) : Option (Except TError Tparameter) :=
  if n.name = "expand" then
    match n.entries.head? with
    | Option.none => Option.none
    | some e =>
      match e.value.asString with
      | Option.none => Option.none
      | some pname => some (.ok { name := pname, value := .expand n.children })
  else
    match n.children with
    | some cs =>
      match cs with
      | [c] => some (.ok { name := n.name, value := .node c })
      | _ => some (.error .badTemplateNodeParam)
    | Option.none => some (.error .badTemplateNodeParam)

/-- `MultiErrorTrait::process_collect` applied to a list of `Result`s:
collect the successes, record every error (order preserved). -/
def processCollect {α : Type} (l : List (Except TError α)) : List α × List TError :=
  (l.filterMap (fun r => match r with | .ok a => some a | .error _ => Option.none),
   l.filterMap (fun r => match r with | .ok _ => Option.none | .error e => some e))

/-- Sequence a list of possibly-panicking computations. -/
def sequenceOption {α : Type} : List (Option α) → Option (List α)
  | [] => some []
  | Option.none :: _ => Option.none
  | some a :: rest => (sequenceOption rest).map (fun l => a :: l)

/-- `MultiError::into_result` (multi_err.rs lines 11–16): `Ok` when no error
was recorded, `OkErr` otherwise. -/
def intoMultiResult {α ε : Type} (t : α) (es : List ε) : MultiResult α ε :=
  if es.isEmpty then .ok t else .okErr t es

/-- `Declaration::new` (template.rs lines 153–169): no children or an empty
children document is fatal (`NoBody`); entries then all-but-last child nodes
are parsed as parameters with errors recorded and offending parameters
dropped; the last child is the body. -/
def Declaration.new (n : KNode) : Option (MultiResult Declaration TError) :=
  match n.children with
  | Option.none => some (.err [.noBody])
  | some doc =>
    let entry := processCollect (n.entries.map Tparameter.ofEntry)
    if doc.length = 0 then some (.err (entry.2 ++ [.noBody]))
    else
      match sequenceOption ((doc.dropLast).map Tparameter.ofNode) with
      | Option.none => Option.none
      | some rs =>
        let nodep := processCollect rs
        match doc.getLast? with
        | Option.none => Option.none
        | some body =>
          some (intoMultiResult { body := body, params := entry.1 ++ nodep.1 }
            (entry.2 ++ nodep.2))

/-- `Binding::new` (template.rs lines 249–256, via
`MultiResult::unwrap_opt`): a malformed declaration leaves `declaration =
none` with the errors reported; a partially-parsed declaration is kept. -/
def Binding.new (index : Nat) (n : KNode) : Option (Binding × List TError) :=
  (Declaration.new n).map (fun r =>
    ({ name := n.name, bindingIndex := index, declaration := MultiResult.resVal r },
     MultiResult.resErrs r))

/-- `children()` of a node yields a strictly smaller tree. -/
theorem KNode.sizeOf_children_lt {n : KNode} {cs : List KNode}
    (h : n.children = some cs) : sizeOf cs < sizeOf n := by
  cases n with
  | mk ty nm es ch =>
    cases ch with
    | none => simp [KNode.children] at h
    | some cs' =>
      simp [KNode.children] at h
      subst h
      simp
      omega

mutual

/-- `NodeThunk::children` (template.rs lines 443–460): walk the raw children
document, replacing each child by its (possibly empty) expansion. -/
def thunkChildren (fuel : Nat) (t : NodeThunk) : Option (List NodeThunk) :=
  match h : t.body.children with
  | Option.none => some []
  | some cs => flatMapExpand fuel t.context cs

termination_by (fuel, sizeOf t.body, 1, 0)
decreasing_by
  apply Prod.Lex.right
  apply Prod.Lex.left
  exact KNode.sizeOf_children_lt h

/-- `NodeThunk::fields` (template.rs lines 461–465): entries first, then
expanded children. -/
def thunkFieldsM (fuel : Nat) (t : NodeThunk) : Option (List FieldThunk) :=
  match thunkChildren fuel t with
  | Option.none => Option.none
  | some cs =>
    some (t.body.entries.map (fieldOfEntry t.context) ++ cs.map fieldOfNode)

termination_by (fuel, sizeOf t.body, 1, 1)

/-- The `flat_map(with_param_expanded)` part of `NodeThunk::children`. -/
def flatMapExpand (fuel : Nat) (ctx : Context) (l : List KNode) :
    Option (List NodeThunk) :=
  match l with
  | [] => some []
  | c :: rest =>
    match withParamExpanded fuel ctx c with
    | Option.none => Option.none
    | some r =>
      match flatMapExpand fuel ctx rest with
      | Option.none => Option.none
      | some rs => some (r ++ rs)

termination_by (fuel, sizeOf l, 2, 0)

/-- The `with_param_expanded` closure (template.rs lines 447–455): an empty
replacement yields the child unchanged. -/
def withParamExpanded (fuel : Nat) (ctx : Context) (c : KNode) :
    Option (List NodeThunk) :=
  match ctxExpand fuel ctx (NodeThunk.mk c ctx) with
  | Option.none => Option.none
  | some replacement =>
    some (if replacement.isEmpty then [NodeThunk.mk c ctx] else replacement)

termination_by (fuel, sizeOf c, 9, 0)

/-- `invocation.fields().next().is_none()` (template.rs line 297), with the
source's iterator laziness: entries are tested before any child is expanded
and only the first child's expansion is forced. -/
def fieldsEmpty (fuel : Nat) (t : NodeThunk) : Option Bool :=
  match t.body.entries with
  | _ :: _ => some false
  | [] =>
    match h : t.body.children with
    | Option.none => some true
    | some cs => noChildYields fuel t.context cs

termination_by (fuel, sizeOf t.body, 6, 0)
decreasing_by
  apply Prod.Lex.right
  apply Prod.Lex.left
  exact KNode.sizeOf_children_lt h

/-- Whether the lazy child part of the `fields()` iterator yields nothing. -/
def noChildYields (fuel : Nat) (ctx : Context) (l : List KNode) : Option Bool :=
  match l with
  | [] => some true
  | c :: rest =>
    match withParamExpanded fuel ctx c with
    | Option.none => Option.none
    | some r => if r.isEmpty then noChildYields fuel ctx rest else some false

termination_by (fuel, sizeOf l, 2, 0)

/-- `Context::expand` (template.rs lines 294–313): argument substitution for
zero-field invocations first, then the reserved `expand` splice and the scan
of the visible bindings. -/
def ctxExpand (fuel : Nat) (ctx : Context) (inv : NodeThunk) :
    Option (List NodeThunk) :=
  match fieldsEmpty fuel inv with
  | Option.none => Option.none
  | some isEmpty =>
    match (if isEmpty then ctx.arguments.nodeLookup inv.effName else Option.none) with
    | some expanded => some [expanded]
    | Option.none => expandRest fuel ctx inv inv.effName

termination_by (fuel, sizeOf inv.body, 8, 0)

/-- The part of `Context::expand` after the argument-substitution branch:
the `expand` keyword (with its three `unwrap` panic sites, template.rs lines
302–305) and the newest-first scan of `bindings[0..binding_index]`. -/
def expandRest (fuel : Nat) (ctx : Context) (inv : NodeThunk)
    (invokeName : String) : Option (List NodeThunk) :=
  if invokeName = "expand" then
    match inv.body.entries.head? with
    | Option.none => Option.none
    | some e =>
      match (entryValue inv.context e).asString with
      | Option.none => Option.none
      | some expandName =>
        match ctx.arguments.expandLookup expandName with
        | Option.none => Option.none
        | some l => some l
  else
    match scanBindings fuel ((ctx.bindings.take ctx.bindingIndex).reverse) inv
        ctx.bindings with
    | Option.none => Option.none
    | some found => some found.toList

termination_by (fuel, sizeOf inv.body, 5, 0)

/-- `iter().rev().find_map(|b| b.try_invoke(..))` over the visible slice
(already reversed here, so newest binding first). -/
def scanBindings (fuel : Nat) (bs : List Binding) (inv : NodeThunk)
    (bindings : List Binding) : Option (Option NodeThunk) :=
  match bs with
  | [] => some Option.none
  | b :: rest =>
    match tryInvoke fuel b inv bindings with
    | Option.none => Option.none
    | some (some t) => some (some t)
    | some Option.none => scanBindings fuel rest inv bindings

termination_by (fuel, sizeOf inv.body, 4, bs.length)

/-- `Binding::try_invoke` (template.rs lines 257–274): name mismatch or a
missing (malformed) declaration falls through; otherwise the declaration
body is yielded in a fresh context at the binding's own index. -/
def tryInvoke (fuel : Nat) (b : Binding) (inv : NodeThunk)
    (bindings : List Binding) : Option (Option NodeThunk) :=
  if b.name ≠ inv.effName then some Option.none
  else
    match b.declaration with
    | Option.none => some Option.none
    | some d =>
      match declArguments fuel d inv b.bindingIndex bindings with
      | Option.none => Option.none
      | some args =>
        some (some (NodeThunk.mk d.body (Context.mk b.bindingIndex bindings args)))

termination_by (fuel, sizeOf inv.body, 3, 0)

/-- `Declaration::arguments` (template.rs lines 170–236): parameter defaults
are bound in the defining scope, then the call-site fields override them
positionally or by name. -/
def declArguments (fuel : Nat) (d : Declaration) (call : NodeThunk)
    (bindingIndex : Nat) (bindings : List Binding) : Option Targuments :=
  let defCtx := Context.mk bindingIndex bindings Targuments.empty
  let init := d.params.foldl (fun (acc : Targuments) p =>
    match p.value with
    | .expand (some doc) =>
      acc.insertExpand p.name (doc.map (fun n => NodeThunk.mk n defCtx))
    | .node n => acc.insertNode p.name (NodeThunk.mk n defCtx)
    | .value v => acc.insertValue p.name v
    | _ => acc) Targuments.empty
  match fuel with
  | 0 => Option.none
  | Nat.succ f =>
    match thunkFieldsM (Nat.succ f) call with
    | Option.none => Option.none
    | some fields => argsFold f d fields 0 init

termination_by (fuel, sizeOf call.body, 2, 0)

/-- The `for (i, argument) in call.fields().enumerate()` loop of
`Declaration::arguments`. -/
def argsFold (fuel : Nat) (d : Declaration) (l : List FieldThunk) (i : Nat)
    (acc : Targuments) : Option Targuments :=
  match l with
  | [] => some acc
  | f :: rest =>
    match f.value with
    | .value v =>
      let p := match f.name with
        | some n => d.paramNamed n
        | Option.none => d.paramAt i
      let acc' := match p with
        | some p => acc.insertValue p.name v
        | Option.none => acc
      argsFold fuel d rest (i + 1) acc'
    | .node arg =>
      match d.paramAt i with
      | some { name := pname, value := .expand _ } =>
        match fuel with
        | 0 => Option.none
        | Nat.succ fl =>
          match thunkChildren fl arg with
          | Option.none => Option.none
          | some cs => argsFold (Nat.succ fl) d rest (i + 1) (acc.insertExpand pname cs)
      | some p => argsFold fuel d rest (i + 1) (acc.insertNode p.name arg)
      | Option.none => argsFold fuel d rest (i + 1) acc
termination_by (fuel, sizeOf l, 0, 0)


end


/-- `NodeThunk::first_argument` (template.rs lines 482–491): the value of
the sole unnamed entry, if the node has exactly one entry and it is
unnamed. -/
def NodeThunk.firstArgument (t : NodeThunk) : Option KdlValue :=
  match t.body.entries with
  | [e] => if e.name = Option.none then some (entryValue t.context e) else Option.none
  | _ => Option.none

/-- `NodeThunk::is_anon` (template.rs lines 493–495): whether the first
field (if any) is unnamed. -/
def NodeThunk.isAnon (fuel : Nat) (t : NodeThunk) : Option Bool :=
  match t.body.entries with
  | e :: _ => some ((fieldOfEntry t.context e).name = Option.none)
  | [] =>
    match thunkChildren fuel t with
    | Option.none => Option.none
    | some cs =>
      some (match cs.head? with
        | some c => (fieldOfNode c).name = Option.none
        | Option.none => false)

/-! ## Document driver

Embedding of `template-kdl/src/lib.rs` `read_document` (lines 59–86): all
but the last top-level node are folded left-to-right into the scope; the
last node is the document's root (or an `export` table). -/

/-- `Context::new` (template.rs lines 286–292): a fresh context seeing the
whole scope, with no arguments. -/
def Context.new (bindings : List Binding) : Context :=
  Context.mk bindings.length bindings Targuments.empty

/-- `Document` (lib.rs lines 22–27). -/
inductive RDocument : Type where
  | node (t : NodeThunk)
  | exports (table : List Binding)

/-- The export renamings read off the `export` node's entries
(`Bindings::from_export`, lib.rs lines 34–56): entries carrying both a name
and a string value become `(internal name, external name)` pairs.  The
`panic!()` arm of `from_export` is unreachable because `Navigable` for
`SpannedNode` always produces a field list, never a bare value. -/
def exportPairs (exposed : KNode) : List (String × String) :=
  exposed.entries.filterMap (fun e =>
    match e.name, e.value.asString with
    | some n, some v => some (n, v)
    | _, _ => Option.none)

/-- `Bindings::exports` (bindings.rs lines 32–46): visit the scope newest
binding first, keeping (renamed) only the bindings selected by the export
pairs. -/
def exportsOf (bindings : List Binding) (pairs : List (String × String)) :
    List Binding :=
  bindings.reverse.filterMap (fun b =>
    (alistLookup pairs b.name).map (fun tgt => { b with name := tgt }))

/-- The left-to-right fold of `read_document` (lib.rs lines 73–77) over the
binding nodes, starting from the externally supplied bindings: each step
parses one declaration, records its errors, and appends the new binding
(whose index is its position, so its visible scope is exactly the chain
built so far). -/
def scopeFold (pre : List Binding) (ns : List KNode) :
    Option (List Binding × List TError) :=
  ns.foldl (fun acc n =>
    match acc with
    | Option.none => Option.none
    | some (bs, es) =>
      match Binding.new bs.length n with
      | Option.none => Option.none
      | some (b, errs) => some (bs ++ [b], es ++ errs)) (some (pre, []))

/-- `read_document` (lib.rs lines 59–86): an empty document is fatal; the
first `n-1` nodes build the scope; a last node named `export` yields an
export table, any other last node becomes the root thunk wrapped in the
fully built scope. -/
def readDocument (pre : List Binding) (nodes : List KNode) :
    Option (MultiResult RDocument TError) :=
  if nodes.isEmpty then some (.err [.empty])
  else
    match scopeFold pre nodes.dropLast with
    | Option.none => Option.none
    | some (bs, errs) =>
      match nodes.getLast? with
      | Option.none => Option.none
      | some last =>
        if last.name = "export" then
          some (intoMultiResult (RDocument.exports (exportsOf bs (exportPairs last))) errs)
        else
          some (intoMultiResult (RDocument.node (NodeThunk.mk last (Context.new bs))) errs)

/-! ## Type-directed builder: schema model

Embedding of the `bevy-reflect-deser` crate.  The external `bevy_reflect`
registry is modelled by its observable surface: a list of registrations,
each carrying a type id, a short name and a `TypeInfo` shape.  Spans are
diagnostic metadata that no verified branching depends on and are omitted;
`u8` casts of field counts are kept as `Nat` (they only feed error
payloads). -/

/-- The built-in Rust integer targets of `KdlConcrete::dyn_primitive_value`. -/
inductive IntTy : Type where
  | i8 | i16 | i32 | i64 | i128 | isize
  | u8 | u16 | u32 | u64 | u128 | usize
  deriving DecidableEq, Repr

/-- `std::any::type_name` for the integer targets. -/
def IntTy.rustName : IntTy → String
  | .i8 => "i8"
  | .i16 => "i16"
  | .i32 => "i32"
  | .i64 => "i64"
  | .i128 => "i128"
  | .isize => "isize"
  | .u8 => "u8"
  | .u16 => "u16"
  | .u32 => "u32"
  | .u64 => "u64"
  | .u128 => "u128"
  | .usize => "usize"

/-- Smallest representable value (`isize`/`usize` are 64-bit on the
reference platform). -/
def IntTy.minVal : IntTy → Int
  | .i8 => -(2 ^ 7)
  | .i16 => -(2 ^ 15)
  | .i32 => -(2 ^ 31)
  | .i64 => -(2 ^ 63)
  | .i128 => -(2 ^ 127)
  | .isize => -(2 ^ 63)
  | _ => 0

/-- Largest representable value. -/
def IntTy.maxVal : IntTy → Int
  | .i8 => 2 ^ 7 - 1
  | .i16 => 2 ^ 15 - 1
  | .i32 => 2 ^ 31 - 1
  | .i64 => 2 ^ 63 - 1
  | .i128 => 2 ^ 127 - 1
  | .isize => 2 ^ 63 - 1
  | .u8 => 2 ^ 8 - 1
  | .u16 => 2 ^ 16 - 1
  | .u32 => 2 ^ 32 - 1
  | .u64 => 2 ^ 64 - 1
  | .u128 => 2 ^ 128 - 1
  | .usize => 2 ^ 64 - 1

/-- `<T as TryFrom<i64>>::try_from(i).is_ok()` for each integer target,
for `i` in the `i64` range: widening targets always succeed, unsigned
targets reject negatives, narrowing targets check both bounds. -/
def IntTy.tryFromI64 (t : IntTy) (i : Int) : Bool :=
  match t with
  | .i64 | .i128 | .isize => true
  | .u64 | .u128 | .usize => decide (0 ≤ i)
  | _ => decide (t.minVal ≤ i ∧ i ≤ t.maxVal)

/-- The primitive dispatch targets of `dyn_primitive_value` (visit.rs lines
162–201): a `TypeId` is observably one of these cases. -/
inductive PrimTy : Type where
  | int (t : IntTy)
  | optInt (t : IntTy)
  | f32 | f64 | optF32 | optF64
  | bool | optBool
  | str | optStr
  | other (name : String)
  deriving DecidableEq, Repr

/-- A schema field: its declared name (meaningful for struct shapes), and
the name and id of its type (`NamedField`/`UnnamedField`). -/
structure FieldInfo : Type where
  fieldName : String
  typeName : String
  typeId : Nat
  deriving DecidableEq, Repr

/-- `bevy_reflect::TypeInfo`, restricted to the shapes the builder walks. -/
inductive TypeInfo : Type where
  | structInfo (name : String) (id : Nat) (fields : List FieldInfo)
  | tupleStructInfo (name : String) (id : Nat) (fields : List FieldInfo)
  | tupleInfo (name : String) (id : Nat) (fields : List FieldInfo)
  | listInfo (name : String) (id : Nat) (item : FieldInfo)
  | mapInfo (name : String) (id : Nat) (key : FieldInfo) (value : FieldInfo)
  | valueInfo (name : String) (id : Nat) (prim : PrimTy)
  deriving DecidableEq, Repr

def TypeInfo.typeName : TypeInfo → String
  | .structInfo n _ _ => n
  | .tupleStructInfo n _ _ => n
  | .tupleInfo n _ _ => n
  | .listInfo n _ _ => n
  | .mapInfo n _ _ _ => n
  | .valueInfo n _ _ => n

def TypeInfo.typeId : TypeInfo → Nat
  | .structInfo _ i _ => i
  | .tupleStructInfo _ i _ => i
  | .tupleInfo _ i _ => i
  | .listInfo _ i _ => i
  | .mapInfo _ i _ _ => i
  | .valueInfo _ i _ => i

/-- `bevy_reflect::TypeRegistration`: short name plus the type's shape. -/
structure TypeRegistration : Type where
  shortName : String
  info : TypeInfo
  deriving DecidableEq, Repr

/-- The type registry. -/
abbrev Registry : Type := List TypeRegistration

/-- `ConvertError` from `bevy-reflect-deser/src/err.rs` (the variants the
walked code constructs; spans omitted, field counts as `Nat`). -/
inductive ConvertError : Type where
  | genericUnsupported (msg : String)
  | typeMismatch (expected : String) (actual : String)
  | intDomain (i : Int) (ty : String)
  | noSuchType (name : String)
  | noValuesInNode (name : String)
  | untypedTupleField
  | multipleSameField (name : String) (field : String)
  | noSuchStructField (requested : String) (name : String)
      (available : List (String × String))
  | tooManyTupleFields (actual : Nat) (requested : Nat)
  | tooManyTupleStructFields (name : String) (actual : Nat) (requested : Nat)
  | notEnoughStructFields (missing : List Nat) (name : String)
      (expected : List String)
  | notEnoughTupleFields (actual : Nat) (expected : Nat)
  | unnamedMapField (name : String)
  | tupleMapDeclarationMixup
  deriving DecidableEq, Repr

/-- `get_named` (dyn_wrappers.rs lines 74–78): resolve by full type name,
falling back to the short name. -/
def getNamed (reg : Registry) (name : String) : Except ConvertError TypeRegistration :=
  match reg.find? (fun r => r.info.typeName == name) with
  | some r => .ok r
  | Option.none =>
    match reg.find? (fun r => r.shortName == name) with
    | some r => .ok r
    | Option.none => .error (.noSuchType name)

/-- `reg.get_type_info(type_id)` / `reg.get(type_id)`. -/
def findById (reg : Registry) (id : Nat) : Option TypeRegistration :=
  reg.find? (fun r => r.info.typeId == id)

/-- The single-field "newtype" test of `ExpectedType::new`: a
struct/tuple/tuple-struct with exactly one field exposes that field. -/
def TypeInfo.singleFieldInner : TypeInfo → Option FieldInfo
  | .structInfo _ _ [f] => some f
  | .tupleInfo _ _ [f] => some f
  | .tupleStructInfo _ _ [f] => some f
  | _ => Option.none

/-- `ExpectedType::new` (newtype.rs lines 108–136): the chain of types a
value of the expected type may be declared as, outermost first, ending at
the first non-newtype shape.  `none` models the `unwrap` panic when an
inner type is unregistered (and fuel exhaustion on a cyclic registry, where
the source loops forever). -/
def expectedTypeNew (reg : Registry) : Nat → TypeInfo → Option (List TypeInfo)
  | 0, _ => Option.none
  | Nat.succ fuel, t =>
    match t.singleFieldInner with
    | Option.none => some [t]
    | some f =>
      match findById reg f.typeId with
      | Option.none => Option.none
      | some inner => (expectedTypeNew reg fuel inner.info).map (fun tl => t :: tl)

/-- `type_info` (dyn_wrappers.rs lines 85–125): cross-check the declared
type name against the statically expected one.  The result is the
`ExpectedType` chain to build with; `Err` only when neither side resolves
(and the declared name is not the `Tuple` marker). -/
def typeInfo (reg : Registry) (fuel : Nat) (declared : Option String)
    (expected : Option String) : Option (MultiResult (List TypeInfo) ConvertError) :=
  let eRes := expected.map (fun e => getNamed reg e)
  let eErrs : List ConvertError :=
    match eRes with
    | some (.error er) => [er]
    | _ => []
  let eReg : Option TypeRegistration :=
    match eRes with
    | some (.ok r) => some r
    | _ => Option.none
  if declared = some "Tuple" then
    match eReg with
    | some er =>
      match expectedTypeNew reg fuel er.info with
      | Option.none => Option.none
      | some ch => some (intoMultiResult ch eErrs)
    | Option.none => some (intoMultiResult [] eErrs)
  else
    let dRes := declared.map (fun e => getNamed reg e)
    let dErrs : List ConvertError :=
      match dRes with
      | some (.error er) => [er]
      | _ => []
    let dReg : Option TypeRegistration :=
      match dRes with
      | some (.ok r) => some r
      | _ => Option.none
    let errs := eErrs ++ dErrs
    match dReg, eReg with
    | some d, some e =>
      if d.info.typeId ≠ e.info.typeId then
        match expectedTypeNew reg fuel d.info with
        | Option.none => Option.none
        | some ch =>
          some (intoMultiResult ch
            (errs ++ [.typeMismatch e.info.typeName d.info.typeName]))
      else
        match expectedTypeNew reg fuel e.info with
        | Option.none => Option.none
        | some ch => some (intoMultiResult ch errs)
    | Option.none, some e =>
      match expectedTypeNew reg fuel e.info with
      | Option.none => Option.none
      | some ch => some (intoMultiResult ch errs)
    | some d, Option.none =>
      match expectedTypeNew reg fuel d.info with
      | Option.none => Option.none
      | some ch => some (intoMultiResult ch errs)
    | Option.none, Option.none => some (.err (errs ++ [.untypedTupleField]))

/-! ## Primitive value conversion (visit.rs) -/

/-- `KdlConcrete` (visit.rs lines 36–42). -/
inductive KdlConcrete : Type where
  | int (i : Int)
  | float (bits : Nat)
  | boolean (b : Bool)
  | str (s : String)
  | null
  deriving DecidableEq, Repr

/-- `From<KdlValue> for KdlConcrete` (visit.rs lines 43–56): every integer
base collapses to `Int`, both string forms to `Str`. -/
def KdlConcrete.ofValue : KdlValue → KdlConcrete
  | .base10 i => .int i
  | .base2 i => .int i
  | .base16 i => .int i
  | .base8 i => .int i
  | .base10Float b => .float b
  | .string s => .str s
  | .rawString s => .str s
  | .bool b => .boolean b
  | .null => .null

/-- `Display for KdlConcrete` (visit.rs lines 57–67), used only inside
mismatch error payloads (float payloads are opaque here). -/
def KdlConcrete.display : KdlConcrete → String
  | .int i => "int(" ++ toString i ++ ")"
  | .float _ => "float(<opaque>)"
  | .boolean b => "bool(" ++ (if b then "true" else "false") ++ ")"
  | .str s => "string(\"" ++ s ++ "\")"
  | .null => "null"

/-- A built dynamic primitive (the `Box<dyn Reflect>` leaves).  The
`f as f32` cast is recorded, not computed. -/
inductive PrimValue : Type where
  | int (t : IntTy) (i : Int)
  | optInt (t : IntTy) (i : Option Int)
  | float64 (bits : Nat)
  | float32cast (bits : Nat)
  | optFloat64 (bits : Nat)
  | optFloat32cast (bits : Nat)
  | boolean (b : Bool)
  | optBoolean (b : Bool)
  | str (s : String)
  | optStr (s : String)
  deriving DecidableEq, Repr

/-- A built dynamic value (`DynamicStruct`/`DynamicTuple`/… with their
`set_name` results). -/
inductive DynValue : Type where
  | prim (p : PrimValue)
  | dynStruct (name : String) (fields : List (String × DynValue))
  | dynTupleStruct (name : String) (fields : List DynValue)
  | dynTuple (name : String) (fields : List DynValue)
  | dynList (name : String) (items : List DynValue)
  | dynMap (name : String) (items : List (DynValue × DynValue))

/-- `KdlConcrete::dyn_primitive_value` (visit.rs lines 144–202): integer
literals convert through `TryFrom<i64>` with an `IntDomain` error carrying
the attempted value and the target type on failure; `Option` targets
swallow the failure into `None`; `i64`/`Option<i64>` convert directly. -/
def dynPrimitiveValue (c : KdlConcrete) (handle : PrimTy)
    (mismatch : Unit → ConvertError) : Except ConvertError DynValue :=
  match c, handle with
  | .int i, .int t =>
    match t with
    | .i64 => .ok (.prim (.int .i64 i))
    | _ =>
      if t.tryFromI64 i then .ok (.prim (.int t i))
      else .error (.intDomain i t.rustName)
  | .int i, .optInt t =>
    match t with
    | .i64 => .ok (.prim (.optInt .i64 (some i)))
    | _ => .ok (.prim (.optInt t (if t.tryFromI64 i then some i else Option.none)))
  | .int _, _ => .error (mismatch ())
  | .float b, .f32 => .ok (.prim (.float32cast b))
  | .float b, .f64 => .ok (.prim (.float64 b))
  | .float b, .optF32 => .ok (.prim (.optFloat32cast b))
  | .float b, .optF64 => .ok (.prim (.optFloat64 b))
  | .float _, _ => .error (mismatch ())
  | .boolean b, .bool => .ok (.prim (.boolean b))
  | .boolean b, .optBool => .ok (.prim (.optBoolean b))
  | .boolean _, _ => .error (mismatch ())
  | .str s, .str => .ok (.prim (.str s))
  | .str s, .optStr => .ok (.prim (.optStr s))
  | .str _, _ => .error (mismatch ())
  | .null, _ =>
    .error (.genericUnsupported
      "null values currently cannot be converted into rust types")

/-- The `mismatch` closure of `dyn_value_newtypes` (visit.rs lines 93–102):
one expected name, or `any of` the whole wrapper chain. -/
def newtypeMismatch (wrappers : List String) (actual : String) : ConvertError :=
  .typeMismatch
    (if wrappers.length = 1 then wrappers.headD ""
     else "any of " ++ String.intercalate ", " wrappers)
    actual

/-- `KdlConcrete::dyn_value_newtypes` (visit.rs lines 85–140): recursively
unwrap single-field struct/tuple/tuple-struct shapes so a bare literal can
satisfy a chain of newtype wrappers; unit structs accept their own (short)
name as a string; `Value` shapes convert through `dyn_primitive_value`.
`none` is fuel exhaustion (the source recurses unboundedly on a cyclic
registry). -/
def dynValueNewtypes (reg : Registry) :
    Nat → KdlConcrete → Nat → String → List String →
    Option (Except ConvertError DynValue)
  | 0, _, _, _, _ => Option.none
  | Nat.succ fuel, c, handleId, handleName, wrappers =>
    let ws := wrappers ++ [handleName]
    match findById reg handleId with
    | Option.none => some (.error (.noSuchType handleName))
    | some r =>
      match r.info with
      | .structInfo _ _ [] =>
        match c with
        | .str s =>
          if r.shortName = s ∨ r.info.typeName = s then
            some (.ok (.dynStruct handleName []))
          else some (.error (newtypeMismatch ws (KdlConcrete.display (.str s))))
        | _ => some (.error (newtypeMismatch ws c.display))
      | .structInfo _ _ [f] =>
        (dynValueNewtypes reg fuel c f.typeId f.typeName ws).map (fun r =>
          r.map (fun inner => .dynStruct handleName [(f.fieldName, inner)]))
      | .tupleInfo _ _ [f] =>
        (dynValueNewtypes reg fuel c f.typeId f.typeName ws).map (fun r =>
          r.map (fun inner => .dynTuple handleName [inner]))
      | .tupleStructInfo _ _ [f] =>
        (dynValueNewtypes reg fuel c f.typeId f.typeName ws).map (fun r =>
          r.map (fun inner => .dynTupleStruct handleName [inner]))
      | .valueInfo _ _ prim =>
        some (dynPrimitiveValue c prim (fun _ => newtypeMismatch ws c.display))
      | _ => some (.error (newtypeMismatch ws c.display))

/-! ## Builder field view

The builders consume the thunk view of a node (`visit.rs` `FieldThunk`,
`NodeThunkExt`).  The deserialization claims concern documents without
template invocations, for which the thunk view coincides with the raw node
(empty `Context`); the view is therefore embedded directly over `KNode`. -/

/-- `visit.rs` `ValueExt` (lines 205–208). -/
inductive DValueExt : Type where
  | node (n : KNode)
  | value (v : KdlValue)

/-- `visit.rs` `FieldThunk` (lines 230–235). -/
structure DField : Type where
  ty : Option String
  name : Option String
  value : DValueExt

/-- `FieldThunk::new` (visit.rs lines 237–246): a field named exactly `"-"`
is exposed with `name = None`. -/
def DField.new (declaredTy : Option String) (fieldName : Option String)
    (value : DValueExt) : DField :=
  { ty := declaredTy, name := fieldName.filter (fun n => n != "-"), value := value }

/-- `From<EntryThunk> for FieldThunk` (visit.rs lines 252–258). -/
def dFieldOfEntry (e : KEntry) : DField :=
  DField.new e.ty e.name (.value e.value)

/-- `From<NodeThunk> for FieldThunk` (visit.rs lines 259–269). -/
def dFieldOfNode (n : KNode) : DField :=
  DField.new n.ty (some n.name) (.node n)

/-- `NodeThunkExt::fields` (visit.rs lines 282–286): entries then children. -/
def KNode.dFields (n : KNode) : List DField :=
  n.entries.map dFieldOfEntry ++ (n.children.getD []).map dFieldOfNode

/-- `NodeThunk::first_argument` (template.rs lines 482–491) on the raw
node: the value of the sole entry when it is unnamed. -/
def KNode.firstArgumentD (n : KNode) : Option KdlValue :=
  match n.entries with
  | [e] => if e.name = Option.none then some e.value else Option.none
  | _ => Option.none

/-- `NodeThunk::is_anon` (template.rs lines 493–495) on the raw node:
whether the first field, if any, is unnamed. -/
def KNode.isAnonD (n : KNode) : Bool :=
  match n.dFields.head? with
  | some f => f.name == Option.none
  | Option.none => false

/-- `FieldThunk::pair` (template.rs lines 383–393): the first two fields of
a node-valued field, for pair-style map entries. -/
def DField.pair (f : DField) : Option (DField × DField) :=
  match f.value with
  | .value _ => Option.none
  | .node n =>
    match n.dFields with
    | f1 :: f2 :: _ => some (f1, f2)
    | _ => Option.none

/-- `MultiResult::combine` (multi_err.rs lines 152–165). -/
def MultiResult.combine {α ε : Type} (r : MultiResult α ε) (errors : List ε) :
    MultiResult α ε :=
  if errors.isEmpty then r
  else
    match r with
    | .ok t => .okErr t errors
    | .okErr t es => .okErr t (es ++ errors)
    | .err es => .err (es ++ errors)

/-- The three anonymous-mode builders share `Wrapper<(), _, _>`
(`dyn_wrappers.rs` lines 478–510); they differ in the error payloads of
`expected`/`validate` and in the reflected constructor. -/
inductive AnonKind : Type where
  | tuple
  | tupleStruct
  | anonStruct
  | list
  deriving DecidableEq, Repr

/-- `Primitive::expected` for the anonymous builders: the type name of the
next positional field, or the too-many-fields error of the kind
(dyn_wrappers.rs lines 300–310, 357–366, 392–402). -/
def anonExpected (kind : AnonKind) (info : TypeInfo) (fields : List FieldInfo)
    (built : Nat) : Except ConvertError String :=
  match kind with
  | .list =>
    match fields.head? with
    | some f => .ok f.typeName
    | Option.none => .ok ""
  | _ =>
    match fields.get? built with
    | some f => .ok f.typeName
    | Option.none =>
      match kind with
      | .tuple => .error (.tooManyTupleFields fields.length built)
      | _ => .error (.tooManyTupleStructFields info.typeName fields.length built)

/-- `Primitive::validate` for the anonymous builders (dyn_wrappers.rs lines
314–325, 370–380, 406–417): a field-count mismatch is recorded, not fatal. -/
def anonValidate (kind : AnonKind) (fields : List FieldInfo) (built : Nat) :
    List ConvertError :=
  match kind with
  | .list => []
  | _ =>
    if built ≠ fields.length then [.notEnoughTupleFields built fields.length]
    else []

/-- `Primitive::reflect`/`set_name` for the anonymous builders.  For
`AnonDynamicStruct` the positional values were inserted under the declared
field names (dyn_wrappers.rs lines 294–299). -/
def anonReflect (kind : AnonKind) (info : TypeInfo) (fields : List FieldInfo)
    (acc : List DynValue) : DynValue :=
  match kind with
  | .tuple => .dynTuple info.typeName acc
  | .tupleStruct => .dynTupleStruct info.typeName acc
  | .list => .dynList info.typeName acc
  | .anonStruct =>
    .dynStruct info.typeName (((fields.map FieldInfo.fieldName).zip acc))

set_option maxHeartbeats 1600000

/-- `From<Result<T, E>> for MultiResult<T, E>` (multi_err.rs lines 231–238). -/
def exceptToMulti : Except ConvertError DynValue → MultiResult DynValue ConvertError
  | .ok t => .ok t
  | .error e => .err [e]

/-- The by-field builders share `Wrapper<String, _, _>` (dyn_wrappers.rs
lines 511–550): named structs and maps. -/
inductive BfKind : Type where
  | structK
  | mapK
  deriving DecidableEq, Repr

/-- `Primitive::expected` for the by-field builders (dyn_wrappers.rs lines
206–214 for structs, 182–184 for maps). -/
def bfExpected (kind : BfKind) (info : TypeInfo) (nm : String) :
    Except ConvertError String :=
  match kind, info with
  | .structK, .structInfo sname _ fs =>
    match fs.find? (fun f => f.fieldName == nm) with
    | some f => .ok f.typeName
    | Option.none =>
      .error (.noSuchStructField nm sname
        (fs.map (fun f => (f.fieldName, f.typeName))))
  | .mapK, .mapInfo _ _ _ vf => .ok vf.typeName
  | _, _ => .error (.genericUnsupported "shape mismatch")

/-- `Primitive::validate` for the by-field builders (dyn_wrappers.rs lines
218–235 for structs; maps always validate). -/
def bfValidate (kind : BfKind) (info : TypeInfo)
    (acc : List (String × DynValue)) : List ConvertError :=
  match kind, info with
  | .structK, .structInfo sname _ fs =>
    if acc.length ≠ fs.length then
      let expectedNames := fs.map FieldInfo.fieldName
      let missing := (List.range fs.length).filter (fun i =>
        match expectedNames.get? i with
        | some n => (acc.find? (fun p => p.1 == n)).isNone
        | Option.none => false)
      [.notEnoughStructFields missing sname expectedNames]
    else []
  | _, _ => []

/-- `Primitive::reflect`/`set_name` for the by-field builders.  Map keys
are boxed strings. -/
def bfReflect (kind : BfKind) (info : TypeInfo)
    (acc : List (String × DynValue)) : DynValue :=
  match kind with
  | .structK => .dynStruct info.typeName acc
  | .mapK => .dynMap info.typeName (acc.map (fun p => (.prim (.str p.1), p.2)))

/-- `ValueBuilder::new_dynamic` (dyn_wrappers.rs lines 453–468): the sole
unnamed argument converts as a primitive (through `KdlConcrete::dyn_value`,
the visit.rs seam); a node without one is fatal. -/
def valueBuilderNew (fuel : Nat) (reg : Registry) (vname : String) (vid : Nat)
    (n : KNode) : Option (MultiResult DynValue ConvertError) :=
  match n.firstArgumentD with
  | some v =>
    (dynValueNewtypes reg fuel (KdlConcrete.ofValue v) vid vname []).map exceptToMulti
  | Option.none => some (.err [.noValuesInNode vname])

theorem DField.sizeOf_value_lt (f : DField) : sizeOf f.value < sizeOf f := by
  cases f with
  | mk t n v => simp

mutual

/-- The free `into_dyn` dispatcher (newtype.rs lines 24–50): route a field
value to the builder of the expected shape (anonymous-mode detection for
structs and maps included).  A bare value against an expected type resolves
through `KdlConcrete::dyn_value` (visit.rs `ValueExt::into_dyn`, lines
210–221; the seam is stated there because `KdlConcrete::into_dyn` of the
older revision is absent from this snapshot). -/
def intoDynDispatch (fuel : Nat) (reg : Registry) (v : DValueExt)
    (expected : Option TypeInfo) : Option (MultiResult DynValue ConvertError) :=
  match v, expected with
  | .node n, Option.none => newDynamicAnonTuple fuel reg n
  | .node n, some (.mapInfo nm id k val) =>
    if n.isAnonD then newDynamicPairMap fuel reg k val n
    else newDynamicByField fuel reg .mapK (.mapInfo nm id k val) n
  | .node n, some (.listInfo nm id item) =>
    newDynamicAnon fuel reg .list (.listInfo nm id item) [item] n
  | .node n, some (.tupleInfo nm id fs) =>
    newDynamicAnon fuel reg .tuple (.tupleInfo nm id fs) fs n
  | .node n, some (.valueInfo nm id _) => valueBuilderNew fuel reg nm id n
  | .node n, some (.structInfo nm id fs) =>
    if ¬ n.isAnonD then newDynamicByField fuel reg .structK (.structInfo nm id fs) n
    else newDynamicAnon fuel reg .anonStruct (.structInfo nm id fs) fs n
  | .node n, some (.tupleStructInfo nm id fs) =>
    newDynamicAnon fuel reg .tupleStruct (.tupleStructInfo nm id fs) fs n
  | .value v, some expectedI =>
    (dynValueNewtypes reg fuel (KdlConcrete.ofValue v) expectedI.typeId
      expectedI.typeName []).map exceptToMulti
  | _, _ => some (.err [.genericUnsupported "cannot turn node into type"])

termination_by (fuel, sizeOf v, 1, 0)

/-- `ExpectedType::into_dyn` (newtype.rs lines 58–106): build from the
innermost type of the chain, then re-wrap outward. -/
def intoDynChain (fuel : Nat) (reg : Registry) (tys : List TypeInfo)
    (v : DValueExt) : Option (MultiResult DynValue ConvertError) :=
  match tys.reverse with
  | [] => intoDynDispatch fuel reg v Option.none
  | first :: restRev =>
    match intoDynDispatch fuel reg v (some first) with
    | Option.none => Option.none
    | some inner => chainLoop fuel reg restRev inner v

termination_by (fuel, sizeOf v, 6, 0)

/-- The re-wrapping loop of `ExpectedType::into_dyn` (newtype.rs lines
76–104): a clean `Ok` inner value is wrapped into the next single-field
shape (`field_at(0).unwrap()` panics on a fieldless struct); anything else
rebuilds the field against the outer type directly, discarding the inner
attempt. -/
def chainLoop (fuel : Nat) (reg : Registry) (tysRev : List TypeInfo)
    (inner : MultiResult DynValue ConvertError) (v : DValueExt) :
    Option (MultiResult DynValue ConvertError) :=
  match tysRev with
  | [] => some inner
  | ty :: rest =>
    match inner, ty with
    | .ok innerV, .structInfo nm _ fs =>
      match fs.head? with
      | Option.none => Option.none
      | some f0 =>
        chainLoop fuel reg rest (.ok (.dynStruct nm [(f0.fieldName, innerV)])) v
    | .ok innerV, .tupleInfo nm _ _ =>
      chainLoop fuel reg rest (.ok (.dynTuple nm [innerV])) v
    | .ok innerV, .tupleStructInfo nm _ _ =>
      chainLoop fuel reg rest (.ok (.dynTupleStruct nm [innerV])) v
    | _, _ =>
      match intoDynDispatch fuel reg v (some ty) with
      | Option.none => Option.none
      | some r => chainLoop fuel reg rest r v

termination_by (fuel, sizeOf v, 5, tysRev.length)

/-- `Builder::new_dynamic` for the anonymous builders
(dyn_wrappers.rs lines 428–439 with the `Wrapper<()>` impl): feed every
field, then `complete()` (validate, reflect) combined with the recorded
errors. -/
def newDynamicAnon (fuel : Nat) (reg : Registry) (kind : AnonKind)
    (info : TypeInfo) (infoFields : List FieldInfo) (n : KNode) :
    Option (MultiResult DynValue ConvertError) :=
  match fuel with
  | 0 => Option.none
  | Nat.succ f =>
    match addFieldsAnon f reg kind info infoFields n.dFields [] [] with
    | Option.none => Option.none
    | some (acc, errs) =>
      some ((intoMultiResult (anonReflect kind info infoFields acc)
        (anonValidate kind infoFields acc.length)).combine errs)

termination_by (fuel, sizeOf n, 0, 0)

/-- `Wrapper<()>::add_field` (dyn_wrappers.rs lines 489–504) folded over
the node's fields: resolve the positional expected type against the field's
declared name/type, build the value through the newtype chain, append it.
`AnonDynamicStruct::add_boxed` panics past the declared field count. -/
def addFieldsAnon (fuel : Nat) (reg : Registry) (kind : AnonKind)
    (info : TypeInfo) (infoFields : List FieldInfo) (l : List DField)
    (acc : List DynValue) (errsAcc : List ConvertError) :
    Option (List DynValue × List ConvertError) :=
  match l with
  | [] => some (acc, errsAcc)
  | f :: rest =>
    let optTy := f.ty.or f.name
    let expectedE := anonExpected kind info infoFields acc.length
    let expectedOpt := expectedE.toOption
    let errs1 : List ConvertError :=
      match expectedE with
      | .error e => [e]
      | _ => []
    match typeInfo reg fuel optTy expectedOpt with
    | Option.none => Option.none
    | some (.err es) =>
      addFieldsAnon fuel reg kind info infoFields rest acc (errsAcc ++ errs1 ++ es)
    | some (.ok ch) => addFieldAnonValue fuel reg kind info infoFields rest acc errsAcc errs1 ch f
    | some (.okErr ch es) =>
      addFieldAnonValue fuel reg kind info infoFields rest acc errsAcc (errs1 ++ es) ch f

termination_by (fuel, sizeOf l, 8, 1)

/-- Continuation of `Wrapper<()>::add_field`: build the field value through
the chain and `add_boxed` it. -/
def addFieldAnonValue (fuel : Nat) (reg : Registry) (kind : AnonKind)
    (info : TypeInfo) (infoFields : List FieldInfo) (rest : List DField)
    (acc : List DynValue) (errsAcc : List ConvertError)
    (fieldErrs : List ConvertError) (ch : List TypeInfo) (f : DField) :
    Option (List DynValue × List ConvertError) :=
  match intoDynChain fuel reg ch f.value with
  | Option.none => Option.none
  | some (.err es) =>
    addFieldsAnon fuel reg kind info infoFields rest acc (errsAcc ++ fieldErrs ++ es)
  | some (.ok value) =>
    if kind = .anonStruct ∧ infoFields.length ≤ acc.length then Option.none
    else addFieldsAnon fuel reg kind info infoFields rest (acc ++ [value])
      (errsAcc ++ fieldErrs)
  | some (.okErr value es) =>
    if kind = .anonStruct ∧ infoFields.length ≤ acc.length then Option.none
    else addFieldsAnon fuel reg kind info infoFields rest (acc ++ [value])
      (errsAcc ++ fieldErrs ++ es)

termination_by (fuel, sizeOf f + sizeOf rest, 8, 0)
decreasing_by
  all_goals apply Prod.Lex.right
  all_goals apply Prod.Lex.left
  all_goals (have h1 := DField.sizeOf_value_lt f; omega)

/-- `Builder::new_dynamic` with the `Wrapper<String>` impl (by-field
structs and maps). -/
def newDynamicByField (fuel : Nat) (reg : Registry) (kind : BfKind)
    (info : TypeInfo) (n : KNode) : Option (MultiResult DynValue ConvertError) :=
  match fuel with
  | 0 => Option.none
  | Nat.succ f =>
    match addFieldsByField f reg kind info n.dFields [] [] with
    | Option.none => Option.none
    | some (acc, errs) =>
      some ((intoMultiResult (bfReflect kind info acc)
        (bfValidate kind info acc)).combine errs)

termination_by (fuel, sizeOf n, 0, 0)

/-- `Wrapper<String>::add_field` (dyn_wrappers.rs lines 522–544) folded
over the node's fields: unnamed fields are rejected; named ones resolve the
field's expected type, build the value, and insert it rejecting
duplicates. -/
def addFieldsByField (fuel : Nat) (reg : Registry) (kind : BfKind)
    (info : TypeInfo) (l : List DField) (acc : List (String × DynValue))
    (errsAcc : List ConvertError) :
    Option (List (String × DynValue) × List ConvertError) :=
  match l with
  | [] => some (acc, errsAcc)
  | f :: rest =>
    match f.name with
    | Option.none =>
      addFieldsByField fuel reg kind info rest acc
        (errsAcc ++ [.unnamedMapField info.typeName])
    | some nm =>
      let expectedE := bfExpected kind info nm
      let expectedOpt := expectedE.toOption
      let errs1 : List ConvertError :=
        match expectedE with
        | .error e => [e]
        | _ => []
      match typeInfo reg fuel f.ty expectedOpt with
      | Option.none => Option.none
      | some (.err es) =>
        addFieldsByField fuel reg kind info rest acc (errsAcc ++ errs1 ++ es)
      | some (.ok ch) =>
        addFieldByFieldValue fuel reg kind info rest acc errsAcc errs1 ch nm f
      | some (.okErr ch es) =>
        addFieldByFieldValue fuel reg kind info rest acc errsAcc (errs1 ++ es) ch nm f

termination_by (fuel, sizeOf l, 8, 1)

/-- Continuation of `Wrapper<String>::add_field`: build the value and
`add_boxed` it under its name, rejecting duplicates
(`MultipleSameField`). -/
def addFieldByFieldValue (fuel : Nat) (reg : Registry) (kind : BfKind)
    (info : TypeInfo) (rest : List DField) (acc : List (String × DynValue))
    (errsAcc : List ConvertError) (fieldErrs : List ConvertError)
    (ch : List TypeInfo) (nm : String) (f : DField) :
    Option (List (String × DynValue) × List ConvertError) :=
  match intoDynChain fuel reg ch f.value with
  | Option.none => Option.none
  | some (.err es) =>
    addFieldsByField fuel reg kind info rest acc (errsAcc ++ fieldErrs ++ es)
  | some (.ok value) =>
    if (acc.find? (fun p => p.1 == nm)).isSome then
      addFieldsByField fuel reg kind info rest acc
        (errsAcc ++ fieldErrs ++ [.multipleSameField info.typeName nm])
    else addFieldsByField fuel reg kind info rest (acc ++ [(nm, value)])
      (errsAcc ++ fieldErrs)
  | some (.okErr value es) =>
    if (acc.find? (fun p => p.1 == nm)).isSome then
      addFieldsByField fuel reg kind info rest acc
        (errsAcc ++ fieldErrs ++ es ++ [.multipleSameField info.typeName nm])
    else addFieldsByField fuel reg kind info rest (acc ++ [(nm, value)])
      (errsAcc ++ fieldErrs ++ es)

termination_by (fuel, sizeOf f + sizeOf rest, 8, 0)
decreasing_by
  all_goals apply Prod.Lex.right
  all_goals apply Prod.Lex.left
  all_goals (have h1 := DField.sizeOf_value_lt f; omega)

/-- `AnonTupleBuilder::new_dynamic` (dyn_wrappers.rs lines 249–276): an
anonymous tuple with no expected type; every field must carry a resolvable
declared type or name. -/
def newDynamicAnonTuple (fuel : Nat) (reg : Registry) (n : KNode) :
    Option (MultiResult DynValue ConvertError) :=
  match fuel with
  | 0 => Option.none
  | Nat.succ f =>
    match addFieldsAnonTuple f reg n.dFields [] [] with
    | Option.none => Option.none
    | some (acc, errs) => some ((MultiResult.ok (.dynTuple "" acc)).combine errs)

termination_by (fuel, sizeOf n, 0, 0)

/-- `AnonTupleBuilder::add_field` (dyn_wrappers.rs lines 257–271) folded
over the fields. -/
def addFieldsAnonTuple (fuel : Nat) (reg : Registry) (l : List DField)
    (acc : List DynValue) (errsAcc : List ConvertError) :
    Option (List DynValue × List ConvertError) :=
  match l with
  | [] => some (acc, errsAcc)
  | f :: rest =>
    match f.ty.or f.name with
    | Option.none => addFieldsAnonTuple fuel reg rest acc (errsAcc ++ [.untypedTupleField])
    | some tyName =>
      match getNamed reg tyName with
      | .error e => addFieldsAnonTuple fuel reg rest acc (errsAcc ++ [e])
      | .ok declared =>
        match typeInfo reg fuel Option.none (some declared.info.typeName) with
        | Option.none => Option.none
        | some (.err es) => addFieldsAnonTuple fuel reg rest acc (errsAcc ++ es)
        | some (.ok ch) => addFieldAnonTupleValue fuel reg rest acc errsAcc [] ch f
        | some (.okErr ch es) => addFieldAnonTupleValue fuel reg rest acc errsAcc es ch f

termination_by (fuel, sizeOf l, 8, 1)

/-- Continuation of `AnonTupleBuilder::add_field`. -/
def addFieldAnonTupleValue (fuel : Nat) (reg : Registry) (rest : List DField)
    (acc : List DynValue) (errsAcc : List ConvertError)
    (fieldErrs : List ConvertError) (ch : List TypeInfo) (f : DField) :
    Option (List DynValue × List ConvertError) :=
  match intoDynChain fuel reg ch f.value with
  | Option.none => Option.none
  | some (.err es) => addFieldsAnonTuple fuel reg rest acc (errsAcc ++ fieldErrs ++ es)
  | some (.ok value) => addFieldsAnonTuple fuel reg rest (acc ++ [value]) (errsAcc ++ fieldErrs)
  | some (.okErr value es) =>
    addFieldsAnonTuple fuel reg rest (acc ++ [value]) (errsAcc ++ fieldErrs ++ es)

termination_by (fuel, sizeOf f + sizeOf rest, 8, 0)
decreasing_by
  all_goals apply Prod.Lex.right
  all_goals apply Prod.Lex.left
  all_goals (have h1 := DField.sizeOf_value_lt f; omega)

/-- `PairMapBuilder::new_dynamic` (dyn_wrappers.rs lines 135–169): maps
declared anonymously as two-field pair nodes.  `PairMapBuilder::new` never
names the accumulator. -/
def newDynamicPairMap (fuel : Nat) (reg : Registry) (keyF valF : FieldInfo)
    (n : KNode) : Option (MultiResult DynValue ConvertError) :=
  match fuel with
  | 0 => Option.none
  | Nat.succ f =>
    match addFieldsPair f reg keyF valF n.dFields [] [] with
    | Option.none => Option.none
    | some (acc, errs) => some ((MultiResult.ok (.dynMap "" acc)).combine errs)

termination_by (fuel, sizeOf n, 0, 0)

/-- `PairMapBuilder::add_field` (dyn_wrappers.rs lines 144–164) folded over
the fields: each field must expose a pair of sub-fields; key and value are
built against the map's declared key/value types. -/
def addFieldsPair (fuel : Nat) (reg : Registry) (keyF valF : FieldInfo)
    (l : List DField) (acc : List (DynValue × DynValue))
    (errsAcc : List ConvertError) :
    Option (List (DynValue × DynValue) × List ConvertError) :=
  match l with
  | [] => some (acc, errsAcc)
  | f :: rest =>
    match f.pair with
    | Option.none =>
      addFieldsPair fuel reg keyF valF rest acc (errsAcc ++ [.tupleMapDeclarationMixup])
    | some (kf, vf) =>
      match typeInfo reg fuel Option.none (some keyF.typeName) with
      | Option.none => Option.none
      | some (.err es) => addFieldsPair fuel reg keyF valF rest acc (errsAcc ++ es)
      | some kRes =>
        match typeInfo reg fuel Option.none (some valF.typeName) with
        | Option.none => Option.none
        | some (.err es) =>
          addFieldsPair fuel reg keyF valF rest acc
            (errsAcc ++ kRes.resErrs ++ es)
        | some vRes =>
          match fuel with
          | 0 => Option.none
          | Nat.succ f2 =>
            match intoDynChain f2 reg (kRes.resVal.getD []) kf.value with
            | Option.none => Option.none
            | some (.err es) =>
              addFieldsPair (Nat.succ f2) reg keyF valF rest acc
                (errsAcc ++ kRes.resErrs ++ vRes.resErrs ++ es)
            | some kv =>
              match intoDynChain f2 reg (vRes.resVal.getD []) vf.value with
              | Option.none => Option.none
              | some (.err es) =>
                addFieldsPair (Nat.succ f2) reg keyF valF rest acc
                  (errsAcc ++ kRes.resErrs ++ vRes.resErrs ++ kv.resErrs ++ es)
              | some vv =>
                match kv.resVal, vv.resVal with
                | some kval, some vval =>
                  addFieldsPair (Nat.succ f2) reg keyF valF rest
                    (acc ++ [(kval, vval)])
                    (errsAcc ++ kRes.resErrs ++ vRes.resErrs ++ kv.resErrs ++ vv.resErrs)
                | _, _ => Option.none
termination_by (fuel, sizeOf l, 8, 1)


end


/-- Specification-side: the registration a (possibly absent) name resolves
to. -/
def resolveReg (reg : Registry) (o : Option String) : Option TypeRegistration :=
  o.bind (fun n => (getNamed reg n).toOption)

/-- Specification-side: the resolution errors a (possibly absent) name
contributes. -/
def resolveErrs (reg : Registry) (o : Option String) : List ConvertError :=
  match o with
  | Option.none => []
  | some n =>
    match getNamed reg n with
    | .ok _ => []
    | .error e => [e]

/-! ## Newtype wrapper-chain family (C4 test schema)

A generated family of registries for the newtype-unwrapping claim: for a
kind list `ks` of length `n`, type `W i` (0 ≤ i < n) is a single-field
struct / tuple / tuple-struct wrapper (per `ks[i]`) around `W (i+1)`,
terminating at the registered primitive `u32`.  `chainName` uses a unary
suffix so injectivity is elementary.  `nodeAt` is the fully nested
explicit declaration of the chain value `9000`, `wrapFrom` the dynamic
value both document forms must build. -/

inductive WrapKind : Type where
  | wStruct
  | wTuple
  | wTupleStruct
  deriving DecidableEq, Repr

def chainName (i : Nat) : String := String.mk ('W' :: List.replicate i 'I')

def u32Info : TypeInfo := .valueInfo "u32" 0 (.int .u32)

def chainInnerName (ks : List WrapKind) (i : Nat) : String :=
  if i + 1 < ks.length then chainName (i + 1) else "u32"

def chainInnerId (ks : List WrapKind) (i : Nat) : Nat :=
  if i + 1 < ks.length then i + 2 else 0

def chainFieldAt (ks : List WrapKind) (i : Nat) : FieldInfo :=
  ⟨"f", chainInnerName ks i, chainInnerId ks i⟩

def kindAt (ks : List WrapKind) (i : Nat) : WrapKind := (ks.get? i).getD .wStruct

def infoAt (ks : List WrapKind) (i : Nat) : TypeInfo :=
  match kindAt ks i with
  | .wStruct => .structInfo (chainName i) (i + 1) [chainFieldAt ks i]
  | .wTuple => .tupleInfo (chainName i) (i + 1) [chainFieldAt ks i]
  | .wTupleStruct => .tupleStructInfo (chainName i) (i + 1) [chainFieldAt ks i]

def chainReg (ks : List WrapKind) : Registry :=
  ⟨"u32", u32Info⟩ :: (List.range ks.length).map (fun i => ⟨chainName i, infoAt ks i⟩)

/-- The shape at level `b` (`b = n` is the primitive). -/
def tyOf (ks : List WrapKind) (b : Nat) : TypeInfo :=
  if b < ks.length then infoAt ks b else u32Info

def nameOf (ks : List WrapKind) (b : Nat) : String :=
  if b < ks.length then chainName b else "u32"

def idOf (ks : List WrapKind) (b : Nat) : Nat :=
  if b < ks.length then b + 1 else 0

def regAt (ks : List WrapKind) (b : Nat) : TypeRegistration :=
  ⟨nameOf ks b, tyOf ks b⟩

/-- The `ExpectedType` chain of level `b`, outermost first. -/
def chainFrom (ks : List WrapKind) (b : Nat) : List TypeInfo :=
  if h : b < ks.length then infoAt ks b :: chainFrom ks (b + 1) else [u32Info]
termination_by ks.length - b
decreasing_by omega

/-- The reversed wrapper segment `[infoAt (c-1), …, infoAt b]` processed by
`chainLoop`. -/
def descSeg (ks : List WrapKind) : Nat → Nat → List TypeInfo
  | 0, _ => []
  | Nat.succ c, b => if b ≤ c then infoAt ks c :: descSeg ks c b else []

/-- The dynamic value of the chain from level `a` down, around the literal
`9000`. -/
def wrapFrom (ks : List WrapKind) (a : Nat) : DynValue :=
  if h : a < ks.length then
    match kindAt ks a with
    | .wStruct => .dynStruct (chainName a) [("f", wrapFrom ks (a + 1))]
    | .wTuple => .dynTuple (chainName a) [wrapFrom ks (a + 1)]
    | .wTupleStruct => .dynTupleStruct (chainName a) [wrapFrom ks (a + 1)]
  else .prim (.int .u32 9000)
termination_by ks.length - a
decreasing_by all_goals omega

/-- The name of the node declaring the level-`a` value: the field name `f`
under a struct parent, the type name otherwise. -/
def nodeNameAt (ks : List WrapKind) (a : Nat) : String :=
  if a = 0 then chainName 0
  else
    match kindAt ks (a - 1) with
    | .wStruct => "f"
    | _ => chainName a

/-- The fully nested explicit declaration of the level-`a` value: one child
node per wrapper level, the literal `9000` as the innermost entry (named
`f` under a struct, positional otherwise). -/
def nodeAt (ks : List WrapKind) (a : Nat) : KNode :=
  if h : a + 1 < ks.length then
    KNode.mk Option.none (nodeNameAt ks a) [] (some [nodeAt ks (a + 1)])
  else
    KNode.mk Option.none (nodeNameAt ks a)
      [match kindAt ks a with
       | .wStruct => ⟨some "f", Option.none, .base10 9000⟩
       | _ => ⟨Option.none, Option.none, .base10 9000⟩]
      Option.none
termination_by ks.length - a
decreasing_by omega

/-- The document field carrying the level-`a` value: the nested node below
`n`, the bare literal at `n`. -/
def chainFieldValue (ks : List WrapKind) (a : Nat) : DValueExt :=
  if a < ks.length then .node (nodeAt ks a) else .value (.base10 9000)

/-! MARKER-DEFS-END -/

/-! # Theorems -/

namespace MultiResult

theorem fromIter_foldl_spec {α ε : Type} (l : List (MultiResult α ε))
    (vs : List α) (es : List ε) (b : Bool) :
    l.foldl fromIterStep (vs, es, b) =
      (vs ++ successes l, es ++ allErrs l, b || l.any hasVal) := by
  induction l generalizing vs es b with
  | nil => simp [successes, allErrs]
  | cons r rs ih =>
    cases r <;>
      simp [fromIterStep, successes, allErrs, ih, resVal, resErrs, hasVal,
        List.filterMap_cons, List.append_assoc]


end MultiResult

namespace Claims

open MultiResult

/-- C2.  Collecting a finite sequence of `MultiResult`s via `FromIterator`
into `MultiResult<Collection, _>` visits every element without
short-circuiting: the produced collection is exactly the list of success
values of the elements that succeeded, in order; the error list is the
concatenation of all elements' errors in iteration order; the result is the
`Err` variant exactly when errors exist and no element yielded a usable
value; and an empty input yields `Ok` of the empty collection. -/
theorem fromIter_no_short_circuit {α ε : Type} (l : List (MultiResult α ε)) :
    resErrs (fromIter l) = allErrs l
  ∧ resVal (fromIter l) =
      (if (allErrs l).isEmpty || l.any hasVal then some (successes l) else none)
  ∧ isErrVariant (fromIter l) = (!(allErrs l).isEmpty && !l.any hasVal)
  ∧ fromIter ([] : List (MultiResult α ε)) = .ok [] := by
  have h := fromIter_foldl_spec l [] [] false
  have hfi : fromIter l =
      (if (allErrs l).isEmpty then .ok (successes l)
       else if l.any hasVal then .okErr (successes l) (allErrs l)
       else .err (allErrs l)) := by
    unfold fromIter
    rw [h]
    simp
  rw [hfi]
  cases he : (allErrs l).isEmpty <;> cases hv : l.any hasVal <;>
    simp_all [resErrs, resVal, isErrVariant, fromIter, fromIterStep,
      List.isEmpty_iff]

/-- C10.  `MultiResult::into_result` returns `Ok(t)` iff the receiver is the
`Ok(t)` variant; on `OkErr(t, errs)` it returns `Err(errs)`, discarding the
partial success value: sealing into a plain `Result` loses the best-effort
value whenever any error was accumulated. -/
theorem intoResult_ok_iff {α ε : Type} (r : MultiResult α ε) (t u : α) (es : List ε) :
    (intoResult r = Except.ok t ↔ r = MultiResult.ok t)
  ∧ intoResult (MultiResult.okErr u es) = Except.error es := by
  refine ⟨?_, rfl⟩
  cases r <;> simp [intoResult]

theorem IntTy.tryFromI64_iff_range (t : IntTy) (i : Int)
    (hlo : -(2 ^ 63) ≤ i) (hhi : i < 2 ^ 63) :
    t.tryFromI64 i = true ↔ (t.minVal ≤ i ∧ i ≤ t.maxVal) := by
  cases t <;> simp [IntTy.tryFromI64, IntTy.minVal, IntTy.maxVal] <;> omega

/-- C8.  Integer-domain range checking: an integer literal in any base
collapses to the same `Int`; built against a built-in integer target `T`
the conversion succeeds with the value itself exactly when it is
representable in `T`; an out-of-range value against a non-`Option` target
yields exactly one `IntDomain` error carrying the attempted value and the
name of `T` (which determines its representable limits); an `Option` target
swallows the failure into `None`. -/
theorem int_domain_range_check (i : Int) (t : IntTy)
    (m : Unit → ConvertError)
    (hlo : -(2 ^ 63) ≤ i) (hhi : i < 2 ^ 63) :
    (KdlConcrete.ofValue (KdlValue.base10 i) = .int i
      ∧ KdlConcrete.ofValue (KdlValue.base2 i) = .int i
      ∧ KdlConcrete.ofValue (KdlValue.base8 i) = .int i
      ∧ KdlConcrete.ofValue (KdlValue.base16 i) = .int i)
  ∧ (dynPrimitiveValue (.int i) (.int t) m = .ok (.prim (.int t i))
      ↔ (t.minVal ≤ i ∧ i ≤ t.maxVal))
  ∧ (¬ (t.minVal ≤ i ∧ i ≤ t.maxVal) →
      dynPrimitiveValue (.int i) (.int t) m = .error (.intDomain i t.rustName))
  ∧ (t.tryFromI64 i = true ↔ (t.minVal ≤ i ∧ i ≤ t.maxVal))
  ∧ dynPrimitiveValue (.int i) (.optInt t) m =
      .ok (.prim (.optInt t (if t.tryFromI64 i then some i else Option.none)))
  ∧ (∀ t' : IntTy, t.rustName = t'.rustName →
      t.minVal = t'.minVal ∧ t.maxVal = t'.maxVal) := by
  have hr := IntTy.tryFromI64_iff_range t i hlo hhi
  refine ⟨⟨rfl, rfl, rfl, rfl⟩, ?_, ?_, hr, ?_, ?_⟩
  · cases t <;>
      simp_all [dynPrimitiveValue, IntTy.minVal, IntTy.maxVal, IntTy.tryFromI64] <;>
      omega
  · intro hnot
    cases t <;>
      simp_all [dynPrimitiveValue, IntTy.minVal, IntTy.maxVal, IntTy.tryFromI64] <;>
      omega
  · cases t <;> rfl
  · clear hr hlo hhi
    intro t' ht'
    revert ht'
    cases t <;> cases t' <;> decide

/-- C8 witness: `300` in `u8` is out of range; the recorded error carries
the value and the type name, while `Option<u8>` swallows it. -/
theorem int_domain_range_check_witness :
    (-(2 ^ 63) ≤ (300 : Int)) ∧ ((300 : Int) < 2 ^ 63)
  ∧ dynPrimitiveValue (.int 300) (.int .u8) (fun _ => .untypedTupleField) =
      .error (.intDomain 300 "u8")
  ∧ dynPrimitiveValue (.int 300) (.optInt .u8) (fun _ => .untypedTupleField) =
      .ok (.prim (.optInt .u8 Option.none)) := by
  have h := int_domain_range_check 300 .u8 (fun _ => .untypedTupleField)
    (by decide) (by decide)
  refine ⟨by decide, by decide, ?_, ?_⟩
  · exact h.2.2.1 (by decide)
  · have h4 := h.2.2.2.2.1
    simpa using h4

/-- C9.  A field whose name identifier is exactly `"-"` is exposed with
`name = None` by `FieldThunk::new` (both the template-kdl and the
bevy-reflect-deser copies), so the builder treats it as positional; in
particular a node whose first field is named `"-"` is classified as
anonymous by `is_anon`. -/
theorem dash_fields_are_anonymous :
    (∀ (ty : Option String) (v : DValueExt),
      (DField.new ty (some "-") v).name = Option.none)
  ∧ (∀ (ty : Option String) (nm : String) (v : DValueExt), nm ≠ "-" →
      (DField.new ty (some nm) v).name = some nm)
  ∧ (∀ (ty : Option String) (v : ValueExt),
      (FieldThunk.new ty (some "-") v).name = Option.none)
  ∧ (∀ (ty : Option String) (nm : String) (v : ValueExt), nm ≠ "-" →
      (FieldThunk.new ty (some nm) v).name = some nm)
  ∧ (∀ (e : KEntry) (rest : List KEntry) (nty : Option String) (nm : String)
      (ch : Option (List KNode)), e.name = some "-" →
      (KNode.mk nty nm (e :: rest) ch).isAnonD = true)
  ∧ (∀ (c : KNode) (cs : List KNode) (nty : Option String) (nm : String),
      c.name = "-" →
      (KNode.mk nty nm [] (some (c :: cs))).isAnonD = true)
  ∧ (∀ (fuel : Nat) (ctx : Context) (e : KEntry) (rest : List KEntry)
      (nty : Option String) (nm : String) (ch : Option (List KNode)),
      e.name = some "-" →
      NodeThunk.isAnon fuel (NodeThunk.mk (KNode.mk nty nm (e :: rest) ch) ctx) =
        some true) := by
  refine ⟨?_, ?_, ?_, ?_, ?_, ?_, ?_⟩
  · intro ty v
    simp [DField.new, Option.filter]
  · intro ty nm v h
    simp [DField.new, Option.filter, h]
  · intro ty v
    simp [FieldThunk.new, Option.filter]
  · intro ty nm v h
    simp [FieldThunk.new, Option.filter, h]
  · intro e rest nty nm ch h
    simp [KNode.isAnonD, KNode.dFields, KNode.entries, KNode.children,
      dFieldOfEntry, DField.new, Option.filter, h]
  · intro c cs nty nm h
    simp [KNode.isAnonD, KNode.dFields, KNode.entries, KNode.children,
      dFieldOfNode, DField.new, Option.filter, h]
  · intro fuel ctx e rest nty nm ch h
    simp [NodeThunk.isAnon, NodeThunk.body, NodeThunk.context, KNode.entries,
      fieldOfEntry, FieldThunk.new, Option.filter, h]

/-- C9 witness: a node `foo "-"=1 x=2` has its first entry exposed unnamed
and counts as anonymous-mode. -/
theorem dash_fields_are_anonymous_witness :
    (DField.new Option.none (some "-") (.value (.base10 1))).name = Option.none
  ∧ (KNode.mk Option.none "foo"
      [⟨some "-", Option.none, .base10 1⟩, ⟨some "x", Option.none, .base10 2⟩]
      Option.none).isAnonD = true := by
  have h := dash_fields_are_anonymous
  exact ⟨h.1 Option.none (.value (.base10 1)),
    h.2.2.2.2.1 ⟨some "-", Option.none, .base10 1⟩
      [⟨some "x", Option.none, .base10 2⟩] Option.none "foo" Option.none rfl⟩

/-- C3 counterexample.  The claim says `type_info` is fatal (`Err`) exactly
when neither the declared nor the expected name resolves; but a declared
name of literally `"Tuple"` resolves to the anonymous-tuple marker even in
an empty registry with no expected name: the result is `Ok` (empty chain),
not `Err`. -/
theorem type_info_tuple_counterexample :
    typeInfo ([] : Registry) 5 (some "Tuple") Option.none =
      some (MultiResult.ok ([] : List TypeInfo))
  ∧ getNamed ([] : Registry) "Tuple" = .error (.noSuchType "Tuple")
  ∧ MultiResult.isErrVariant
      ((typeInfo ([] : Registry) 5 (some "Tuple") Option.none).getD
        (.err [])) = false := by
  refine ⟨rfl, rfl, rfl⟩

/-- C3 (amended).  For every pair of declared/expected type names where the
declared name is not the reserved `"Tuple"` marker: if both resolve to
registered types that disagree, a type-mismatch error is recorded and
building continues with the declared type's chain; if exactly one resolves,
building continues with the resolved one, recording a resolution error for
any supplied name that did not resolve; and the result is fatal (`Err`)
exactly when neither resolves.  (A declared `"Tuple"` is handled specially:
never fatal, no mismatch recorded.) -/
theorem type_info_cross_check_policy (reg : Registry) (fuel : Nat)
    (declared expected : Option String) (hd : declared ≠ some "Tuple") :
    (∀ rd re, resolveReg reg declared = some rd →
      resolveReg reg expected = some re →
      rd.info.typeId ≠ re.info.typeId →
      typeInfo reg fuel declared expected =
        (expectedTypeNew reg fuel rd.info).map (fun ch =>
          MultiResult.okErr ch
            [.typeMismatch re.info.typeName rd.info.typeName]))
  ∧ (∀ rd re, resolveReg reg declared = some rd →
      resolveReg reg expected = some re →
      rd.info.typeId = re.info.typeId →
      typeInfo reg fuel declared expected =
        (expectedTypeNew reg fuel re.info).map MultiResult.ok)
  ∧ (∀ re, resolveReg reg declared = Option.none →
      resolveReg reg expected = some re →
      typeInfo reg fuel declared expected =
        (expectedTypeNew reg fuel re.info).map (fun ch =>
          intoMultiResult ch (resolveErrs reg declared)))
  ∧ (∀ rd, resolveReg reg declared = some rd →
      resolveReg reg expected = Option.none →
      typeInfo reg fuel declared expected =
        (expectedTypeNew reg fuel rd.info).map (fun ch =>
          intoMultiResult ch (resolveErrs reg expected)))
  ∧ (resolveReg reg declared = Option.none →
      resolveReg reg expected = Option.none →
      typeInfo reg fuel declared expected =
        some (.err (resolveErrs reg expected ++ resolveErrs reg declared
          ++ [.untypedTupleField]))) := by
  have hif : (declared = some "Tuple") = False := by
    simp [hd]
  refine ⟨?_, ?_, ?_, ?_, ?_⟩
  all_goals
    simp only [typeInfo, hif, if_false, resolveReg, resolveErrs]
  · intro rd re hrd hre hne
    cases declared with
    | none => simp at hrd
    | some dn =>
      cases expected with
      | none => simp at hre
      | some en =>
        cases hgd : getNamed reg dn with
        | error e => simp [hgd, Except.toOption] at hrd
        | ok r =>
          cases hge : getNamed reg en with
          | error e => simp [hge, Except.toOption] at hre
          | ok r2 =>
            simp [hgd, Except.toOption] at hrd
            simp [hge, Except.toOption] at hre
            subst hrd
            subst hre
            simp [hgd, hge, hne, intoMultiResult]
            cases expectedTypeNew reg fuel r.info <;> simp
  · intro rd re hrd hre heq
    cases declared with
    | none => simp at hrd
    | some dn =>
      cases expected with
      | none => simp at hre
      | some en =>
        cases hgd : getNamed reg dn with
        | error e => simp [hgd, Except.toOption] at hrd
        | ok r =>
          cases hge : getNamed reg en with
          | error e => simp [hge, Except.toOption] at hre
          | ok r2 =>
            simp [hgd, Except.toOption] at hrd
            simp [hge, Except.toOption] at hre
            subst hrd
            subst hre
            simp [hgd, hge, heq, intoMultiResult]
            cases expectedTypeNew reg fuel r2.info <;> simp
  · intro re hrd hre
    cases expected with
    | none => simp at hre
    | some en =>
      cases hge : getNamed reg en with
      | error e => simp [hge, Except.toOption] at hre
      | ok r2 =>
        simp [hge, Except.toOption] at hre
        subst hre
        cases declared with
        | none =>
          simp [hge]
          cases expectedTypeNew reg fuel r2.info <;> simp
        | some dn =>
              cases hgd : getNamed reg dn with
          | ok r => simp [hgd, Except.toOption] at hrd
          | error e =>
            simp [hgd, hge, Except.toOption]
            cases expectedTypeNew reg fuel r2.info <;> simp
  · intro rd hrd hre
    cases declared with
    | none => simp at hrd
    | some dn =>
      cases hgd : getNamed reg dn with
      | error e => simp [hgd, Except.toOption] at hrd
      | ok r =>
        simp [hgd, Except.toOption] at hrd
        subst hrd
        cases expected with
        | none =>
          simp [hgd]
          cases expectedTypeNew reg fuel r.info <;> simp
        | some en =>
              cases hge : getNamed reg en with
          | ok r2 => simp [hge, Except.toOption] at hre
          | error e =>
            simp [hgd, hge, Except.toOption]
            cases expectedTypeNew reg fuel r.info <;> simp
  · intro hrd hre
    cases declared with
    | none =>
      cases expected with
      | none => simp
      | some en =>
          cases hge : getNamed reg en with
        | ok r2 => simp [hge, Except.toOption] at hre
        | error e => simp [hge]
    | some dn =>
      cases hgd : getNamed reg dn with
      | ok r => simp [hgd, Except.toOption] at hrd
      | error e =>
        cases expected with
        | none => simp [hgd]
        | some en =>
              cases hge : getNamed reg en with
          | ok r2 => simp [hge, Except.toOption] at hre
          | error e2 => simp [hgd, hge]

/-- C3 witness: registry with value types `A` (id 1) and `B` (id 2);
declared `B` against expected `A` records one mismatch and continues with
`B`. -/
theorem type_info_cross_check_policy_witness :
    (some "B" ≠ some "Tuple")
  ∧ typeInfo
      [⟨"A", .valueInfo "A" 1 (.int .u32)⟩, ⟨"B", .valueInfo "B" 2 (.int .u32)⟩]
      5 (some "B") (some "A") =
      some (MultiResult.okErr [.valueInfo "B" 2 (.int .u32)]
        [.typeMismatch "A" "B"]) := by
  refine ⟨by decide, ?_⟩
  have h := type_info_cross_check_policy
    [⟨"A", .valueInfo "A" 1 (.int .u32)⟩, ⟨"B", .valueInfo "B" 2 (.int .u32)⟩]
    5 (some "B") (some "A") (by decide)
  have h1 := h.1 ⟨"B", .valueInfo "B" 2 (.int .u32)⟩
    ⟨"A", .valueInfo "A" 1 (.int .u32)⟩ rfl rfl (by decide)
  simpa using h1

theorem withParamExpanded_ne_nil (fuel : Nat) (ctx : Context) (c : KNode)
    (r : List NodeThunk) (h : withParamExpanded fuel ctx c = some r) : r ≠ [] := by
  unfold withParamExpanded at h
  cases hce : ctxExpand fuel ctx (NodeThunk.mk c ctx) with
  | none => rw [hce] at h; exact absurd h (by simp)
  | some replacement =>
    rw [hce] at h
    simp only [Option.some.injEq] at h
    subst h
    by_cases he : replacement.isEmpty
    · simp [he]
    · simp [he]
      intro hr
      subst hr
      simp at he

theorem tryInvoke_fails (fuel : Nat) (b : Binding) (inv : NodeThunk)
    (bindings : List Binding)
    (h : b.name ≠ inv.effName ∨ b.declaration = Option.none) :
    tryInvoke fuel b inv bindings = some Option.none := by
  unfold tryInvoke
  rcases h with h | h
  · simp [h]
  · by_cases hn : b.name ≠ inv.effName
    · simp [hn]
    · simp [hn, h]

theorem scanBindings_skip (fuel : Nat) (L rest : List Binding) (inv : NodeThunk)
    (bindings : List Binding)
    (h : ∀ x ∈ L, x.name ≠ inv.effName ∨ x.declaration = Option.none) :
    scanBindings fuel (L ++ rest) inv bindings = scanBindings fuel rest inv bindings := by
  induction L with
  | nil => simp
  | cons x L ih =>
    have hx := tryInvoke_fails fuel x inv bindings (h x (by simp))
    have key : scanBindings fuel (x :: (L ++ rest)) inv bindings
        = scanBindings fuel (L ++ rest) inv bindings := by
      rw [scanBindings, hx]
    rw [List.cons_append, key]
    exact ih (fun y hy => h y (by simp [hy]))

/-- Pass-through core: an invocation that is not argument-shadowed, is not
the `expand` keyword, whose field-emptiness check evaluates, and which no
visible binding can invoke, is yielded unchanged. -/
theorem expand_passthrough (fuel idx : Nat) (B : List Binding)
    (args : Targuments) (u : KNode) (bb : Bool)
    (hshadow : args.nodeLookup ((NodeThunk.mk u (Context.mk idx B args)).effName)
      = Option.none)
    (hkw : (NodeThunk.mk u (Context.mk idx B args)).effName ≠ "expand")
    (hfe : fieldsEmpty fuel (NodeThunk.mk u (Context.mk idx B args)) = some bb)
    (hfail : ∀ x ∈ B.take idx,
      x.name ≠ (NodeThunk.mk u (Context.mk idx B args)).effName
        ∨ x.declaration = Option.none) :
    withParamExpanded fuel (Context.mk idx B args) u =
      some [NodeThunk.mk u (Context.mk idx B args)] := by
  have hscan := scanBindings_skip fuel ((B.take idx).reverse) []
    (NodeThunk.mk u (Context.mk idx B args)) B
    (fun x hx => hfail x (List.mem_reverse.mp hx))
  rw [List.append_nil] at hscan
  have hrest : expandRest fuel (Context.mk idx B args)
      (NodeThunk.mk u (Context.mk idx B args))
      ((NodeThunk.mk u (Context.mk idx B args)).effName) = some [] := by
    rw [expandRest, if_neg hkw]
    simp only [Context.bindings, Context.bindingIndex]
    rw [hscan, scanBindings]
    rfl
  have hexp : ctxExpand fuel (Context.mk idx B args)
      (NodeThunk.mk u (Context.mk idx B args)) = some [] := by
    rw [ctxExpand, hfe]
    cases bb
    · simpa using hrest
    · simp only [if_true, Context.arguments]
      rw [hshadow]
      simpa using hrest
  rw [withParamExpanded, hexp]
  simp

theorem Binding.new_index (i : Nat) (n : KNode) (b : Binding) (errs : List TError)
    (h : Binding.new i n = some (b, errs)) :
    b.bindingIndex = i ∧ b.name = n.name := by
  unfold Binding.new at h
  cases hd : Declaration.new n with
  | none => rw [hd] at h; cases h
  | some r =>
    rw [hd] at h
    simp only [Option.map_some', Option.some.injEq, Prod.mk.injEq] at h
    obtain ⟨h1, h2⟩ := h
    subst h1
    exact ⟨rfl, rfl⟩

/-- One step of the left-to-right scope fold: the new binding is appended
with index equal to the length of the chain built so far. -/
theorem scopeFold_snoc (pre : List Binding) (ns : List KNode) (n : KNode) :
    scopeFold pre (ns ++ [n]) =
      match scopeFold pre ns with
      | Option.none => Option.none
      | some (bs, es) =>
        match Binding.new bs.length n with
        | Option.none => Option.none
        | some (b, errs) => some (bs ++ [b], es ++ errs) := by
  simp only [scopeFold, List.foldl_append, List.foldl_cons, List.foldl_nil]

/-- The fold keeps `binding_index = position`: each binding sees exactly the
chain built before it. -/
theorem scopeFold_index (ns : List KNode) :
    ∀ (pre bs : List Binding) (es : List TError),
    scopeFold pre ns = some (bs, es) →
    (∀ (k : Nat) (hk : k < pre.length), (pre.get ⟨k, hk⟩).bindingIndex = k) →
    (∀ (k : Nat) (hk : k < bs.length), (bs.get ⟨k, hk⟩).bindingIndex = k)
      ∧ pre <+: bs := by
  induction ns using List.reverseRecOn with
  | nil =>
    intro pre bs es h hpre
    have h' : some (pre, ([] : List TError)) = some (bs, es) := h
    cases h'
    exact ⟨hpre, List.prefix_refl _⟩
  | append_singleton ns n ih =>
    intro pre bs es h hpre
    rw [scopeFold_snoc] at h
    cases h0 : scopeFold pre ns with
    | none => rw [h0] at h; cases h
    | some p =>
      obtain ⟨bs0, es0⟩ := p
      rw [h0] at h
      have h' : (match Binding.new bs0.length n with
        | Option.none => Option.none
        | some (b, errs) => some (bs0 ++ [b], es0 ++ errs)) = some (bs, es) := h
      cases hb : Binding.new bs0.length n with
      | none => rw [hb] at h'; cases h'
      | some q =>
        obtain ⟨b, errs⟩ := q
        rw [hb] at h'
        simp only [Option.some.injEq, Prod.mk.injEq] at h'
        obtain ⟨hbs, hes⟩ := h'
        subst hbs
        obtain ⟨hidx, -⟩ := Binding.new_index _ _ _ _ hb
        obtain ⟨ih1, ih2⟩ := ih pre bs0 es0 h0 hpre
        refine ⟨?_, ih2.trans (List.prefix_append _ _)⟩
        intro k hk
        rcases Nat.lt_or_ge k bs0.length with hlt | hge
        · rw [List.get_append_left]
          exact ih1 k hlt
        · have hk' : k < bs0.length + 1 := by simpa using hk
          have hkeq : k = bs0.length := by omega
          subst hkeq
          have hg : (bs0 ++ [b]).get ⟨bs0.length, hk⟩ = b := by
            simp
          rw [hg, hidx]

/-- Invocation core: when the visible window `bindings[0..idx]` splits as
`P ++ bj :: Q` with every binding of `Q` (the ones declared after `bj`)
failing to match, and `bj` matches with a live declaration, the invocation
expands to `bj`'s body in a fresh context at `bj`'s own index. -/
theorem expand_invoke (fuel idx : Nat) (B : List Binding) (args : Targuments)
    (u : KNode) (bb : Bool) (bj : Binding) (d : Declaration)
    (P Q : List Binding) (args2 : Targuments)
    (hshadow : args.nodeLookup ((NodeThunk.mk u (Context.mk idx B args)).effName)
      = Option.none)
    (hkw : (NodeThunk.mk u (Context.mk idx B args)).effName ≠ "expand")
    (hfe : fieldsEmpty fuel (NodeThunk.mk u (Context.mk idx B args)) = some bb)
    (hsplit : B.take idx = P ++ bj :: Q)
    (hafter : ∀ x ∈ Q,
      x.name ≠ (NodeThunk.mk u (Context.mk idx B args)).effName
        ∨ x.declaration = Option.none)
    (hname : bj.name = (NodeThunk.mk u (Context.mk idx B args)).effName)
    (hdecl : bj.declaration = some d)
    (hargs : declArguments fuel d (NodeThunk.mk u (Context.mk idx B args))
      bj.bindingIndex B = some args2) :
    withParamExpanded fuel (Context.mk idx B args) u =
      some [NodeThunk.mk d.body (Context.mk bj.bindingIndex B args2)] := by
  have hscan1 : scanBindings fuel ((B.take idx).reverse)
      (NodeThunk.mk u (Context.mk idx B args)) B
      = scanBindings fuel (bj :: P.reverse)
        (NodeThunk.mk u (Context.mk idx B args)) B := by
    rw [hsplit]
    rw [show (P ++ bj :: Q).reverse = Q.reverse ++ (bj :: P.reverse) by simp]
    exact scanBindings_skip fuel Q.reverse (bj :: P.reverse) _ B
      (fun x hx => hafter x (List.mem_reverse.mp hx))
  have hti : tryInvoke fuel bj (NodeThunk.mk u (Context.mk idx B args)) B
      = some (some (NodeThunk.mk d.body (Context.mk bj.bindingIndex B args2))) := by
    rw [tryInvoke, if_neg (by simp [hname]), hdecl]
    show (match declArguments fuel d (NodeThunk.mk u (Context.mk idx B args))
        bj.bindingIndex B with
      | Option.none => Option.none
      | some a => some (some (NodeThunk.mk d.body
          (Context.mk bj.bindingIndex B a)))) = _
    rw [hargs]
  have hscan2 : scanBindings fuel (bj :: P.reverse)
      (NodeThunk.mk u (Context.mk idx B args)) B
      = some (some (NodeThunk.mk d.body (Context.mk bj.bindingIndex B args2))) := by
    rw [scanBindings, hti]
  have hrest : expandRest fuel (Context.mk idx B args)
      (NodeThunk.mk u (Context.mk idx B args))
      ((NodeThunk.mk u (Context.mk idx B args)).effName)
      = some [NodeThunk.mk d.body (Context.mk bj.bindingIndex B args2)] := by
    rw [expandRest, if_neg hkw]
    simp only [Context.bindings, Context.bindingIndex]
    rw [hscan1, hscan2]
    rfl
  have hexp : ctxExpand fuel (Context.mk idx B args)
      (NodeThunk.mk u (Context.mk idx B args))
      = some [NodeThunk.mk d.body (Context.mk bj.bindingIndex B args2)] := by
    rw [ctxExpand, hfe]
    cases bb
    · simpa using hrest
    · simp only [if_true, Context.arguments]
      rw [hshadow]
      simpa using hrest
  rw [withParamExpanded, hexp]
  rfl

/-- A document whose last node is not `export` yields that node as root,
wrapped in a context that sees the whole fold result. -/
theorem readDocument_root (pre : List Binding) (nodes : List KNode)
    (bs : List Binding) (es : List TError) (last : KNode)
    (hlast : nodes.getLast? = some last)
    (hexports : last.name ≠ "export")
    (hfold : scopeFold pre nodes.dropLast = some (bs, es)) :
    readDocument pre nodes =
      some (intoMultiResult (RDocument.node
        (NodeThunk.mk last (Context.mk bs.length bs Targuments.empty))) es) := by
  have hne : nodes.isEmpty = false := by
    cases nodes with
    | nil => cases hlast
    | cons a l => rfl
  rw [readDocument, hne]
  simp only [Bool.false_eq_true, if_false, hfold, hlast]
  rw [if_neg hexports]
  rfl

/-- C6.  The claim says expansion never panics, including on an `expand`
node with no entries.  The code panics: reading the one-node document
`r { expand }` succeeds, but expanding the root's children hits
`invocation.entries().next().unwrap()` (template.rs line 303) on the
entry-less `expand` child — modelled as `none`.  `Tparameter::try_from`
(template.rs line 84) has the same unwrap for an entry-less `expand`
parameter node in a declaration. -/
theorem expand_node_panics :
    readDocument [] [KNode.mk Option.none "r" []
        (some [KNode.mk Option.none "expand" [] Option.none])] =
      some (MultiResult.ok (RDocument.node (NodeThunk.mk
        (KNode.mk Option.none "r" []
          (some [KNode.mk Option.none "expand" [] Option.none]))
        (Context.new []))))
  ∧ thunkChildren 9 (NodeThunk.mk
      (KNode.mk Option.none "r" []
        (some [KNode.mk Option.none "expand" [] Option.none]))
      (Context.new [])) = Option.none
  ∧ Tparameter.ofNode (KNode.mk Option.none "expand" [] Option.none) =
      Option.none := by
  refine ⟨rfl, ?_, rfl⟩
  simp [thunkChildren, flatMapExpand, withParamExpanded, ctxExpand, fieldsEmpty,
    noChildYields, expandRest, scanBindings, tryInvoke, declArguments, argsFold,
    thunkFieldsM, KNode.children, KNode.entries, KNode.name, Context.new,
    Context.arguments, Context.bindings, Context.bindingIndex, NodeThunk.body,
    NodeThunk.context, NodeThunk.effName, Targuments.empty, Targuments.nodeLookup,
    Targuments.identLookup, Targuments.expandLookup, alistLookup, entryValue,
    Targuments.values, Targuments.nodes, Targuments.expandArgs]

/-- C5 counterexample.  The claim says a declaration with a non-string
parameter degrades to a `Binding` with `declaration = None` whose
invocations never expand.  But `f 7 { Msg; }` (non-string parameter `7`)
keeps its `Declaration` — the error is recorded, the offending parameter is
dropped — and a later invocation of `f` expands to `Msg`. -/
theorem malformed_param_counterexample :
    Binding.new 0 (KNode.mk Option.none "f"
        [⟨Option.none, Option.none, .base10 7⟩]
        (some [KNode.mk Option.none "Msg" [] Option.none])) =
      some (Binding.mk "f" 0 (some (Declaration.mk
              (KNode.mk Option.none "Msg" [] Option.none) [])),
            [.nonstringParam (.base10 7)])
  ∧ (withParamExpanded 9
      (Context.new [Binding.mk "f" 0 (some (Declaration.mk
          (KNode.mk Option.none "Msg" [] Option.none) []))])
      (KNode.mk Option.none "f" [] Option.none)).map
        (List.map (fun t => t.body.name)) = some ["Msg"]
  ∧ ("Msg" : String) ≠ "f" := by
  refine ⟨rfl, ?_, by decide⟩
  simp [thunkChildren, flatMapExpand, withParamExpanded, ctxExpand, fieldsEmpty,
    noChildYields, expandRest, scanBindings, tryInvoke, declArguments, argsFold,
    thunkFieldsM, KNode.children, KNode.entries, KNode.name, Context.new,
    Context.arguments, Context.bindings, Context.bindingIndex, NodeThunk.body,
    NodeThunk.context, NodeThunk.effName, Targuments.empty, Targuments.nodeLookup,
    Targuments.identLookup, Targuments.expandLookup, alistLookup, entryValue,
    Targuments.values, Targuments.nodes, Targuments.expandArgs,
    Declaration.paramAt, Declaration.paramNamed, Targuments.insertValue,
    Targuments.insertNode, Targuments.insertExpand, fieldOfEntry, fieldOfNode]

/-- C5 (amended).  Only a declaration with no body (no children, or an
empty children block) degrades to an inert `Binding` with
`declaration = None`, its single `NoBody` error reported at declaration
time; while every visible binding of a name is inert, invocations of that
name are yielded unchanged.  A non-string parameter is reported at
declaration time but the `Declaration` is kept with the offending parameter
dropped, so the name still expands. -/
theorem malformed_declaration_policy :
    (∀ (i : Nat) (ty : Option String) (nm : String) (es : List KEntry),
      Binding.new i (KNode.mk ty nm es Option.none) =
        some ({ name := nm, bindingIndex := i, declaration := Option.none },
          [.noBody]))
  ∧ (∀ (i : Nat) (ty : Option String) (nm : String) (es : List KEntry),
      Binding.new i (KNode.mk ty nm es (some [])) =
        some ({ name := nm, bindingIndex := i, declaration := Option.none },
          (processCollect (es.map Tparameter.ofEntry)).2 ++ [.noBody]))
  ∧ (∀ (fuel idx : Nat) (B : List Binding) (args : Targuments) (u : KNode) (bb : Bool),
      args.nodeLookup ((NodeThunk.mk u (Context.mk idx B args)).effName) = Option.none →
      (NodeThunk.mk u (Context.mk idx B args)).effName ≠ "expand" →
      fieldsEmpty fuel (NodeThunk.mk u (Context.mk idx B args)) = some bb →
      (∀ x ∈ B.take idx,
        x.name = (NodeThunk.mk u (Context.mk idx B args)).effName →
          x.declaration = Option.none) →
      withParamExpanded fuel (Context.mk idx B args) u =
        some [NodeThunk.mk u (Context.mk idx B args)])
  ∧ (∀ (i : Nat) (ty ety : Option String) (nm : String) (v : KdlValue)
      (body : KNode), (∀ s, v ≠ KdlValue.string s) →
      Binding.new i (KNode.mk ty nm [⟨Option.none, ety, v⟩] (some [body])) =
        some ({ name := nm, bindingIndex := i,
                declaration := some { body := body, params := [] } },
          [.nonstringParam v])) := by
  refine ⟨?_, ?_, ?_, ?_⟩
  · intro i ty nm es
    rfl
  · intro i ty nm es
    simp [Binding.new, Declaration.new, KNode.children, KNode.name, KNode.entries,
      MultiResult.resVal, MultiResult.resErrs]
  · intro fuel idx B args u bb hshadow hkw hfe hinert
    exact expand_passthrough fuel idx B args u bb hshadow hkw hfe
      (fun x hx => by
        by_cases hn : x.name = (NodeThunk.mk u (Context.mk idx B args)).effName
        · exact Or.inr (hinert x hx hn)
        · exact Or.inl hn)
  · intro i ty ety nm v body hv
    cases v with
    | string s => exact absurd rfl (hv s)
    | base10 i' => rfl
    | base2 i' => rfl
    | base8 i' => rfl
    | base16 i' => rfl
    | base10Float b => rfl
    | rawString s => rfl
    | bool b => rfl
    | null => rfl

/-- C5 witness: a body-less declaration `g` is inert and an invocation of
`g` in its scope passes through unchanged. -/
theorem malformed_declaration_policy_witness :
    Binding.new 0 (KNode.mk Option.none "g" [] Option.none) =
      some (Binding.mk "g" 0 Option.none, [.noBody])
  ∧ withParamExpanded 9
      (Context.mk 1 [Binding.mk "g" 0 Option.none] Targuments.empty)
      (KNode.mk Option.none "g" [] Option.none) =
      some [NodeThunk.mk (KNode.mk Option.none "g" [] Option.none)
        (Context.mk 1 [Binding.mk "g" 0 Option.none] Targuments.empty)] := by
  have h := malformed_declaration_policy
  refine ⟨h.1 0 Option.none "g" [], ?_⟩
  refine h.2.2.1 9 1 [Binding.mk "g" 0 Option.none]
    Targuments.empty (KNode.mk Option.none "g" [] Option.none) true rfl
    (by decide) ?_ ?_
  · rw [fieldsEmpty]
    rfl
  · intro x hx hn
    simp only [List.take, List.mem_singleton] at hx
    subst hx
    rfl

/-- C7.  Argument shadowing tie-break (`Context::expand`, template.rs
lines 294–301): a child node with zero explicit arguments (no entries, no
children block) whose effective name is bound to a node-kind argument in
the current context is replaced by that argument node as the sole
replacement, for every binding list `B` and index `idx` — in particular
even when a same-named template binding is visible; a node carrying an
explicit argument (a first entry) never takes the substitution branch and
proceeds to the keyword/binding scan instead. -/
theorem argument_shadowing :
    (∀ (fuel idx : Nat) (B : List Binding) (args : Targuments) (u : KNode)
      (t : NodeThunk),
      u.entries = [] → u.children = Option.none →
      args.nodeLookup ((NodeThunk.mk u (Context.mk idx B args)).effName) = some t →
      ctxExpand fuel (Context.mk idx B args) (NodeThunk.mk u (Context.mk idx B args))
        = some [t])
  ∧ (∀ (fuel idx : Nat) (B : List Binding) (args : Targuments) (u : KNode)
      (e : KEntry) (es : List KEntry),
      u.entries = e :: es →
      ctxExpand fuel (Context.mk idx B args) (NodeThunk.mk u (Context.mk idx B args))
        = expandRest fuel (Context.mk idx B args)
            (NodeThunk.mk u (Context.mk idx B args))
            ((NodeThunk.mk u (Context.mk idx B args)).effName)) := by
  constructor
  · intro fuel idx B args u t he hc hlook
    have hfe : fieldsEmpty fuel (NodeThunk.mk u (Context.mk idx B args))
        = some true := by
      rw [fieldsEmpty]
      simp only [NodeThunk.body, he]
      split
      · rfl
      · simp_all
    rw [ctxExpand, hfe]
    simp only [if_true, Context.arguments]
    rw [hlook]
  · intro fuel idx B args u e es he
    have hfe : fieldsEmpty fuel (NodeThunk.mk u (Context.mk idx B args))
        = some false := by
      rw [fieldsEmpty]
      simp [NodeThunk.body, he]
    rw [ctxExpand, hfe]
    rfl

/-- C7 witness: the invocation `n` (no entries, no children) in a context
whose arguments bind `n` to the node `payload`, while a template binding
also named `n` is visible at index 1, substitutes the argument node. -/
theorem argument_shadowing_witness :
    (KNode.mk Option.none "n" [] Option.none).entries = []
  ∧ (KNode.mk Option.none "n" [] Option.none).children = Option.none
  ∧ (Targuments.mk [] []
      [("n", NodeThunk.mk (KNode.mk Option.none "payload" [] Option.none)
        (Context.new []))]).nodeLookup
      ((NodeThunk.mk (KNode.mk Option.none "n" [] Option.none)
        (Context.mk 1
          [Binding.mk "n" 0 (some (Declaration.mk
            (KNode.mk Option.none "unused" [] Option.none) []))]
          (Targuments.mk [] []
            [("n", NodeThunk.mk (KNode.mk Option.none "payload" [] Option.none)
              (Context.new []))]))).effName)
      = some (NodeThunk.mk (KNode.mk Option.none "payload" [] Option.none)
          (Context.new []))
  ∧ ctxExpand 5
      (Context.mk 1
        [Binding.mk "n" 0 (some (Declaration.mk
          (KNode.mk Option.none "unused" [] Option.none) []))]
        (Targuments.mk [] []
          [("n", NodeThunk.mk (KNode.mk Option.none "payload" [] Option.none)
            (Context.new []))]))
      (NodeThunk.mk (KNode.mk Option.none "n" [] Option.none)
        (Context.mk 1
          [Binding.mk "n" 0 (some (Declaration.mk
            (KNode.mk Option.none "unused" [] Option.none) []))]
          (Targuments.mk [] []
            [("n", NodeThunk.mk (KNode.mk Option.none "payload" [] Option.none)
              (Context.new []))])))
      = some [NodeThunk.mk (KNode.mk Option.none "payload" [] Option.none)
          (Context.new [])] := by
  refine ⟨rfl, rfl, rfl, ?_⟩
  exact argument_shadowing.1 5 1
    [Binding.mk "n" 0 (some (Declaration.mk
      (KNode.mk Option.none "unused" [] Option.none) []))]
    (Targuments.mk [] []
      [("n", NodeThunk.mk (KNode.mk Option.none "payload" [] Option.none)
        (Context.new []))])
    (KNode.mk Option.none "n" [] Option.none)
    (NodeThunk.mk (KNode.mk Option.none "payload" [] Option.none) (Context.new []))
    rfl rfl rfl

/-- C1.  Lexical declaration-order visibility.  (i) `read_document` builds
the scope by a single left-to-right fold: the empty step returns the seed
scope, and each step appends one binding whose index is the length of the
chain built so far; (ii) starting from an empty seed, every binding in the
folded scope has `binding_index` equal to its position, so its visible
window `bindings[0..binding_index]` is exactly the chain declared lexically
before it; (iii) a document whose last node is not `export` yields that
node as root over the fully built chain; (iv) an invocation whose effective
name matches no binding in its visible window — in particular one whose
only matching binding is declared after it — is yielded unchanged; (v) an
invocation whose visible window contains a matching live binding (scanned
newest-first, every later candidate failing) expands to that binding's
body. -/
theorem declaration_order_visibility :
    (∀ pre : List Binding, scopeFold pre [] = some (pre, []))
  ∧ (∀ (pre : List Binding) (ns : List KNode) (n : KNode),
      scopeFold pre (ns ++ [n]) =
        match scopeFold pre ns with
        | Option.none => Option.none
        | some (bs, es) =>
          match Binding.new bs.length n with
          | Option.none => Option.none
          | some (b, errs) => some (bs ++ [b], es ++ errs))
  ∧ (∀ (ns : List KNode) (bs : List Binding) (es : List TError),
      scopeFold [] ns = some (bs, es) →
      ∀ (k : Nat) (hk : k < bs.length), (bs.get ⟨k, hk⟩).bindingIndex = k)
  ∧ (∀ (pre : List Binding) (nodes : List KNode) (bs : List Binding)
      (es : List TError) (last : KNode),
      nodes.getLast? = some last → last.name ≠ "export" →
      scopeFold pre nodes.dropLast = some (bs, es) →
      readDocument pre nodes =
        some (intoMultiResult (RDocument.node
          (NodeThunk.mk last (Context.mk bs.length bs Targuments.empty))) es))
  ∧ (∀ (fuel idx : Nat) (B : List Binding) (args : Targuments) (u : KNode)
      (bb : Bool),
      args.nodeLookup ((NodeThunk.mk u (Context.mk idx B args)).effName)
        = Option.none →
      (NodeThunk.mk u (Context.mk idx B args)).effName ≠ "expand" →
      fieldsEmpty fuel (NodeThunk.mk u (Context.mk idx B args)) = some bb →
      (∀ x ∈ B.take idx,
        x.name ≠ (NodeThunk.mk u (Context.mk idx B args)).effName) →
      withParamExpanded fuel (Context.mk idx B args) u =
        some [NodeThunk.mk u (Context.mk idx B args)])
  ∧ (∀ (fuel idx : Nat) (B : List Binding) (args : Targuments) (u : KNode)
      (bb : Bool) (bj : Binding) (d : Declaration) (P Q : List Binding)
      (args2 : Targuments),
      args.nodeLookup ((NodeThunk.mk u (Context.mk idx B args)).effName)
        = Option.none →
      (NodeThunk.mk u (Context.mk idx B args)).effName ≠ "expand" →
      fieldsEmpty fuel (NodeThunk.mk u (Context.mk idx B args)) = some bb →
      B.take idx = P ++ bj :: Q →
      (∀ x ∈ Q,
        x.name ≠ (NodeThunk.mk u (Context.mk idx B args)).effName
          ∨ x.declaration = Option.none) →
      bj.name = (NodeThunk.mk u (Context.mk idx B args)).effName →
      bj.declaration = some d →
      declArguments fuel d (NodeThunk.mk u (Context.mk idx B args))
        bj.bindingIndex B = some args2 →
      withParamExpanded fuel (Context.mk idx B args) u =
        some [NodeThunk.mk d.body (Context.mk bj.bindingIndex B args2)]) := by
  refine ⟨fun pre => rfl, scopeFold_snoc, ?_, readDocument_root, ?_, ?_⟩
  · intro ns bs es h
    exact (scopeFold_index ns [] bs es h (fun k hk => absurd hk (by simp))).1
  · intro fuel idx B args u bb hshadow hkw hfe hfail
    exact expand_passthrough fuel idx B args u bb hshadow hkw hfe
      (fun x hx => Or.inl (hfail x hx))
  · intro fuel idx B args u bb bj d P Q args2 hshadow hkw hfe hsplit hafter
      hname hdecl hargs
    exact expand_invoke fuel idx B args u bb bj d P Q args2 hshadow hkw hfe
      hsplit hafter hname hdecl hargs

/-- C1 witness: the scope `[m]` built from the declaration
`m { body; }`; the invocation `m` at index 0 (use lexically before the
declaration) passes through unchanged, the same invocation at index 1 (use
after the declaration) expands to `body`; reading the document
`m { body; }  use` yields the root `use` over the one-binding chain. -/
theorem declaration_order_visibility_witness :
    withParamExpanded 5
      (Context.mk 0
        [Binding.mk "m" 0 (some (Declaration.mk
          (KNode.mk Option.none "body" [] Option.none) []))]
        Targuments.empty)
      (KNode.mk Option.none "m" [] Option.none) =
      some [NodeThunk.mk (KNode.mk Option.none "m" [] Option.none)
        (Context.mk 0
          [Binding.mk "m" 0 (some (Declaration.mk
            (KNode.mk Option.none "body" [] Option.none) []))]
          Targuments.empty)]
  ∧ withParamExpanded 5
      (Context.mk 1
        [Binding.mk "m" 0 (some (Declaration.mk
          (KNode.mk Option.none "body" [] Option.none) []))]
        Targuments.empty)
      (KNode.mk Option.none "m" [] Option.none) =
      some [NodeThunk.mk (KNode.mk Option.none "body" [] Option.none)
        (Context.mk 0
          [Binding.mk "m" 0 (some (Declaration.mk
            (KNode.mk Option.none "body" [] Option.none) []))]
          Targuments.empty)]
  ∧ readDocument []
      [KNode.mk Option.none "m" []
        (some [KNode.mk Option.none "body" [] Option.none]),
       KNode.mk Option.none "use" [] Option.none] =
      some (MultiResult.ok (RDocument.node
        (NodeThunk.mk (KNode.mk Option.none "use" [] Option.none)
          (Context.mk 1
            [Binding.mk "m" 0 (some (Declaration.mk
              (KNode.mk Option.none "body" [] Option.none) []))]
            Targuments.empty)))) := by
  refine ⟨?_, ?_, ?_⟩
  · exact declaration_order_visibility.2.2.2.2.1 5 0
      [Binding.mk "m" 0 (some (Declaration.mk
        (KNode.mk Option.none "body" [] Option.none) []))]
      Targuments.empty (KNode.mk Option.none "m" [] Option.none) true
      rfl (by decide)
      (by simp [fieldsEmpty, NodeThunk.body, KNode.entries, KNode.children])
      (by intro x hx; simp at hx)
  · exact declaration_order_visibility.2.2.2.2.2 5 1
      [Binding.mk "m" 0 (some (Declaration.mk
        (KNode.mk Option.none "body" [] Option.none) []))]
      Targuments.empty (KNode.mk Option.none "m" [] Option.none) true
      (Binding.mk "m" 0 (some (Declaration.mk
        (KNode.mk Option.none "body" [] Option.none) [])))
      (Declaration.mk (KNode.mk Option.none "body" [] Option.none) [])
      [] [] Targuments.empty
      rfl (by decide)
      (by simp [fieldsEmpty, NodeThunk.body, KNode.entries, KNode.children])
      rfl (by intro x hx; simp at hx) rfl rfl
      (by simp [declArguments, argsFold, thunkFieldsM, thunkChildren,
        flatMapExpand, NodeThunk.body, NodeThunk.context, KNode.entries,
        KNode.children, Targuments.empty])
  · exact declaration_order_visibility.2.2.2.1 []
      [KNode.mk Option.none "m" []
        (some [KNode.mk Option.none "body" [] Option.none]),
       KNode.mk Option.none "use" [] Option.none]
      [Binding.mk "m" 0 (some (Declaration.mk
        (KNode.mk Option.none "body" [] Option.none) []))]
      [] (KNode.mk Option.none "use" [] Option.none)
      rfl (by decide) rfl

theorem chainName_head (i : Nat) : (chainName i).data.head? = some 'W' := rfl

theorem chainName_ne (i : Nat) (s : String) (hs : s.data.head? ≠ some 'W') :
    chainName i ≠ s := by
  intro h
  exact hs (h ▸ chainName_head i)

theorem chainName_inj {i j : Nat} (h : chainName i = chainName j) : i = j := by
  have h2 : ('W' :: List.replicate i 'I') = ('W' :: List.replicate j 'I') := by
    have := congrArg String.data h
    simpa [chainName] using this
  have h3 : List.replicate i 'I' = List.replicate j 'I' := by
    simpa using h2
  have := congrArg List.length h3
  simpa using this

theorem infoAt_typeName (ks : List WrapKind) (i : Nat) :
    (infoAt ks i).typeName = chainName i := by
  unfold infoAt
  cases kindAt ks i <;> rfl

theorem infoAt_typeId (ks : List WrapKind) (i : Nat) :
    (infoAt ks i).typeId = i + 1 := by
  unfold infoAt
  cases kindAt ks i <;> rfl

theorem tyOf_typeName (ks : List WrapKind) (b : Nat) :
    (tyOf ks b).typeName = nameOf ks b := by
  unfold tyOf nameOf
  by_cases h : b < ks.length
  · simp [h, infoAt_typeName]
  · simp [h]
    rfl

theorem tyOf_typeId (ks : List WrapKind) (b : Nat) :
    (tyOf ks b).typeId = idOf ks b := by
  unfold tyOf idOf
  by_cases h : b < ks.length
  · simp [h, infoAt_typeId]
  · simp [h]
    rfl


theorem find_range_map {α : Type} (f : Nat → α) (p : α → Bool) :
    ∀ (len s i : Nat), s ≤ i → i < s + len → p (f i) = true →
    (∀ j, s ≤ j → j < s + len → p (f j) = true → j = i) →
    (((List.range' s len).map f).find? p) = some (f i) := by
  intro len
  induction len with
  | zero => intro s i h1 h2 _ _; omega
  | succ m ih =>
    intro s i h1 h2 hp huniq
    rw [List.range'_succ]
    simp only [List.map_cons]
    by_cases hsi : s = i
    · subst hsi
      rw [List.find?_cons_of_pos _ hp]
    · have hps : p (f s) = false := by
        cases hq : p (f s)
        · rfl
        · exact absurd (huniq s le_rfl (by omega) hq) hsi
      rw [List.find?_cons_of_neg _ (by simp [hps])]
      exact ih (s + 1) i (by omega) (by omega) hp
        (fun j hj1 hj2 hj3 => huniq j (by omega) (by omega) hj3)

theorem find_range_map_none {α : Type} (f : Nat → α) (p : α → Bool) (n : Nat)
    (hall : ∀ j, j < n → p (f j) = false) :
    (((List.range n).map f).find? p) = Option.none := by
  rw [List.find?_eq_none]
  intro a ha
  simp only [List.mem_map, List.mem_range] at ha
  obtain ⟨j, hj, rfl⟩ := ha
  simp [hall j hj]

theorem getNamed_regAt (ks : List WrapKind) (b : Nat) (hb : b ≤ ks.length) :
    getNamed (chainReg ks) (nameOf ks b) = .ok (regAt ks b) := by
  unfold getNamed chainReg
  by_cases h : b < ks.length
  · have hname : nameOf ks b = chainName b := by unfold nameOf; rw [if_pos h]
    rw [hname]
    rw [List.find?_cons_of_neg _ (by
      intro hcon
      have hx : "u32" = chainName b := by
        simpa [u32Info, TypeInfo.typeName] using hcon
      exact chainName_ne b "u32" (by decide) hx.symm)]
    rw [List.range_eq_range']
    rw [find_range_map (fun i => (⟨chainName i, infoAt ks i⟩ : TypeRegistration))
      (fun r => r.info.typeName == chainName b) ks.length 0 b (by omega) (by omega)
      (by simp [infoAt_typeName])
      (fun j hj1 hj2 hj3 => by
        simp only [infoAt_typeName, beq_iff_eq] at hj3
        exact chainName_inj hj3)]
    unfold regAt tyOf
    rw [if_pos h, hname]
  · have hbn : b = ks.length := by omega
    subst hbn
    have hname : nameOf ks ks.length = "u32" := by
      unfold nameOf
      simp
    rw [hname]
    rw [List.find?_cons_of_pos _ (by simp [u32Info, TypeInfo.typeName])]
    unfold regAt tyOf nameOf
    simp

theorem getNamed_noresolve (ks : List WrapKind) (s : String)
    (h1 : s ≠ "u32") (h2 : ∀ j, j < ks.length → chainName j ≠ s) :
    getNamed (chainReg ks) s = .error (.noSuchType s) := by
  unfold getNamed chainReg
  rw [List.find?_cons_of_neg _ (by
    intro hcon
    have hx : "u32" = s := by simpa [u32Info, TypeInfo.typeName] using hcon
    exact h1 hx.symm)]
  rw [find_range_map_none _ _ _ (fun j hj => by
    simp only [infoAt_typeName]
    exact beq_eq_false_iff_ne.mpr (h2 j hj))]
  rw [List.find?_cons_of_neg _ (by
    intro hcon
    have hx : "u32" = s := by simpa using hcon
    exact h1 hx.symm)]
  rw [find_range_map_none _ _ _ (fun j hj => by
    exact beq_eq_false_iff_ne.mpr (h2 j hj))]

theorem findById_regAt (ks : List WrapKind) (b : Nat) (hb : b ≤ ks.length) :
    findById (chainReg ks) (idOf ks b) = some (regAt ks b) := by
  unfold findById chainReg
  by_cases h : b < ks.length
  · have hid : idOf ks b = b + 1 := by unfold idOf; rw [if_pos h]
    rw [hid]
    rw [List.find?_cons_of_neg _ (by simp [u32Info, TypeInfo.typeId])]
    rw [List.range_eq_range']
    rw [find_range_map (fun i => (⟨chainName i, infoAt ks i⟩ : TypeRegistration))
      (fun r => r.info.typeId == b + 1) ks.length 0 b (by omega) (by omega)
      (by simp [infoAt_typeId])
      (fun j hj1 hj2 hj3 => by
        simp only [infoAt_typeId, beq_iff_eq] at hj3
        omega)]
    have hname : nameOf ks b = chainName b := by unfold nameOf; rw [if_pos h]
    unfold regAt tyOf
    rw [if_pos h, hname]
  · have hbn : b = ks.length := by omega
    subst hbn
    have hid : idOf ks ks.length = 0 := by unfold idOf; simp
    rw [hid]
    rw [List.find?_cons_of_pos _ (by simp [u32Info, TypeInfo.typeId])]
    unfold regAt tyOf nameOf
    simp

theorem chainFrom_lt (ks : List WrapKind) (b : Nat) (h : b < ks.length) :
    chainFrom ks b = infoAt ks b :: chainFrom ks (b + 1) := by
  rw [chainFrom]
  rw [dif_pos h]

theorem chainFrom_ge (ks : List WrapKind) (b : Nat) (h : ¬ b < ks.length) :
    chainFrom ks b = [u32Info] := by
  rw [chainFrom]
  rw [dif_neg h]

theorem wrapFrom_ge (ks : List WrapKind) (a : Nat) (h : ¬ a < ks.length) :
    wrapFrom ks a = .prim (.int .u32 9000) := by
  rw [wrapFrom]
  rw [dif_neg h]

theorem descSeg_self (ks : List WrapKind) (b : Nat) :
    descSeg ks b b = [] := by
  cases b with
  | zero => rfl
  | succ c => rw [descSeg]; rw [if_neg (by omega)]

theorem descSeg_cons (ks : List WrapKind) (c b : Nat) (h : b ≤ c) :
    descSeg ks (c + 1) b = infoAt ks c :: descSeg ks c b := by
  rw [descSeg]
  rw [if_pos h]

theorem descSeg_snoc (ks : List WrapKind) :
    ∀ (c b : Nat), b < c →
    descSeg ks c b = descSeg ks c (b + 1) ++ [infoAt ks b] := by
  intro c
  induction c with
  | zero => intro b h; omega
  | succ c ih =>
    intro b h
    rcases Nat.lt_or_ge b c with hb | hb
    · rw [descSeg_cons ks c b (by omega), descSeg_cons ks c (b + 1) (by omega),
        ih b hb]
      rfl
    · have hbc : b = c := by omega
      subst hbc
      rw [descSeg_cons ks b b le_rfl, descSeg_self, descSeg_self]
      rfl

theorem chainFrom_reverse (ks : List WrapKind) :
    ∀ (d b : Nat), ks.length - b = d → b ≤ ks.length →
    (chainFrom ks b).reverse = u32Info :: descSeg ks ks.length b := by
  intro d
  induction d with
  | zero =>
    intro b hd hb
    have hbn : b = ks.length := by omega
    subst hbn
    rw [chainFrom_ge ks _ (by omega), descSeg_self]
    rfl
  | succ m ih =>
    intro b hd hb
    have hblt : b < ks.length := by omega
    rw [chainFrom_lt ks b hblt]
    rw [List.reverse_cons]
    rw [ih (b + 1) (by omega) (by omega)]
    rw [descSeg_snoc ks ks.length b hblt]
    rfl

theorem singleFieldInner_infoAt (ks : List WrapKind) (i : Nat) :
    (infoAt ks i).singleFieldInner = some (chainFieldAt ks i) := by
  unfold infoAt
  cases kindAt ks i <;> rfl

theorem chainFieldAt_typeId (ks : List WrapKind) (b : Nat) :
    (chainFieldAt ks b).typeId = idOf ks (b + 1) := rfl

theorem chainFieldAt_typeName (ks : List WrapKind) (b : Nat) :
    (chainFieldAt ks b).typeName = nameOf ks (b + 1) := rfl

theorem expectedTypeNew_chain (ks : List WrapKind) :
    ∀ (d b : Nat), ks.length - b = d → b ≤ ks.length →
    ∀ fuel, ks.length - b + 1 ≤ fuel →
    expectedTypeNew (chainReg ks) fuel (tyOf ks b) = some (chainFrom ks b) := by
  intro d
  induction d with
  | zero =>
    intro b hd hb fuel hf
    have hbn : b = ks.length := by omega
    subst hbn
    obtain ⟨f, rfl⟩ : ∃ f, fuel = f + 1 := ⟨fuel - 1, by omega⟩
    have hty : tyOf ks ks.length = u32Info := by unfold tyOf; simp
    rw [hty, expectedTypeNew]
    rw [chainFrom_ge ks _ (by omega)]
    rfl
  | succ m ih =>
    intro b hd hb fuel hf
    have hblt : b < ks.length := by omega
    obtain ⟨f, rfl⟩ : ∃ f, fuel = f + 1 := ⟨fuel - 1, by omega⟩
    have hty : tyOf ks b = infoAt ks b := by unfold tyOf; rw [if_pos hblt]
    rw [hty, expectedTypeNew]
    simp only [singleFieldInner_infoAt, chainFieldAt_typeId,
      findById_regAt ks (b + 1) (by omega),
      show (regAt ks (b + 1)).info = tyOf ks (b + 1) from rfl,
      ih (b + 1) (by omega) (by omega) f (by omega)]
    rw [chainFrom_lt ks b hblt]
    rfl

theorem typeInfo_none_some (ks : List WrapKind) (b : Nat) (hb : b ≤ ks.length)
    (fuel : Nat) (hf : ks.length + 1 ≤ fuel) :
    typeInfo (chainReg ks) fuel Option.none (some (nameOf ks b)) =
      some (.ok (chainFrom ks b)) := by
  unfold typeInfo
  rw [if_neg (by simp)]
  simp only [Option.map_some', Option.map_none', getNamed_regAt ks b hb,
    show (regAt ks b).info = tyOf ks b from rfl,
    expectedTypeNew_chain ks (ks.length - b) b rfl hb fuel (by omega)]
  rfl

theorem chainName_ne_tuple (i : Nat) : chainName i ≠ "Tuple" :=
  chainName_ne i "Tuple" (by decide)

theorem typeInfo_none_none (ks : List WrapKind) (fuel : Nat) :
    typeInfo (chainReg ks) fuel Option.none Option.none =
      some (.err [.untypedTupleField]) := rfl

theorem typeInfo_aligned (ks : List WrapKind) (b : Nat) (hb : b < ks.length)
    (fuel : Nat) (hf : ks.length + 1 ≤ fuel) :
    typeInfo (chainReg ks) fuel (some (chainName b)) (some (nameOf ks b)) =
      some (.ok (chainFrom ks b)) := by
  unfold typeInfo
  rw [if_neg (by
    intro hcon
    exact chainName_ne_tuple b (Option.some.injEq _ _ ▸ hcon))]
  have hnb : nameOf ks b = chainName b := by unfold nameOf; rw [if_pos hb]
  rw [show (some (chainName b)) = some (nameOf ks b) from by rw [hnb]]
  simp only [Option.map_some', getNamed_regAt ks b (by omega)]
  simp only [ne_eq, ite_not, if_true]
  simp only [show (regAt ks b).info = tyOf ks b from rfl,
    expectedTypeNew_chain ks (ks.length - b) b rfl (by omega) fuel (by omega)]
  rfl

theorem typeInfo_mismatch (ks : List WrapKind) (a c : Nat)
    (ha : a < ks.length) (hc : c ≤ ks.length) (hac : a ≠ c)
    (fuel : Nat) (hf : ks.length + 1 ≤ fuel) :
    typeInfo (chainReg ks) fuel (some (chainName a)) (some (nameOf ks c)) =
      some (.okErr (chainFrom ks a)
        [.typeMismatch (tyOf ks c).typeName (tyOf ks a).typeName]) := by
  unfold typeInfo
  rw [if_neg (by
    intro hcon
    exact chainName_ne_tuple a (Option.some.injEq _ _ ▸ hcon))]
  have hna : nameOf ks a = chainName a := by unfold nameOf; rw [if_pos ha]
  rw [show (some (chainName a)) = some (nameOf ks a) from by rw [hna]]
  simp only [Option.map_some', getNamed_regAt ks a (by omega),
    getNamed_regAt ks c hc]
  have hids : (regAt ks a).info.typeId ≠ (regAt ks c).info.typeId := by
    rw [show (regAt ks a).info = tyOf ks a from rfl,
      show (regAt ks c).info = tyOf ks c from rfl, tyOf_typeId, tyOf_typeId]
    unfold idOf
    rw [if_pos ha]
    by_cases h2 : c < ks.length
    · rw [if_pos h2]; omega
    · rw [if_neg h2]; omega
  simp only [ne_eq, ite_not]
  rw [if_neg hids]
  simp only [show (regAt ks a).info = tyOf ks a from rfl,
    expectedTypeNew_chain ks (ks.length - a) a rfl (by omega) fuel (by omega)]
  rfl

theorem typeInfo_badDeclared (ks : List WrapKind) (s : String) (c : Nat)
    (hc : c ≤ ks.length) (hs1 : s ≠ "u32") (hs2 : ∀ j, j < ks.length → chainName j ≠ s)
    (hs3 : s ≠ "Tuple")
    (fuel : Nat) (hf : ks.length + 1 ≤ fuel) :
    typeInfo (chainReg ks) fuel (some s) (some (nameOf ks c)) =
      some (.okErr (chainFrom ks c) [.noSuchType s]) := by
  unfold typeInfo
  rw [if_neg (by
    intro hcon
    exact hs3 (Option.some.injEq _ _ ▸ hcon))]
  simp only [Option.map_some', getNamed_regAt ks c hc, getNamed_noresolve ks s hs1 hs2]
  simp only [show (regAt ks c).info = tyOf ks c from rfl,
    expectedTypeNew_chain ks (ks.length - c) c rfl hc fuel (by omega)]
  rfl

theorem dynValueNewtypes_chain (ks : List WrapKind) :
    ∀ (d b : Nat), ks.length - b = d → b ≤ ks.length →
    ∀ (fuel : Nat) (ws : List String), ks.length - b + 1 ≤ fuel →
    dynValueNewtypes (chainReg ks) fuel (.int 9000) (idOf ks b) (nameOf ks b) ws =
      some (.ok (wrapFrom ks b)) := by
  intro d
  induction d with
  | zero =>
    intro b hd hb fuel ws hf
    have hbn : b = ks.length := by omega
    subst hbn
    obtain ⟨f, rfl⟩ : ∃ f, fuel = f + 1 := ⟨fuel - 1, by omega⟩
    rw [dynValueNewtypes]
    simp only [findById_regAt ks ks.length le_rfl]
    rw [show (regAt ks ks.length).info = u32Info from by
      show tyOf ks ks.length = u32Info
      unfold tyOf
      simp]
    rw [wrapFrom_ge ks _ (by omega)]
    rfl
  | succ m ih =>
    intro b hd hb fuel ws hf
    have hblt : b < ks.length := by omega
    obtain ⟨f, rfl⟩ : ∃ f, fuel = f + 1 := ⟨fuel - 1, by omega⟩
    rw [dynValueNewtypes]
    simp only [findById_regAt ks b (by omega)]
    have hreg : (regAt ks b).info = infoAt ks b := by
      show tyOf ks b = infoAt ks b
      unfold tyOf
      rw [if_pos hblt]
    rw [hreg]
    have hrec := ih (b + 1) (by omega) (by omega) f
      ((if b < ks.length then chainName b else "u32") :: ws).reverse (by omega)
    unfold infoAt
    rw [wrapFrom]
    rw [dif_pos hblt]
    cases hk : kindAt ks b with
    | wStruct =>
      simp only []
      rw [show (chainFieldAt ks b).typeId = idOf ks (b + 1) from rfl,
        show (chainFieldAt ks b).typeName = nameOf ks (b + 1) from rfl,
        ih (b + 1) (by omega) (by omega) f _ (by omega)]
      have hnb : nameOf ks b = chainName b := by unfold nameOf; rw [if_pos hblt]
      rw [hnb]
      rfl
    | wTuple =>
      simp only []
      rw [show (chainFieldAt ks b).typeId = idOf ks (b + 1) from rfl,
        show (chainFieldAt ks b).typeName = nameOf ks (b + 1) from rfl,
        ih (b + 1) (by omega) (by omega) f _ (by omega)]
      have hnb : nameOf ks b = chainName b := by unfold nameOf; rw [if_pos hblt]
      rw [hnb]
      rfl
    | wTupleStruct =>
      simp only []
      rw [show (chainFieldAt ks b).typeId = idOf ks (b + 1) from rfl,
        show (chainFieldAt ks b).typeName = nameOf ks (b + 1) from rfl,
        ih (b + 1) (by omega) (by omega) f _ (by omega)]
      have hnb : nameOf ks b = chainName b := by unfold nameOf; rw [if_pos hblt]
      rw [hnb]
      rfl

theorem nodeNameAt_ne_dash (ks : List WrapKind) (a : Nat) :
    nodeNameAt ks a ≠ "-" := by
  unfold nodeNameAt
  by_cases h : a = 0
  · rw [if_pos h]
    exact chainName_ne 0 "-" (by decide)
  · rw [if_neg h]
    cases kindAt ks (a - 1) with
    | wStruct =>
      show ("f" : String) ≠ "-"
      decide
    | wTuple => exact chainName_ne a "-" (by decide)
    | wTupleStruct => exact chainName_ne a "-" (by decide)

theorem filter_name_keep (s : String) (h : s ≠ "-") :
    (some s).filter (fun n => n != "-") = some s := by
  simp [Option.filter, h]

theorem nodeAt_name (ks : List WrapKind) (a : Nat) :
    (nodeAt ks a).name = nodeNameAt ks a := by
  rw [nodeAt]
  by_cases h : a + 1 < ks.length
  · rw [dif_pos h]
    rfl
  · rw [dif_neg h]
    rfl

theorem nodeAt_ty (ks : List WrapKind) (a : Nat) :
    (nodeAt ks a).ty = Option.none := by
  rw [nodeAt]
  by_cases h : a + 1 < ks.length
  · rw [dif_pos h]
    rfl
  · rw [dif_neg h]
    rfl

theorem nodeAt_deep (ks : List WrapKind) (a : Nat) (h : a + 1 < ks.length) :
    nodeAt ks a = KNode.mk Option.none (nodeNameAt ks a) []
      (some [nodeAt ks (a + 1)]) := by
  rw [nodeAt]
  rw [dif_pos h]

theorem nodeAt_leaf (ks : List WrapKind) (a : Nat) (h : ¬ a + 1 < ks.length) :
    nodeAt ks a = KNode.mk Option.none (nodeNameAt ks a)
      [match kindAt ks a with
       | .wStruct => ⟨some "f", Option.none, .base10 9000⟩
       | _ => ⟨Option.none, Option.none, .base10 9000⟩]
      Option.none := by
  rw [nodeAt]
  rw [dif_neg h]

theorem dFields_nodeAt_deep (ks : List WrapKind) (a : Nat) (h : a + 1 < ks.length) :
    (nodeAt ks a).dFields =
      [⟨Option.none, some (nodeNameAt ks (a + 1)), .node (nodeAt ks (a + 1))⟩] := by
  rw [nodeAt_deep ks a h]
  unfold KNode.dFields dFieldOfNode DField.new
  simp only [KNode.entries, KNode.children, List.map_nil,
    List.map_cons, Option.getD, List.nil_append, nodeAt_name, nodeAt_ty]
  rw [filter_name_keep _ (nodeNameAt_ne_dash ks (a + 1))]

theorem dFields_nodeAt_leafStruct (ks : List WrapKind) (a : Nat)
    (h : ¬ a + 1 < ks.length) (hk : kindAt ks a = .wStruct) :
    (nodeAt ks a).dFields = [⟨Option.none, some "f", .value (.base10 9000)⟩] := by
  rw [nodeAt_leaf ks a h, hk]
  unfold KNode.dFields dFieldOfEntry DField.new
  simp [KNode.entries, KNode.children, KEntry.ty, KEntry.name, KEntry.value,
    Option.filter]

theorem dFields_nodeAt_leafAnon (ks : List WrapKind) (a : Nat)
    (h : ¬ a + 1 < ks.length) (hk : kindAt ks a ≠ .wStruct) :
    (nodeAt ks a).dFields = [⟨Option.none, Option.none, .value (.base10 9000)⟩] := by
  rw [nodeAt_leaf ks a h]
  cases hkk : kindAt ks a with
  | wStruct => exact absurd hkk hk
  | wTuple =>
    unfold KNode.dFields dFieldOfEntry DField.new
    simp [KNode.entries, KNode.children, KEntry.ty, KEntry.name, KEntry.value,
      Option.filter]
  | wTupleStruct =>
    unfold KNode.dFields dFieldOfEntry DField.new
    simp [KNode.entries, KNode.children, KEntry.ty, KEntry.name, KEntry.value,
      Option.filter]

theorem isAnonD_nodeAt_deep (ks : List WrapKind) (a : Nat) (h : a + 1 < ks.length) :
    (nodeAt ks a).isAnonD = false := by
  unfold KNode.isAnonD
  rw [dFields_nodeAt_deep ks a h]
  rfl

theorem isAnonD_nodeAt_leafStruct (ks : List WrapKind) (a : Nat)
    (h : ¬ a + 1 < ks.length) (hk : kindAt ks a = .wStruct) :
    (nodeAt ks a).isAnonD = false := by
  unfold KNode.isAnonD
  rw [dFields_nodeAt_leafStruct ks a h hk]
  rfl

theorem isAnonD_nodeAt_leafAnon (ks : List WrapKind) (a : Nat)
    (h : ¬ a + 1 < ks.length) (hk : kindAt ks a ≠ .wStruct) :
    (nodeAt ks a).isAnonD = true := by
  unfold KNode.isAnonD
  rw [dFields_nodeAt_leafAnon ks a h hk]
  rfl

theorem firstArgumentD_nodeAt_deep (ks : List WrapKind) (a : Nat)
    (h : a + 1 < ks.length) :
    (nodeAt ks a).firstArgumentD = Option.none := by
  rw [nodeAt_deep ks a h]
  rfl

theorem firstArgumentD_nodeAt_leafStruct (ks : List WrapKind) (a : Nat)
    (h : ¬ a + 1 < ks.length) (hk : kindAt ks a = .wStruct) :
    (nodeAt ks a).firstArgumentD = Option.none := by
  rw [nodeAt_leaf ks a h, hk]
  rfl

theorem firstArgumentD_nodeAt_leafAnon (ks : List WrapKind) (a : Nat)
    (h : ¬ a + 1 < ks.length) (hk : kindAt ks a ≠ .wStruct) :
    (nodeAt ks a).firstArgumentD = some (.base10 9000) := by
  rw [nodeAt_leaf ks a h]
  cases hkk : kindAt ks a with
  | wStruct => exact absurd hkk hk
  | wTuple => rfl
  | wTupleStruct => rfl

theorem u32Info_eq : u32Info = .valueInfo "u32" 0 (.int .u32) := rfl

theorem dispatch_node_u32 (ks : List WrapKind) (fuel : Nat) (n : KNode) :
    intoDynDispatch fuel (chainReg ks) (.node n) (some u32Info) =
      valueBuilderNew fuel (chainReg ks) "u32" 0 n := by
  rw [u32Info_eq, intoDynDispatch]

theorem valueBuilderNew_noArg (reg : Registry) (fuel : Nat) (vn : String)
    (vid : Nat) (n : KNode) (h : n.firstArgumentD = Option.none) :
    valueBuilderNew fuel reg vn vid n = some (.err [.noValuesInNode vn]) := by
  unfold valueBuilderNew
  rw [h]

theorem valueBuilderNew_bare (ks : List WrapKind) (fuel : Nat) (n : KNode)
    (h : n.firstArgumentD = some (.base10 9000)) (hf : ks.length + 1 ≤ fuel) :
    valueBuilderNew fuel (chainReg ks) "u32" 0 n =
      some (.ok (.prim (.int .u32 9000))) := by
  unfold valueBuilderNew
  rw [h]
  show Option.map exceptToMulti (dynValueNewtypes (chainReg ks) fuel
    (KdlConcrete.ofValue (.base10 9000)) 0 "u32" []) = _
  have hid : idOf ks ks.length = 0 := by unfold idOf; simp
  have hnm : nameOf ks ks.length = "u32" := by unfold nameOf; simp
  have := dynValueNewtypes_chain ks 0 ks.length (by omega) le_rfl fuel [] (by omega)
  rw [hid, hnm] at this
  rw [show KdlConcrete.ofValue (.base10 9000) = .int 9000 from rfl, this]
  rw [wrapFrom_ge ks _ (by omega)]
  rfl

theorem dispatch_value_u32 (ks : List WrapKind) (fuel : Nat)
    (hf : ks.length + 1 ≤ fuel) :
    intoDynDispatch fuel (chainReg ks) (.value (.base10 9000)) (some u32Info) =
      some (.ok (.prim (.int .u32 9000))) := by
  rw [intoDynDispatch]
  have hid : idOf ks ks.length = 0 := by unfold idOf; simp
  have hnm : nameOf ks ks.length = "u32" := by unfold nameOf; simp
  have := dynValueNewtypes_chain ks 0 ks.length (by omega) le_rfl fuel [] (by omega)
  rw [hid, hnm] at this
  rw [show u32Info.typeId = 0 from rfl, show u32Info.typeName = "u32" from rfl,
    show KdlConcrete.ofValue (.base10 9000) = .int 9000 from rfl, this]
  rw [wrapFrom_ge ks _ (by omega)]
  rfl

theorem dispatch_value_info (ks : List WrapKind) (fuel : Nat) (j : Nat)
    (hj : j < ks.length) (hf : ks.length + 1 ≤ fuel) :
    intoDynDispatch fuel (chainReg ks) (.value (.base10 9000)) (some (infoAt ks j)) =
      some (.ok (wrapFrom ks j)) := by
  rw [intoDynDispatch]
  have hid : idOf ks j = j + 1 := by unfold idOf; rw [if_pos hj]
  have hnm : nameOf ks j = chainName j := by unfold nameOf; rw [if_pos hj]
  have := dynValueNewtypes_chain ks (ks.length - j) j rfl (by omega) fuel [] (by omega)
  rw [hid, hnm] at this
  rw [infoAt_typeId, infoAt_typeName,
    show KdlConcrete.ofValue (.base10 9000) = .int 9000 from rfl, this]
  rfl

theorem infoAt_struct (ks : List WrapKind) (c : Nat) (h : kindAt ks c = .wStruct) :
    infoAt ks c = .structInfo (chainName c) (c + 1) [chainFieldAt ks c] := by
  unfold infoAt
  rw [h]

theorem infoAt_tuple (ks : List WrapKind) (c : Nat) (h : kindAt ks c = .wTuple) :
    infoAt ks c = .tupleInfo (chainName c) (c + 1) [chainFieldAt ks c] := by
  unfold infoAt
  rw [h]

theorem infoAt_tupleStruct (ks : List WrapKind) (c : Nat)
    (h : kindAt ks c = .wTupleStruct) :
    infoAt ks c = .tupleStructInfo (chainName c) (c + 1) [chainFieldAt ks c] := by
  unfold infoAt
  rw [h]

theorem wrapFrom_struct (ks : List WrapKind) (c : Nat) (h : c < ks.length)
    (hk : kindAt ks c = .wStruct) :
    wrapFrom ks c = .dynStruct (chainName c) [("f", wrapFrom ks (c + 1))] := by
  rw [wrapFrom, dif_pos h, hk]

theorem wrapFrom_tuple (ks : List WrapKind) (c : Nat) (h : c < ks.length)
    (hk : kindAt ks c = .wTuple) :
    wrapFrom ks c = .dynTuple (chainName c) [wrapFrom ks (c + 1)] := by
  rw [wrapFrom, dif_pos h, hk]

theorem wrapFrom_tupleStruct (ks : List WrapKind) (c : Nat) (h : c < ks.length)
    (hk : kindAt ks c = .wTupleStruct) :
    wrapFrom ks c = .dynTupleStruct (chainName c) [wrapFrom ks (c + 1)] := by
  rw [wrapFrom, dif_pos h, hk]

theorem chainLoop_wrapStep (ks : List WrapKind) (v : DValueExt) (fuel : Nat)
    (c b : Nat) (hb : b ≤ c) (hc : c < ks.length) :
    chainLoop fuel (chainReg ks) (descSeg ks (c + 1) b) (.ok (wrapFrom ks (c + 1))) v =
      chainLoop fuel (chainReg ks) (descSeg ks c b) (.ok (wrapFrom ks c)) v := by
  rw [descSeg_cons ks c b hb]
  cases hk : kindAt ks c with
  | wStruct =>
    rw [infoAt_struct ks c hk, chainLoop, wrapFrom_struct ks c hc hk]
    rfl
  | wTuple =>
    rw [infoAt_tuple ks c hk, chainLoop, wrapFrom_tuple ks c hc hk]
  | wTupleStruct =>
    rw [infoAt_tupleStruct ks c hk, chainLoop, wrapFrom_tupleStruct ks c hc hk]

theorem chainLoop_pure (ks : List WrapKind) (v : DValueExt) (fuel : Nat) :
    ∀ (c b : Nat), b ≤ c → c ≤ ks.length →
    chainLoop fuel (chainReg ks) (descSeg ks c b) (.ok (wrapFrom ks c)) v =
      some (.ok (wrapFrom ks b)) := by
  intro c
  induction c with
  | zero =>
    intro b h1 h2
    have hb : b = 0 := by omega
    subst hb
    rw [descSeg_self, chainLoop]
  | succ c ih =>
    intro b h1 h2
    by_cases hbc : b ≤ c
    · rw [chainLoop_wrapStep ks v fuel c b hbc (by omega)]
      exact ih b hbc (by omega)
    · have hb : b = c + 1 := by omega
      subst hb
      rw [descSeg_self, chainLoop]

theorem chainLoop_rebuildStep (ks : List WrapKind) (v : DValueExt) (fuel : Nat)
    (c b : Nat) (hb : b ≤ c)
    (inner : MultiResult DynValue ConvertError)
    (hno : ∀ w, inner ≠ .ok w)
    (r : MultiResult DynValue ConvertError)
    (hr : intoDynDispatch fuel (chainReg ks) v (some (infoAt ks c)) = some r) :
    chainLoop fuel (chainReg ks) (descSeg ks (c + 1) b) inner v =
      chainLoop fuel (chainReg ks) (descSeg ks c b) r v := by
  rw [descSeg_cons ks c b hb]
  cases inner with
  | ok w => exact absurd rfl (hno w)
  | okErr w es =>
    cases hk : kindAt ks c with
    | wStruct =>
      rw [infoAt_struct ks c hk] at hr ⊢
      rw [chainLoop]
      all_goals first
      | rw [hr]
      | (intro _ _ _ _ h1 _; cases h1)
    | wTuple =>
      rw [infoAt_tuple ks c hk] at hr ⊢
      rw [chainLoop]
      all_goals first
      | rw [hr]
      | (intro _ _ _ _ h1 _; cases h1)
    | wTupleStruct =>
      rw [infoAt_tupleStruct ks c hk] at hr ⊢
      rw [chainLoop]
      all_goals first
      | rw [hr]
      | (intro _ _ _ _ h1 _; cases h1)
  | err es =>
    cases hk : kindAt ks c with
    | wStruct =>
      rw [infoAt_struct ks c hk] at hr ⊢
      rw [chainLoop]
      all_goals first
      | rw [hr]
      | (intro _ _ _ _ h1 _; cases h1)
    | wTuple =>
      rw [infoAt_tuple ks c hk] at hr ⊢
      rw [chainLoop]
      all_goals first
      | rw [hr]
      | (intro _ _ _ _ h1 _; cases h1)
    | wTupleStruct =>
      rw [infoAt_tupleStruct ks c hk] at hr ⊢
      rw [chainLoop]
      all_goals first
      | rw [hr]
      | (intro _ _ _ _ h1 _; cases h1)

theorem chainLoop_weak (ks : List WrapKind) (v : DValueExt) (fuel : Nat) :
    ∀ (c b : Nat) (inner : MultiResult DynValue ConvertError),
    b ≤ c → c ≤ ks.length →
    (∀ w, inner = .ok w → w = wrapFrom ks c) →
    (∀ w, inner ≠ .okErr w []) →
    (∀ j, b ≤ j → j < c →
      ∃ r, intoDynDispatch fuel (chainReg ks) v (some (infoAt ks j)) = some r ∧
        (∀ w, r = .ok w → w = wrapFrom ks j) ∧ (∀ w, r ≠ .okErr w [])) →
    ∃ r, chainLoop fuel (chainReg ks) (descSeg ks c b) inner v = some r ∧
      (∀ w, r = .ok w → w = wrapFrom ks b) ∧ (∀ w, r ≠ .okErr w []) := by
  intro c
  induction c with
  | zero =>
    intro b inner h1 h2 hin hinv hd
    have hb : b = 0 := by omega
    subst hb
    rw [descSeg_self]
    exact ⟨inner, by rw [chainLoop], hin, hinv⟩
  | succ c ih =>
    intro b inner h1 h2 hin hinv hd
    by_cases hbc : b ≤ c
    · cases hok : inner with
      | ok w =>
        have hw := hin w hok
        subst hw
        rw [chainLoop_wrapStep ks v fuel c b hbc (by omega)]
        exact ⟨.ok (wrapFrom ks b), chainLoop_pure ks v fuel c b hbc (by omega),
          fun w hw2 => by cases hw2; rfl, fun w hw2 => by cases hw2⟩
      | okErr w es =>
        obtain ⟨r, hr, hrp, hrinv⟩ := hd c hbc (by omega)
        rw [chainLoop_rebuildStep ks v fuel c b hbc _ (by intro w hcon; cases hcon) r hr]
        exact ih b r hbc (by omega) hrp hrinv (fun j hj1 hj2 => hd j hj1 (by omega))
      | err es =>
        obtain ⟨r, hr, hrp, hrinv⟩ := hd c hbc (by omega)
        rw [chainLoop_rebuildStep ks v fuel c b hbc _ (by intro w hcon; cases hcon) r hr]
        exact ih b r hbc (by omega) hrp hrinv (fun j hj1 hj2 => hd j hj1 (by omega))
    · have hb : b = c + 1 := by omega
      subst hb
      rw [descSeg_self]
      exact ⟨inner, by rw [chainLoop], hin, hinv⟩

theorem chainLoop_strongAt (ks : List WrapKind) (v : DValueExt) (fuel : Nat) :
    ∀ (c b a0 : Nat), b ≤ a0 → a0 < c → c ≤ ks.length →
    (∀ j, b ≤ j → j < c →
      ∃ r, intoDynDispatch fuel (chainReg ks) v (some (infoAt ks j)) = some r ∧
        (∀ w, r = .ok w → w = wrapFrom ks j) ∧ (∀ w, r ≠ .okErr w [])) →
    intoDynDispatch fuel (chainReg ks) v (some (infoAt ks a0)) =
      some (.ok (wrapFrom ks a0)) →
    ∀ inner, (∀ w, inner = .ok w → w = wrapFrom ks c) →
    chainLoop fuel (chainReg ks) (descSeg ks c b) inner v =
      some (.ok (wrapFrom ks b)) := by
  intro c
  induction c with
  | zero => intro b a0 h1 h2 _ _ _ _ _; omega
  | succ c ih =>
    intro b a0 h1 h2 h3 hd hstrong inner hin
    have hbc : b ≤ c := by omega
    cases hok : inner with
    | ok w =>
      have hw := hin w hok
      subst hw
      rw [chainLoop_wrapStep ks v fuel c b hbc (by omega)]
      exact chainLoop_pure ks v fuel c b hbc (by omega)
    | okErr w es =>
      by_cases hca : c = a0
      · subst hca
        rw [chainLoop_rebuildStep ks v fuel c b hbc _ (by intro w hcon; cases hcon)
          _ hstrong]
        exact chainLoop_pure ks v fuel c b hbc (by omega)
      · obtain ⟨r, hr, hrp, hrinv⟩ := hd c hbc (by omega)
        rw [chainLoop_rebuildStep ks v fuel c b hbc _ (by intro w hcon; cases hcon) r hr]
        exact ih b a0 h1 (by omega) (by omega)
          (fun j hj1 hj2 => hd j hj1 (by omega)) hstrong r hrp
    | err es =>
      by_cases hca : c = a0
      · subst hca
        rw [chainLoop_rebuildStep ks v fuel c b hbc _ (by intro w hcon; cases hcon)
          _ hstrong]
        exact chainLoop_pure ks v fuel c b hbc (by omega)
      · obtain ⟨r, hr, hrp, hrinv⟩ := hd c hbc (by omega)
        rw [chainLoop_rebuildStep ks v fuel c b hbc _ (by intro w hcon; cases hcon) r hr]
        exact ih b a0 h1 (by omega) (by omega)
          (fun j hj1 hj2 => hd j hj1 (by omega)) hstrong r hrp

theorem intoDynChain_eq (ks : List WrapKind) (b : Nat) (hb : b ≤ ks.length)
    (v : DValueExt) (fuel : Nat) :
    intoDynChain fuel (chainReg ks) (chainFrom ks b) v =
      match intoDynDispatch fuel (chainReg ks) v (some u32Info) with
      | Option.none => Option.none
      | some inner => chainLoop fuel (chainReg ks) (descSeg ks ks.length b) inner v := by
  rw [intoDynChain]
  rw [chainFrom_reverse ks (ks.length - b) b rfl hb]

theorem newDynamicAnon_singleClean (reg : Registry) (f : Nat)
    (kind : AnonKind) (info : TypeInfo) (fi : FieldInfo)
    (nd : KNode) (fld : DField) (hfld : nd.dFields = [fld])
    (ch : List TypeInfo)
    (herr : ∀ e, anonExpected kind info [fi] 0 ≠ .error e)
    (hti : typeInfo reg f (fld.ty.or fld.name)
      ((anonExpected kind info [fi] 0).toOption) = some (.ok ch))
    (w : DynValue)
    (hval : intoDynChain f reg ch fld.value = some (.ok w)) :
    newDynamicAnon (f + 1) reg kind info [fi] nd =
      some (.ok (anonReflect kind info [fi] [w])) := by
  have herrs1 : (match anonExpected kind info [fi] 0 with
      | .error e => [e]
      | _ => ([] : List ConvertError)) = [] := by
    cases hE : anonExpected kind info [fi] 0 with
    | error e => exact absurd hE (herr e)
    | ok s => rfl
  have hguard : ¬ (kind = .anonStruct ∧ ([fi] : List FieldInfo).length ≤
      ([] : List DynValue).length) := by
    intro hcon
    simp at hcon
  have hred : addFieldAnonValue f reg kind info [fi] [] [] [] [] ch fld =
      addFieldsAnon f reg kind info [fi] [] [w] [] := by
    rw [addFieldAnonValue, hval]
    show (if kind = AnonKind.anonStruct ∧ ([fi] : List FieldInfo).length ≤
        ([] : List DynValue).length then Option.none
      else addFieldsAnon f reg kind info [fi] [] ([] ++ [w]) ([] ++ [])) = _
    rw [if_neg hguard]
    rfl
  rw [newDynamicAnon, hfld]
  rw [addFieldsAnon]
  simp only [List.length_nil, herrs1, hti]
  rw [hred, addFieldsAnon]
  show some ((intoMultiResult (anonReflect kind info [fi] [w])
    (anonValidate kind [fi] ([w] : List DynValue).length)).combine []) = _
  rw [show anonValidate kind [fi] ([w] : List DynValue).length = [] from by
    cases kind <;> rfl]
  rfl

theorem newDynamicAnon_singleDirty (reg : Registry) (f : Nat)
    (kind : AnonKind) (info : TypeInfo) (fi : FieldInfo)
    (nd : KNode) (fld : DField) (hfld : nd.dFields = [fld])
    (ch : List TypeInfo) (es : List ConvertError) (hes : es ≠ [])
    (herr : ∀ e, anonExpected kind info [fi] 0 ≠ .error e)
    (hti : typeInfo reg f (fld.ty.or fld.name)
      ((anonExpected kind info [fi] 0).toOption) = some (.okErr ch es))
    (rr : MultiResult DynValue ConvertError)
    (hval : intoDynChain f reg ch fld.value = some rr) :
    ∃ res, newDynamicAnon (f + 1) reg kind info [fi] nd = some res ∧
      (∀ w, res ≠ .ok w) ∧ (∀ w, res ≠ .okErr w []) := by
  have herrs1 : (match anonExpected kind info [fi] 0 with
      | .error e => [e]
      | _ => ([] : List ConvertError)) = [] := by
    cases hE : anonExpected kind info [fi] 0 with
    | error e => exact absurd hE (herr e)
    | ok s => rfl
  have hguard : ¬ (kind = .anonStruct ∧ ([fi] : List FieldInfo).length ≤
      ([] : List DynValue).length) := by
    intro hcon
    simp at hcon
  have hcomb : ∀ (x : MultiResult DynValue ConvertError) (es2 : List ConvertError),
      es2 ≠ [] → (∀ w, x.combine es2 ≠ .ok w) ∧ (∀ w, x.combine es2 ≠ .okErr w []) := by
    intro x es2 hne
    unfold MultiResult.combine
    rw [if_neg (by simpa using hne)]
    cases x with
    | ok t =>
      constructor
      · intro w hcon
        cases hcon
      · intro w hcon
        injection hcon with h1 h2
        exact hne h2
    | okErr t e2 =>
      constructor
      · intro w hcon
        cases hcon
      · intro w hcon
        injection hcon with h1 h2
        exact hne (List.append_eq_nil.mp h2).2
    | err e2 =>
      constructor
      · intro w hcon
        cases hcon
      · intro w hcon
        cases hcon
  cases rr with
  | ok w =>
    have hred : addFieldAnonValue f reg kind info [fi] [] [] [] ([] ++ es) ch fld =
        addFieldsAnon f reg kind info [fi] [] ([] ++ [w]) ([] ++ ([] ++ es)) := by
      rw [addFieldAnonValue, hval]
      show (if kind = AnonKind.anonStruct ∧ ([fi] : List FieldInfo).length ≤
          ([] : List DynValue).length then Option.none
        else addFieldsAnon f reg kind info [fi] [] ([] ++ [w]) ([] ++ ([] ++ es))) = _
      rw [if_neg hguard]
    have hmain : newDynamicAnon (f + 1) reg kind info [fi] nd =
        some ((intoMultiResult (anonReflect kind info [fi] ([] ++ [w]))
          (anonValidate kind [fi] ([] ++ [w] : List DynValue).length)).combine
          ([] ++ ([] ++ es))) := by
      rw [newDynamicAnon, hfld]
      rw [addFieldsAnon]
      simp only [List.length_nil, herrs1, hti]
      rw [hred, addFieldsAnon]
    refine ⟨_, hmain, ?_, ?_⟩
    · exact (hcomb _ ([] ++ ([] ++ es)) (by simp [hes])).1
    · exact (hcomb _ ([] ++ ([] ++ es)) (by simp [hes])).2
  | okErr w es2 =>
    have hred : addFieldAnonValue f reg kind info [fi] [] [] [] ([] ++ es) ch fld =
        addFieldsAnon f reg kind info [fi] [] ([] ++ [w]) ([] ++ ([] ++ es) ++ es2) := by
      rw [addFieldAnonValue, hval]
      show (if kind = AnonKind.anonStruct ∧ ([fi] : List FieldInfo).length ≤
          ([] : List DynValue).length then Option.none
        else addFieldsAnon f reg kind info [fi] [] ([] ++ [w])
          ([] ++ ([] ++ es) ++ es2)) = _
      rw [if_neg hguard]
    have hmain : newDynamicAnon (f + 1) reg kind info [fi] nd =
        some ((intoMultiResult (anonReflect kind info [fi] ([] ++ [w]))
          (anonValidate kind [fi] ([] ++ [w] : List DynValue).length)).combine
          ([] ++ ([] ++ es) ++ es2)) := by
      rw [newDynamicAnon, hfld]
      rw [addFieldsAnon]
      simp only [List.length_nil, herrs1, hti]
      rw [hred, addFieldsAnon]
    refine ⟨_, hmain, ?_, ?_⟩
    · exact (hcomb _ ([] ++ ([] ++ es) ++ es2) (by simp [hes])).1
    · exact (hcomb _ ([] ++ ([] ++ es) ++ es2) (by simp [hes])).2
  | err es2 =>
    have hred : addFieldAnonValue f reg kind info [fi] [] [] [] ([] ++ es) ch fld =
        addFieldsAnon f reg kind info [fi] [] [] ([] ++ ([] ++ es) ++ es2) := by
      rw [addFieldAnonValue, hval]
    have hmain : newDynamicAnon (f + 1) reg kind info [fi] nd =
        some ((intoMultiResult (anonReflect kind info [fi] ([] : List DynValue))
          (anonValidate kind [fi] ([] : List DynValue).length)).combine
          ([] ++ ([] ++ es) ++ es2)) := by
      rw [newDynamicAnon, hfld]
      rw [addFieldsAnon]
      simp only [List.length_nil, herrs1, hti]
      rw [hred, addFieldsAnon]
      rfl
    refine ⟨_, hmain, ?_, ?_⟩
    · exact (hcomb _ ([] ++ ([] ++ es) ++ es2) (by simp [hes])).1
    · exact (hcomb _ ([] ++ ([] ++ es) ++ es2) (by simp [hes])).2

theorem combine_nonempty (x : MultiResult DynValue ConvertError)
    (es2 : List ConvertError) (hne : es2 ≠ []) :
    (∀ w, x.combine es2 ≠ .ok w) ∧ (∀ w, x.combine es2 ≠ .okErr w []) := by
  unfold MultiResult.combine
  rw [if_neg (by simpa using hne)]
  cases x with
  | ok t =>
    constructor
    · intro w hcon
      cases hcon
    · intro w hcon
      injection hcon with h1 h2
      exact hne h2
  | okErr t e2 =>
    constructor
    · intro w hcon
      cases hcon
    · intro w hcon
      injection hcon with h1 h2
      exact hne (List.append_eq_nil.mp h2).2
  | err e2 =>
    constructor
    · intro w hcon
      cases hcon
    · intro w hcon
      cases hcon

theorem newDynamicByField_singleF (reg : Registry) (f : Nat)
    (sname : String) (id : Nat) (fi : FieldInfo) (hfi : fi.fieldName = "f")
    (nd : KNode) (fld : DField) (hfld : nd.dFields = [fld])
    (hname : fld.name = some "f")
    (ch : List TypeInfo)
    (hti : typeInfo reg f fld.ty (some fi.typeName) = some (.ok ch))
    (r : MultiResult DynValue ConvertError)
    (hval : intoDynChain f reg ch fld.value = some r)
    (hrINV : ∀ w, r ≠ .okErr w []) :
    ∃ res, newDynamicByField (f + 1) reg .structK (.structInfo sname id [fi]) nd
        = some res
      ∧ (∀ w', r = .ok w' → res = .ok (.dynStruct sname [("f", w')]))
      ∧ (∀ w, res = .ok w → ∃ w', r = .ok w' ∧ w = .dynStruct sname [("f", w')])
      ∧ (∀ w, res ≠ .okErr w []) := by
  have hexp : bfExpected .structK (.structInfo sname id [fi]) "f" = .ok fi.typeName := by
    show (match List.find? (fun (f2 : FieldInfo) => f2.fieldName == "f") [fi] with
      | some f2 => Except.ok f2.typeName
      | Option.none => Except.error (ConvertError.noSuchStructField "f" sname
          (List.map (fun (f2 : FieldInfo) => (f2.fieldName, f2.typeName)) [fi]))) = _
    rw [List.find?_cons_of_pos _ (by simp [hfi])]
  cases r with
  | ok w =>
    have hv : bfValidate .structK (.structInfo sname id [fi]) [("f", w)] = [] := rfl
    have hmain : newDynamicByField (f + 1) reg .structK
        (.structInfo sname id [fi]) nd =
        some (.ok (.dynStruct sname [("f", w)])) := by
      rw [newDynamicByField, hfld]
      rw [addFieldsByField, hname]
      simp only [hexp, Except.toOption, hti]
      rw [addFieldByFieldValue, hval]
      simp only [List.find?_nil, Option.isSome_none, Bool.false_eq_true, if_false,
        List.nil_append, List.append_nil, addFieldsByField, hv]
      rfl
    refine ⟨_, hmain, ?_, ?_, ?_⟩
    · intro w' hw'
      injection hw' with h
      subst h
      rfl
    · intro w2 hw2
      injection hw2 with h
      exact ⟨w, rfl, h.symm⟩
    · intro w2 hcon
      cases hcon
  | okErr w es2 =>
    have hes2 : es2 ≠ [] := by
      intro hcon
      subst hcon
      exact hrINV w rfl
    have hv : bfValidate .structK (.structInfo sname id [fi]) [("f", w)] = [] := rfl
    have hmain : newDynamicByField (f + 1) reg .structK
        (.structInfo sname id [fi]) nd =
        some ((MultiResult.ok (DynValue.dynStruct sname [("f", w)])).combine es2) := by
      rw [newDynamicByField, hfld]
      rw [addFieldsByField, hname]
      simp only [hexp, Except.toOption, hti]
      rw [addFieldByFieldValue, hval]
      simp only [List.find?_nil, Option.isSome_none, Bool.false_eq_true, if_false,
        List.nil_append, List.append_nil, addFieldsByField, hv]
      rfl
    refine ⟨_, hmain, ?_, ?_, ?_⟩
    · intro w' hw'
      cases hw'
    · intro w2 hw2
      exact absurd hw2 ((combine_nonempty _ es2 hes2).1 w2)
    · intro w2
      exact (combine_nonempty _ es2 hes2).2 w2
  | err es2 =>
    have hmain : newDynamicByField (f + 1) reg .structK
        (.structInfo sname id [fi]) nd =
        some ((intoMultiResult
          (bfReflect .structK (.structInfo sname id [fi]) [])
          (bfValidate .structK (.structInfo sname id [fi]) [])).combine es2) := by
      rw [newDynamicByField, hfld]
      rw [addFieldsByField, hname]
      simp only [hexp, Except.toOption, hti]
      rw [addFieldByFieldValue, hval]
      simp only [List.nil_append, List.append_nil, addFieldsByField]
    have hv : bfValidate .structK (.structInfo sname id [fi]) [] ≠ [] := by
      rw [show bfValidate .structK (.structInfo sname id [fi]) [] =
        [.notEnoughStructFields [0] sname [fi.fieldName]] from rfl]
      simp
    refine ⟨_, hmain, ?_, ?_, ?_⟩
    · intro w' hw'
      cases hw'
    · intro w2 hw2
      revert hw2
      unfold intoMultiResult
      rw [if_neg (by simpa using hv)]
      unfold MultiResult.combine
      by_cases he2 : (es2 : List ConvertError).isEmpty
      · rw [if_pos he2]
        intro hcon
        cases hcon
      · rw [if_neg he2]
        intro hcon
        cases hcon
    · intro w2
      unfold intoMultiResult
      rw [if_neg (by simpa using hv)]
      unfold MultiResult.combine
      by_cases he2 : (es2 : List ConvertError).isEmpty
      · rw [if_pos he2]
        intro hcon
        injection hcon with h1 h2
        exact hv h2
      · rw [if_neg he2]
        intro hcon
        injection hcon with h1 h2
        exact hv (List.append_eq_nil.mp h2).1

theorem typeInfo_nn (reg : Registry) (fuel : Nat) :
    typeInfo reg fuel Option.none Option.none =
      some (.err [.untypedTupleField]) := rfl

theorem newDynamicByField_wrongName (reg : Registry) (f : Nat)
    (sname : String) (id : Nat) (fi : FieldInfo)
    (nd : KNode) (fld : DField) (hfld : nd.dFields = [fld])
    (nm : String) (hname : fld.name = some nm)
    (hnm : (fi.fieldName == nm) = false) (hty : fld.ty = Option.none) :
    ∃ res, newDynamicByField (f + 1) reg .structK (.structInfo sname id [fi]) nd
        = some res
      ∧ (∀ w, res ≠ .ok w) ∧ (∀ w, res ≠ .okErr w []) := by
  have hexp : bfExpected .structK (.structInfo sname id [fi]) nm =
      .error (ConvertError.noSuchStructField nm sname
        (List.map (fun (f2 : FieldInfo) => (f2.fieldName, f2.typeName)) [fi])) := by
    show (match List.find? (fun (f2 : FieldInfo) => f2.fieldName == nm) [fi] with
      | some f2 => Except.ok f2.typeName
      | Option.none => Except.error (ConvertError.noSuchStructField nm sname
          (List.map (fun (f2 : FieldInfo) => (f2.fieldName, f2.typeName)) [fi]))) = _
    rw [List.find?_cons_of_neg _ (by simp [hnm])]
    rfl
  have hmain : newDynamicByField (f + 1) reg .structK
      (.structInfo sname id [fi]) nd =
      some ((intoMultiResult
        (bfReflect .structK (.structInfo sname id [fi]) [])
        (bfValidate .structK (.structInfo sname id [fi]) [])).combine
        ([] ++ [ConvertError.noSuchStructField nm sname
          (List.map (fun (f2 : FieldInfo) => (f2.fieldName, f2.typeName)) [fi])]
          ++ [.untypedTupleField])) := by
    rw [newDynamicByField, hfld]
    rw [addFieldsByField, hname]
    simp only [hexp, Except.toOption, hty, typeInfo_nn]
    rw [addFieldsByField]
  have hv : bfValidate .structK (.structInfo sname id [fi]) [] ≠ [] := by
    rw [show bfValidate .structK (.structInfo sname id [fi]) [] =
      [.notEnoughStructFields [0] sname [fi.fieldName]] from rfl]
    simp
  refine ⟨_, hmain, ?_, ?_⟩
  · intro w2
    unfold intoMultiResult
    rw [if_neg (by simpa using hv)]
    unfold MultiResult.combine
    by_cases he2 : (([] ++ [ConvertError.noSuchStructField nm sname
        (List.map (fun (f2 : FieldInfo) => (f2.fieldName, f2.typeName)) [fi])]
        ++ [ConvertError.untypedTupleField] : List ConvertError)).isEmpty
    · rw [if_pos he2]
      intro hcon
      cases hcon
    · rw [if_neg he2]
      intro hcon
      cases hcon
  · intro w2
    unfold intoMultiResult
    rw [if_neg (by simpa using hv)]
    unfold MultiResult.combine
    by_cases he2 : (([] ++ [ConvertError.noSuchStructField nm sname
        (List.map (fun (f2 : FieldInfo) => (f2.fieldName, f2.typeName)) [fi])]
        ++ [ConvertError.untypedTupleField] : List ConvertError)).isEmpty
    · rw [if_pos he2]
      intro hcon
      injection hcon with h1 h2
      exact hv h2
    · rw [if_neg he2]
      intro hcon
      injection hcon with h1 h2
      exact hv (List.append_eq_nil.mp h2).1

theorem anonExpected_single (kind : AnonKind) (info : TypeInfo) (fi : FieldInfo) :
    anonExpected kind info [fi] 0 = .ok fi.typeName := by
  cases kind <;> rfl

theorem dispatch_node_structBF (ks : List WrapKind) (c fuel : Nat)
    (hk : kindAt ks c = .wStruct) (nd : KNode) (hanon : nd.isAnonD = false) :
    intoDynDispatch fuel (chainReg ks) (.node nd) (some (infoAt ks c)) =
      newDynamicByField fuel (chainReg ks) .structK
        (.structInfo (chainName c) (c + 1) [chainFieldAt ks c]) nd := by
  rw [infoAt_struct ks c hk, intoDynDispatch]
  simp [hanon]

theorem dispatch_node_structAnon (ks : List WrapKind) (c fuel : Nat)
    (hk : kindAt ks c = .wStruct) (nd : KNode) (hanon : nd.isAnonD = true) :
    intoDynDispatch fuel (chainReg ks) (.node nd) (some (infoAt ks c)) =
      newDynamicAnon fuel (chainReg ks) .anonStruct
        (.structInfo (chainName c) (c + 1) [chainFieldAt ks c]) [chainFieldAt ks c] nd := by
  rw [infoAt_struct ks c hk, intoDynDispatch]
  simp [hanon]

theorem dispatch_node_tuple (ks : List WrapKind) (c fuel : Nat)
    (hk : kindAt ks c = .wTuple) (nd : KNode) :
    intoDynDispatch fuel (chainReg ks) (.node nd) (some (infoAt ks c)) =
      newDynamicAnon fuel (chainReg ks) .tuple
        (.tupleInfo (chainName c) (c + 1) [chainFieldAt ks c]) [chainFieldAt ks c] nd := by
  rw [infoAt_tuple ks c hk, intoDynDispatch]

theorem dispatch_node_tupleStruct (ks : List WrapKind) (c fuel : Nat)
    (hk : kindAt ks c = .wTupleStruct) (nd : KNode) :
    intoDynDispatch fuel (chainReg ks) (.node nd) (some (infoAt ks c)) =
      newDynamicAnon fuel (chainReg ks) .tupleStruct
        (.tupleStructInfo (chainName c) (c + 1) [chainFieldAt ks c]) [chainFieldAt ks c] nd := by
  rw [infoAt_tupleStruct ks c hk, intoDynDispatch]

theorem chainName_ne_f (j : Nat) : chainName j ≠ "f" :=
  chainName_ne j "f" (by decide)

theorem chainName_ne_u32' (j : Nat) : chainName j ≠ "u32" :=
  chainName_ne j "u32" (by decide)

theorem chainFieldValue_node (ks : List WrapKind) (a : Nat) (h : a < ks.length) :
    chainFieldValue ks a = .node (nodeAt ks a) := by
  unfold chainFieldValue
  rw [if_pos h]

theorem chainFieldValue_value (ks : List WrapKind) (a : Nat) (h : ¬ a < ks.length) :
    chainFieldValue ks a = .value (.base10 9000) := by
  unfold chainFieldValue
  rw [if_neg h]

theorem dispatch_deepOther (ks : List WrapKind) (a c f : Nat)
    (hdeep : a + 1 < ks.length) (hc : c < ks.length)
    (hfld : (nodeAt ks a).dFields =
      [⟨Option.none, some (chainName (a + 1)), .node (nodeAt ks (a + 1))⟩])
    (hanon : (nodeAt ks a).isAnonD = false)
    (hfuel : ks.length + 1 ≤ f)
    (rh : MultiResult DynValue ConvertError)
    (hrh : intoDynChain f (chainReg ks) (chainFrom ks (c + 1))
      (.node (nodeAt ks (a + 1))) = some rh)
    (hrhw : ∀ w, rh = .ok w → w = wrapFrom ks (c + 1))
    (hrhinv : ∀ w, rh ≠ .okErr w [])
    (r2 : MultiResult DynValue ConvertError)
    (hr2 : intoDynChain f (chainReg ks) (chainFrom ks (a + 1))
      (.node (nodeAt ks (a + 1))) = some r2)
    (hr2s : r2 = .ok (wrapFrom ks (a + 1)))
    (hkalign : c = a → kindAt ks c ≠ .wStruct) :
    ∃ r, intoDynDispatch (f + 1) (chainReg ks) (.node (nodeAt ks a))
        (some (infoAt ks c)) = some r
      ∧ (∀ w, r = .ok w → w = wrapFrom ks c)
      ∧ (∀ w, r ≠ .okErr w [])
      ∧ (c = a → r = .ok (wrapFrom ks a)) := by
  cases hkc : kindAt ks c with
  | wStruct =>
    have hnm : ((chainFieldAt ks c).fieldName == chainName (a + 1)) = false :=
      beq_eq_false_iff_ne.mpr (fun h => chainName_ne_f (a + 1) h.symm)
    obtain ⟨res, hres, hres1, hres2⟩ :=
      newDynamicByField_wrongName (chainReg ks) f (chainName c) (c + 1)
        (chainFieldAt ks c) (nodeAt ks a)
        ⟨Option.none, some (chainName (a + 1)), .node (nodeAt ks (a + 1))⟩ hfld
        (chainName (a + 1)) rfl hnm rfl
    refine ⟨res, ?_, ?_, hres2, ?_⟩
    · rw [dispatch_node_structBF ks c (f + 1) hkc _ hanon]
      exact hres
    · intro w hw
      exact absurd hw (hres1 w)
    · intro hca
      exact absurd hkc (hkalign hca)
  | wTuple =>
    by_cases hca : c = a
    · subst hca
      have hti : typeInfo (chainReg ks) f
          ((Option.none : Option String).or (some (chainName (c + 1))))
          ((anonExpected .tuple (.tupleInfo (chainName c) (c + 1)
            [chainFieldAt ks c]) [chainFieldAt ks c] 0).toOption) =
          some (.ok (chainFrom ks (c + 1))) := by
        rw [anonExpected_single, chainFieldAt_typeName]
        exact typeInfo_aligned ks (c + 1) hdeep f (by omega)
      subst hr2s
      have hmain := newDynamicAnon_singleClean (chainReg ks) f .tuple
        (.tupleInfo (chainName c) (c + 1) [chainFieldAt ks c])
        (chainFieldAt ks c) (nodeAt ks c)
        ⟨Option.none, some (chainName (c + 1)), .node (nodeAt ks (c + 1))⟩ hfld
        (chainFrom ks (c + 1))
        (fun e hcon => by rw [anonExpected_single] at hcon; cases hcon)
        hti (wrapFrom ks (c + 1)) hr2
      refine ⟨.ok (.dynTuple (chainName c) [wrapFrom ks (c + 1)]), ?_, ?_, ?_, ?_⟩
      · rw [dispatch_node_tuple ks c (f + 1) hkc]
        exact hmain
      · intro w hw
        injection hw with h
        rw [← h]
        show DynValue.dynTuple (chainName c) [wrapFrom ks (c + 1)] = _
        rw [← wrapFrom_tuple ks c hc hkc]
      · intro w hcon
        cases hcon
      · intro _
        show MultiResult.ok (DynValue.dynTuple (chainName c) [wrapFrom ks (c + 1)]) = _
        rw [← wrapFrom_tuple ks c hc hkc]
    · have hti : typeInfo (chainReg ks) f
          ((Option.none : Option String).or (some (chainName (a + 1))))
          ((anonExpected .tuple (.tupleInfo (chainName c) (c + 1)
            [chainFieldAt ks c]) [chainFieldAt ks c] 0).toOption) =
          some (.okErr (chainFrom ks (a + 1))
            [.typeMismatch (tyOf ks (c + 1)).typeName (tyOf ks (a + 1)).typeName]) := by
        rw [anonExpected_single, chainFieldAt_typeName]
        exact typeInfo_mismatch ks (a + 1) (c + 1) hdeep (by omega) (by omega) f (by omega)
      obtain ⟨res, hres, hres1, hres2⟩ :=
        newDynamicAnon_singleDirty (chainReg ks) f .tuple
          (.tupleInfo (chainName c) (c + 1) [chainFieldAt ks c])
          (chainFieldAt ks c) (nodeAt ks a)
          ⟨Option.none, some (chainName (a + 1)), .node (nodeAt ks (a + 1))⟩ hfld
          (chainFrom ks (a + 1)) _ (by simp)
          (fun e hcon => by rw [anonExpected_single] at hcon; cases hcon)
          hti r2 hr2
      refine ⟨res, ?_, ?_, hres2, ?_⟩
      · rw [dispatch_node_tuple ks c (f + 1) hkc]
        exact hres
      · intro w hw
        exact absurd hw (hres1 w)
      · intro hca2
        exact absurd hca2 hca
  | wTupleStruct =>
    by_cases hca : c = a
    · subst hca
      have hti : typeInfo (chainReg ks) f
          ((Option.none : Option String).or (some (chainName (c + 1))))
          ((anonExpected .tupleStruct (.tupleStructInfo (chainName c) (c + 1)
            [chainFieldAt ks c]) [chainFieldAt ks c] 0).toOption) =
          some (.ok (chainFrom ks (c + 1))) := by
        rw [anonExpected_single, chainFieldAt_typeName]
        exact typeInfo_aligned ks (c + 1) hdeep f (by omega)
      subst hr2s
      have hmain := newDynamicAnon_singleClean (chainReg ks) f .tupleStruct
        (.tupleStructInfo (chainName c) (c + 1) [chainFieldAt ks c])
        (chainFieldAt ks c) (nodeAt ks c)
        ⟨Option.none, some (chainName (c + 1)), .node (nodeAt ks (c + 1))⟩ hfld
        (chainFrom ks (c + 1))
        (fun e hcon => by rw [anonExpected_single] at hcon; cases hcon)
        hti (wrapFrom ks (c + 1)) hr2
      refine ⟨.ok (.dynTupleStruct (chainName c) [wrapFrom ks (c + 1)]), ?_, ?_, ?_, ?_⟩
      · rw [dispatch_node_tupleStruct ks c (f + 1) hkc]
        exact hmain
      · intro w hw
        injection hw with h
        rw [← h]
        show DynValue.dynTupleStruct (chainName c) [wrapFrom ks (c + 1)] = _
        rw [← wrapFrom_tupleStruct ks c hc hkc]
      · intro w hcon
        cases hcon
      · intro _
        show MultiResult.ok (DynValue.dynTupleStruct (chainName c)
          [wrapFrom ks (c + 1)]) = _
        rw [← wrapFrom_tupleStruct ks c hc hkc]
    · have hti : typeInfo (chainReg ks) f
          ((Option.none : Option String).or (some (chainName (a + 1))))
          ((anonExpected .tupleStruct (.tupleStructInfo (chainName c) (c + 1)
            [chainFieldAt ks c]) [chainFieldAt ks c] 0).toOption) =
          some (.okErr (chainFrom ks (a + 1))
            [.typeMismatch (tyOf ks (c + 1)).typeName (tyOf ks (a + 1)).typeName]) := by
        rw [anonExpected_single, chainFieldAt_typeName]
        exact typeInfo_mismatch ks (a + 1) (c + 1) hdeep (by omega) (by omega) f (by omega)
      obtain ⟨res, hres, hres1, hres2⟩ :=
        newDynamicAnon_singleDirty (chainReg ks) f .tupleStruct
          (.tupleStructInfo (chainName c) (c + 1) [chainFieldAt ks c])
          (chainFieldAt ks c) (nodeAt ks a)
          ⟨Option.none, some (chainName (a + 1)), .node (nodeAt ks (a + 1))⟩ hfld
          (chainFrom ks (a + 1)) _ (by simp)
          (fun e hcon => by rw [anonExpected_single] at hcon; cases hcon)
          hti r2 hr2
      refine ⟨res, ?_, ?_, hres2, ?_⟩
      · rw [dispatch_node_tupleStruct ks c (f + 1) hkc]
        exact hres
      · intro w hw
        exact absurd hw (hres1 w)
      · intro hca2
        exact absurd hca2 hca

theorem dispatch_leafAnonCore (ks : List WrapKind) (a c f : Nat)
    (ha : a < ks.length) (hc : c < ks.length)
    (hfuel : ks.length + 1 ≤ f)
    (hQ : ∀ b, b ≤ ks.length →
      intoDynChain f (chainReg ks) (chainFrom ks b) (.value (.base10 9000)) =
        some (.ok (wrapFrom ks b)))
    (hfld : (nodeAt ks a).dFields =
      [⟨Option.none, Option.none, .value (.base10 9000)⟩])
    (hanon : (nodeAt ks a).isAnonD = true) :
    ∃ r, intoDynDispatch (f + 1) (chainReg ks) (.node (nodeAt ks a))
        (some (infoAt ks c)) = some r
      ∧ (∀ w, r = .ok w → w = wrapFrom ks c)
      ∧ (∀ w, r ≠ .okErr w [])
      ∧ (c = a → r = .ok (wrapFrom ks a)) := by
  cases hkc : kindAt ks c with
  | wStruct =>
    have hti : typeInfo (chainReg ks) f
        ((Option.none : Option String).or Option.none)
        ((anonExpected .anonStruct (.structInfo (chainName c) (c + 1)
          [chainFieldAt ks c]) [chainFieldAt ks c] 0).toOption) =
        some (.ok (chainFrom ks (c + 1))) := by
      rw [anonExpected_single, chainFieldAt_typeName]
      exact typeInfo_none_some ks (c + 1) (by omega) f (by omega)
    have hmain := newDynamicAnon_singleClean (chainReg ks) f .anonStruct
      (.structInfo (chainName c) (c + 1) [chainFieldAt ks c])
      (chainFieldAt ks c) (nodeAt ks a)
      ⟨Option.none, Option.none, .value (.base10 9000)⟩ hfld
      (chainFrom ks (c + 1))
      (fun e hcon => by rw [anonExpected_single] at hcon; cases hcon)
      hti (wrapFrom ks (c + 1)) (hQ (c + 1) (by omega))
    refine ⟨.ok (.dynStruct (chainName c) [("f", wrapFrom ks (c + 1))]), ?_, ?_, ?_, ?_⟩
    · rw [dispatch_node_structAnon ks c (f + 1) hkc _ hanon]
      exact hmain
    · intro w hw
      injection hw with h
      rw [← h, ← wrapFrom_struct ks c hc hkc]
    · intro w hcon
      cases hcon
    · intro hca
      rw [← wrapFrom_struct ks c hc hkc, hca]
  | wTuple =>
    have hti : typeInfo (chainReg ks) f
        ((Option.none : Option String).or Option.none)
        ((anonExpected .tuple (.tupleInfo (chainName c) (c + 1)
          [chainFieldAt ks c]) [chainFieldAt ks c] 0).toOption) =
        some (.ok (chainFrom ks (c + 1))) := by
      rw [anonExpected_single, chainFieldAt_typeName]
      exact typeInfo_none_some ks (c + 1) (by omega) f (by omega)
    have hmain := newDynamicAnon_singleClean (chainReg ks) f .tuple
      (.tupleInfo (chainName c) (c + 1) [chainFieldAt ks c])
      (chainFieldAt ks c) (nodeAt ks a)
      ⟨Option.none, Option.none, .value (.base10 9000)⟩ hfld
      (chainFrom ks (c + 1))
      (fun e hcon => by rw [anonExpected_single] at hcon; cases hcon)
      hti (wrapFrom ks (c + 1)) (hQ (c + 1) (by omega))
    refine ⟨.ok (.dynTuple (chainName c) [wrapFrom ks (c + 1)]), ?_, ?_, ?_, ?_⟩
    · rw [dispatch_node_tuple ks c (f + 1) hkc]
      exact hmain
    · intro w hw
      injection hw with h
      rw [← h, ← wrapFrom_tuple ks c hc hkc]
    · intro w hcon
      cases hcon
    · intro hca
      rw [← wrapFrom_tuple ks c hc hkc, hca]
  | wTupleStruct =>
    have hti : typeInfo (chainReg ks) f
        ((Option.none : Option String).or Option.none)
        ((anonExpected .tupleStruct (.tupleStructInfo (chainName c) (c + 1)
          [chainFieldAt ks c]) [chainFieldAt ks c] 0).toOption) =
        some (.ok (chainFrom ks (c + 1))) := by
      rw [anonExpected_single, chainFieldAt_typeName]
      exact typeInfo_none_some ks (c + 1) (by omega) f (by omega)
    have hmain := newDynamicAnon_singleClean (chainReg ks) f .tupleStruct
      (.tupleStructInfo (chainName c) (c + 1) [chainFieldAt ks c])
      (chainFieldAt ks c) (nodeAt ks a)
      ⟨Option.none, Option.none, .value (.base10 9000)⟩ hfld
      (chainFrom ks (c + 1))
      (fun e hcon => by rw [anonExpected_single] at hcon; cases hcon)
      hti (wrapFrom ks (c + 1)) (hQ (c + 1) (by omega))
    refine ⟨.ok (.dynTupleStruct (chainName c) [wrapFrom ks (c + 1)]), ?_, ?_, ?_, ?_⟩
    · rw [dispatch_node_tupleStruct ks c (f + 1) hkc]
      exact hmain
    · intro w hw
      injection hw with h
      rw [← h, ← wrapFrom_tupleStruct ks c hc hkc]
    · intro w hcon
      cases hcon
    · intro hca
      rw [← wrapFrom_tupleStruct ks c hc hkc, hca]

theorem dispatch_leaf (ks : List WrapKind) (a c f : Nat)
    (hleaf : ¬ a + 1 < ks.length) (ha : a < ks.length) (hc : c < ks.length)
    (hfuel : ks.length + 1 ≤ f)
    (hQ : ∀ b, b ≤ ks.length →
      intoDynChain f (chainReg ks) (chainFrom ks b) (.value (.base10 9000)) =
        some (.ok (wrapFrom ks b))) :
    ∃ r, intoDynDispatch (f + 1) (chainReg ks) (.node (nodeAt ks a))
        (some (infoAt ks c)) = some r
      ∧ (∀ w, r = .ok w → w = wrapFrom ks c)
      ∧ (∀ w, r ≠ .okErr w [])
      ∧ (c = a → r = .ok (wrapFrom ks a)) := by
  cases hka : kindAt ks a with
  | wStruct =>
    have hfld := dFields_nodeAt_leafStruct ks a hleaf hka
    have hanon := isAnonD_nodeAt_leafStruct ks a hleaf hka
    cases hkc : kindAt ks c with
    | wStruct =>
      have hti : typeInfo (chainReg ks) f Option.none
          (some (chainFieldAt ks c).typeName) = some (.ok (chainFrom ks (c + 1))) := by
        rw [chainFieldAt_typeName]
        exact typeInfo_none_some ks (c + 1) (by omega) f (by omega)
      obtain ⟨res, hres, hres1, hres2, hres3⟩ :=
        newDynamicByField_singleF (chainReg ks) f (chainName c) (c + 1)
          (chainFieldAt ks c) rfl (nodeAt ks a)
          ⟨Option.none, some "f", .value (.base10 9000)⟩ hfld rfl
          (chainFrom ks (c + 1)) hti (.ok (wrapFrom ks (c + 1)))
          (hQ (c + 1) (by omega)) (fun w hcon => by cases hcon)
      have hresv := hres1 (wrapFrom ks (c + 1)) rfl
      refine ⟨res, ?_, ?_, hres3, ?_⟩
      · rw [dispatch_node_structBF ks c (f + 1) hkc _ hanon]
        exact hres
      · intro w hw
        rw [hresv] at hw
        injection hw with h
        rw [← h, ← wrapFrom_struct ks c hc hkc]
      · intro hca
        rw [hresv, ← wrapFrom_struct ks c hc hkc]
        rw [hca]
    | wTuple =>
      have hti : typeInfo (chainReg ks) f
          ((Option.none : Option String).or (some "f"))
          ((anonExpected .tuple (.tupleInfo (chainName c) (c + 1)
            [chainFieldAt ks c]) [chainFieldAt ks c] 0).toOption) =
          some (.okErr (chainFrom ks (c + 1)) [.noSuchType "f"]) := by
        rw [anonExpected_single, chainFieldAt_typeName]
        exact typeInfo_badDeclared ks "f" (c + 1) (by omega) (by decide)
          (fun j _ => chainName_ne_f j) (by decide) f (by omega)
      obtain ⟨res, hres, hres1, hres2⟩ :=
        newDynamicAnon_singleDirty (chainReg ks) f .tuple
          (.tupleInfo (chainName c) (c + 1) [chainFieldAt ks c])
          (chainFieldAt ks c) (nodeAt ks a)
          ⟨Option.none, some "f", .value (.base10 9000)⟩ hfld
          (chainFrom ks (c + 1)) [.noSuchType "f"] (by simp)
          (fun e hcon => by rw [anonExpected_single] at hcon; cases hcon)
          hti (.ok (wrapFrom ks (c + 1))) (hQ (c + 1) (by omega))
      refine ⟨res, ?_, ?_, hres2, ?_⟩
      · rw [dispatch_node_tuple ks c (f + 1) hkc]
        exact hres
      · intro w hw
        exact absurd hw (hres1 w)
      · intro hca
        rw [hca, hka] at hkc
        cases hkc
    | wTupleStruct =>
      have hti : typeInfo (chainReg ks) f
          ((Option.none : Option String).or (some "f"))
          ((anonExpected .tupleStruct (.tupleStructInfo (chainName c) (c + 1)
            [chainFieldAt ks c]) [chainFieldAt ks c] 0).toOption) =
          some (.okErr (chainFrom ks (c + 1)) [.noSuchType "f"]) := by
        rw [anonExpected_single, chainFieldAt_typeName]
        exact typeInfo_badDeclared ks "f" (c + 1) (by omega) (by decide)
          (fun j _ => chainName_ne_f j) (by decide) f (by omega)
      obtain ⟨res, hres, hres1, hres2⟩ :=
        newDynamicAnon_singleDirty (chainReg ks) f .tupleStruct
          (.tupleStructInfo (chainName c) (c + 1) [chainFieldAt ks c])
          (chainFieldAt ks c) (nodeAt ks a)
          ⟨Option.none, some "f", .value (.base10 9000)⟩ hfld
          (chainFrom ks (c + 1)) [.noSuchType "f"] (by simp)
          (fun e hcon => by rw [anonExpected_single] at hcon; cases hcon)
          hti (.ok (wrapFrom ks (c + 1))) (hQ (c + 1) (by omega))
      refine ⟨res, ?_, ?_, hres2, ?_⟩
      · rw [dispatch_node_tupleStruct ks c (f + 1) hkc]
        exact hres
      · intro w hw
        exact absurd hw (hres1 w)
      · intro hca
        rw [hca, hka] at hkc
        cases hkc
  | wTuple =>
    have hfld := dFields_nodeAt_leafAnon ks a hleaf (by rw [hka]; intro hcon; cases hcon)
    have hanon := isAnonD_nodeAt_leafAnon ks a hleaf (by rw [hka]; intro hcon; cases hcon)
    exact dispatch_leafAnonCore ks a c f ha hc hfuel hQ hfld hanon
  | wTupleStruct =>
    have hfld := dFields_nodeAt_leafAnon ks a hleaf (by rw [hka]; intro hcon; cases hcon)
    have hanon := isAnonD_nodeAt_leafAnon ks a hleaf (by rw [hka]; intro hcon; cases hcon)
    exact dispatch_leafAnonCore ks a c f ha hc hfuel hQ hfld hanon

theorem dispatch_u32_nodeAt (ks : List WrapKind) (a fuel : Nat)
    (ha : a < ks.length) (hfuel : ks.length + 1 ≤ fuel) :
    ∃ inner, intoDynDispatch fuel (chainReg ks) (.node (nodeAt ks a))
        (some u32Info) = some inner
      ∧ (∀ w, inner = .ok w → w = wrapFrom ks ks.length)
      ∧ (∀ w, inner ≠ .okErr w []) := by
  rw [dispatch_node_u32 ks fuel (nodeAt ks a)]
  by_cases hdeep : a + 1 < ks.length
  · rw [valueBuilderNew_noArg (chainReg ks) fuel "u32" 0 (nodeAt ks a)
      (firstArgumentD_nodeAt_deep ks a hdeep)]
    refine ⟨.err [.noValuesInNode "u32"], rfl, ?_, ?_⟩
    · intro w hcon
      cases hcon
    · intro w hcon
      cases hcon
  · by_cases hka : kindAt ks a = .wStruct
    · rw [valueBuilderNew_noArg (chainReg ks) fuel "u32" 0 (nodeAt ks a)
        (firstArgumentD_nodeAt_leafStruct ks a hdeep hka)]
      refine ⟨.err [.noValuesInNode "u32"], rfl, ?_, ?_⟩
      · intro w hcon
        cases hcon
      · intro w hcon
        cases hcon
    · rw [valueBuilderNew_bare ks fuel (nodeAt ks a)
        (firstArgumentD_nodeAt_leafAnon ks a hdeep hka) (by omega)]
      refine ⟨.ok (.prim (.int .u32 9000)), rfl, ?_, fun w hcon => by cases hcon⟩
      intro w hw
      injection hw with h
      rw [← h, wrapFrom_ge ks ks.length (by omega)]

theorem chainB_node (ks : List WrapKind) (a b fuel : Nat)
    (ha : a < ks.length) (hb : b ≤ ks.length)
    (hAall : ∀ c, c < ks.length →
      ∃ r, intoDynDispatch fuel (chainReg ks) (.node (nodeAt ks a))
          (some (infoAt ks c)) = some r
        ∧ (∀ w, r = .ok w → w = wrapFrom ks c)
        ∧ (∀ w, r ≠ .okErr w [])
        ∧ (c = a → r = .ok (wrapFrom ks a)))
    (inner : MultiResult DynValue ConvertError)
    (hinner : intoDynDispatch fuel (chainReg ks) (.node (nodeAt ks a))
      (some u32Info) = some inner)
    (hinw : ∀ w, inner = .ok w → w = wrapFrom ks ks.length)
    (hininv : ∀ w, inner ≠ .okErr w []) :
    ∃ r, intoDynChain fuel (chainReg ks) (chainFrom ks b)
        (.node (nodeAt ks a)) = some r
      ∧ (∀ w, r = .ok w → w = wrapFrom ks b)
      ∧ (∀ w, r ≠ .okErr w [])
      ∧ (b ≤ a → r = .ok (wrapFrom ks b)) := by
  have key : intoDynChain fuel (chainReg ks) (chainFrom ks b)
      (.node (nodeAt ks a)) =
      chainLoop fuel (chainReg ks) (descSeg ks ks.length b) inner
        (.node (nodeAt ks a)) := by
    rw [intoDynChain_eq ks b hb, hinner]
  by_cases hba : b ≤ a
  · obtain ⟨ra, hra, _, _, hras⟩ := hAall a ha
    rw [hras rfl] at hra
    have hloop := chainLoop_strongAt ks (.node (nodeAt ks a)) fuel ks.length b a
      hba ha le_rfl
      (fun j hj1 hj2 => by
        obtain ⟨r, hr, hw, hinv, _⟩ := hAall j hj2
        exact ⟨r, hr, hw, hinv⟩)
      hra inner hinw
    rw [key, hloop]
    refine ⟨.ok (wrapFrom ks b), rfl, ?_, ?_, ?_⟩
    · intro w hw
      injection hw with h
      exact h.symm
    · intro w hcon
      cases hcon
    · intro _
      rfl
  · obtain ⟨r, hloop, hw, hinv⟩ := chainLoop_weak ks (.node (nodeAt ks a)) fuel
      ks.length b inner hb le_rfl hinw hininv
      (fun j hj1 hj2 => by
        obtain ⟨r2, hr2, hw2, hinv2, _⟩ := hAall j hj2
        exact ⟨r2, hr2, hw2, hinv2⟩)
    rw [key]
    exact ⟨r, hloop, hw, hinv, fun hcon => absurd hcon hba⟩

theorem chainMain (ks : List WrapKind) :
    ∀ (d a : Nat), ks.length - a = d →
    ((∀ c, c < ks.length → a < ks.length →
        ∀ fuel, ks.length + 2 + (ks.length - a) ≤ fuel →
        ∃ r, intoDynDispatch fuel (chainReg ks) (.node (nodeAt ks a))
            (some (infoAt ks c)) = some r
          ∧ (∀ w, r = .ok w → w = wrapFrom ks c)
          ∧ (∀ w, r ≠ .okErr w [])
          ∧ (c = a → r = .ok (wrapFrom ks a)))
    ∧ (∀ b, b ≤ ks.length →
        ∀ fuel, ks.length + 2 + (ks.length - a) ≤ fuel →
        ∃ r, intoDynChain fuel (chainReg ks) (chainFrom ks b)
            (chainFieldValue ks a) = some r
          ∧ (∀ w, r = .ok w → w = wrapFrom ks b)
          ∧ (∀ w, r ≠ .okErr w [])
          ∧ (b ≤ a → r = .ok (wrapFrom ks b)))) := by
  intro d
  induction d with
  | zero =>
    intro a hd
    constructor
    · intro c hc hac fuel hf
      omega
    · intro b hb fuel hf
      rw [chainFieldValue_value ks a (by omega)]
      have hmain : intoDynChain fuel (chainReg ks) (chainFrom ks b)
          (.value (.base10 9000)) = some (.ok (wrapFrom ks b)) := by
        rw [intoDynChain_eq ks b hb, dispatch_value_u32 ks fuel (by omega)]
        show chainLoop fuel (chainReg ks) (descSeg ks ks.length b)
          (.ok (.prim (.int .u32 9000))) (.value (.base10 9000)) = _
        rw [show (MultiResult.ok (DynValue.prim (PrimValue.int IntTy.u32 9000))
            : MultiResult DynValue ConvertError) = .ok (wrapFrom ks ks.length) from by
          rw [wrapFrom_ge ks ks.length (by omega)]]
        exact chainLoop_pure ks _ fuel ks.length b hb le_rfl
      refine ⟨.ok (wrapFrom ks b), hmain, ?_, ?_, ?_⟩
      · intro w hw
        injection hw with h
        exact h.symm
      · intro w hcon
        cases hcon
      · intro _
        rfl
  | succ m ih =>
    intro a hd
    have ha : a < ks.length := by omega
    have IH := ih (a + 1) (by omega)
    have hA : ∀ c, c < ks.length →
        ∀ fuel, ks.length + 2 + (ks.length - a) ≤ fuel →
        ∃ r, intoDynDispatch fuel (chainReg ks) (.node (nodeAt ks a))
            (some (infoAt ks c)) = some r
          ∧ (∀ w, r = .ok w → w = wrapFrom ks c)
          ∧ (∀ w, r ≠ .okErr w [])
          ∧ (c = a → r = .ok (wrapFrom ks a)) := by
      intro c hc fuel hf
      obtain ⟨f, rfl⟩ : ∃ f, fuel = f + 1 := ⟨fuel - 1, by omega⟩
      have hfB : ks.length + 2 + (ks.length - (a + 1)) ≤ f := by omega
      by_cases hdeep : a + 1 < ks.length
      · obtain ⟨rh, hrh, hrhw, hrhinv, hrhs⟩ := IH.2 (c + 1) (by omega) f hfB
        rw [chainFieldValue_node ks (a + 1) hdeep] at hrh
        have hfld := dFields_nodeAt_deep ks a hdeep
        have hanon := isAnonD_nodeAt_deep ks a hdeep
        cases hka : kindAt ks a with
        | wStruct =>
          have hnn : nodeNameAt ks (a + 1) = "f" := by
            unfold nodeNameAt
            rw [if_neg (Nat.succ_ne_zero a)]
            rw [show a + 1 - 1 = a from rfl, hka]
          rw [hnn] at hfld
          cases hkc : kindAt ks c with
          | wStruct =>
            have hti : typeInfo (chainReg ks) f Option.none
                (some (chainFieldAt ks c).typeName) =
                some (.ok (chainFrom ks (c + 1))) := by
              rw [chainFieldAt_typeName]
              exact typeInfo_none_some ks (c + 1) (by omega) f (by omega)
            obtain ⟨res, hres, hres1, hres2, hres3⟩ :=
              newDynamicByField_singleF (chainReg ks) f (chainName c) (c + 1)
                (chainFieldAt ks c) rfl (nodeAt ks a)
                ⟨Option.none, some "f", .node (nodeAt ks (a + 1))⟩ hfld rfl
                (chainFrom ks (c + 1)) hti rh hrh hrhinv
            refine ⟨res, ?_, ?_, hres3, ?_⟩
            · rw [dispatch_node_structBF ks c (f + 1) hkc _ hanon]
              exact hres
            · intro w hw
              obtain ⟨w2, hw2, hww⟩ := hres2 w hw
              rw [hww, hrhw w2 hw2, ← wrapFrom_struct ks c hc hkc]
            · intro hca
              subst hca
              have hok := hrhs (by omega)
              rw [hres1 (wrapFrom ks (c + 1)) (by rw [← hok])]
              rw [← wrapFrom_struct ks c hc hkc]
          | wTuple =>
            have hti : typeInfo (chainReg ks) f
                ((Option.none : Option String).or (some "f"))
                ((anonExpected .tuple (.tupleInfo (chainName c) (c + 1)
                  [chainFieldAt ks c]) [chainFieldAt ks c] 0).toOption) =
                some (.okErr (chainFrom ks (c + 1)) [.noSuchType "f"]) := by
              rw [anonExpected_single, chainFieldAt_typeName]
              exact typeInfo_badDeclared ks "f" (c + 1) (by omega) (by decide)
                (fun j _ => chainName_ne_f j) (by decide) f (by omega)
            obtain ⟨res, hres, hres1, hres2⟩ :=
              newDynamicAnon_singleDirty (chainReg ks) f .tuple
                (.tupleInfo (chainName c) (c + 1) [chainFieldAt ks c])
                (chainFieldAt ks c) (nodeAt ks a)
                ⟨Option.none, some "f", .node (nodeAt ks (a + 1))⟩ hfld
                (chainFrom ks (c + 1)) [.noSuchType "f"] (by simp)
                (fun e hcon => by rw [anonExpected_single] at hcon; cases hcon)
                hti rh hrh
            refine ⟨res, ?_, ?_, hres2, ?_⟩
            · rw [dispatch_node_tuple ks c (f + 1) hkc]
              exact hres
            · intro w hw
              exact absurd hw (hres1 w)
            · intro hca
              rw [hca, hka] at hkc
              cases hkc
          | wTupleStruct =>
            have hti : typeInfo (chainReg ks) f
                ((Option.none : Option String).or (some "f"))
                ((anonExpected .tupleStruct (.tupleStructInfo (chainName c) (c + 1)
                  [chainFieldAt ks c]) [chainFieldAt ks c] 0).toOption) =
                some (.okErr (chainFrom ks (c + 1)) [.noSuchType "f"]) := by
              rw [anonExpected_single, chainFieldAt_typeName]
              exact typeInfo_badDeclared ks "f" (c + 1) (by omega) (by decide)
                (fun j _ => chainName_ne_f j) (by decide) f (by omega)
            obtain ⟨res, hres, hres1, hres2⟩ :=
              newDynamicAnon_singleDirty (chainReg ks) f .tupleStruct
                (.tupleStructInfo (chainName c) (c + 1) [chainFieldAt ks c])
                (chainFieldAt ks c) (nodeAt ks a)
                ⟨Option.none, some "f", .node (nodeAt ks (a + 1))⟩ hfld
                (chainFrom ks (c + 1)) [.noSuchType "f"] (by simp)
                (fun e hcon => by rw [anonExpected_single] at hcon; cases hcon)
                hti rh hrh
            refine ⟨res, ?_, ?_, hres2, ?_⟩
            · rw [dispatch_node_tupleStruct ks c (f + 1) hkc]
              exact hres
            · intro w hw
              exact absurd hw (hres1 w)
            · intro hca
              rw [hca, hka] at hkc
              cases hkc
        | wTuple =>
          have hnn : nodeNameAt ks (a + 1) = chainName (a + 1) := by
            unfold nodeNameAt
            rw [if_neg (Nat.succ_ne_zero a)]
            rw [show a + 1 - 1 = a from rfl, hka]
          rw [hnn] at hfld
          obtain ⟨r2, hr2, _, _, hr2s⟩ := IH.2 (a + 1) (by omega) f hfB
          rw [chainFieldValue_node ks (a + 1) hdeep] at hr2
          exact dispatch_deepOther ks a c f hdeep hc hfld hanon (by omega)
            rh hrh hrhw hrhinv r2 hr2 (hr2s le_rfl)
            (fun hca => by rw [hca, hka]; intro hcon; cases hcon)
        | wTupleStruct =>
          have hnn : nodeNameAt ks (a + 1) = chainName (a + 1) := by
            unfold nodeNameAt
            rw [if_neg (Nat.succ_ne_zero a)]
            rw [show a + 1 - 1 = a from rfl, hka]
          rw [hnn] at hfld
          obtain ⟨r2, hr2, _, _, hr2s⟩ := IH.2 (a + 1) (by omega) f hfB
          rw [chainFieldValue_node ks (a + 1) hdeep] at hr2
          exact dispatch_deepOther ks a c f hdeep hc hfld hanon (by omega)
            rh hrh hrhw hrhinv r2 hr2 (hr2s le_rfl)
            (fun hca => by rw [hca, hka]; intro hcon; cases hcon)
      · -- leaf: a + 1 = ks.length
        have hQ : ∀ b, b ≤ ks.length →
            intoDynChain f (chainReg ks) (chainFrom ks b)
              (.value (.base10 9000)) = some (.ok (wrapFrom ks b)) := by
          intro b hb
          obtain ⟨r2, hr2, _, _, hr2s⟩ := IH.2 b hb f hfB
          rw [chainFieldValue_value ks (a + 1) hdeep] at hr2
          rw [hr2s (by omega)] at hr2
          exact hr2
        exact dispatch_leaf ks a c f hdeep ha hc (by omega) hQ
    refine ⟨fun c hc _ fuel hf => hA c hc fuel hf, ?_⟩
    intro b hb fuel hf
    rw [chainFieldValue_node ks a ha]
    obtain ⟨inner, hinner, hinw, hininv⟩ :=
      dispatch_u32_nodeAt ks a fuel ha (by omega)
    exact chainB_node ks a b fuel ha hb
      (fun c hc => hA c hc fuel hf) inner hinner hinw hininv

/-- C4.  Newtype unwrapping equivalence: for every chain of single-field
struct / tuple / tuple-struct wrappers around `u32` (the registry family
`chainReg ks`, arbitrary kinds and depth), `ExpectedType::new` resolves the
outermost type to the full wrapper chain, and building the chain from the
bare literal `9000` and from the fully nested explicit declaration
(`nodeAt ks 0`) produce the same dynamic value `wrapFrom ks 0`, with no
recorded errors, for any sufficient fuel. -/
theorem newtype_unwrapping_equivalence (ks : List WrapKind)
    (hn : 0 < ks.length) (fuel : Nat) (hf : 2 * ks.length + 2 ≤ fuel) :
    expectedTypeNew (chainReg ks) fuel (infoAt ks 0) = some (chainFrom ks 0)
  ∧ intoDynChain fuel (chainReg ks) (chainFrom ks 0) (.value (.base10 9000))
      = some (.ok (wrapFrom ks 0))
  ∧ intoDynChain fuel (chainReg ks) (chainFrom ks 0) (.node (nodeAt ks 0))
      = some (.ok (wrapFrom ks 0)) := by
  refine ⟨?_, ?_, ?_⟩
  · have h := expectedTypeNew_chain ks (ks.length - 0) 0 rfl (by omega) fuel (by omega)
    rw [show tyOf ks 0 = infoAt ks 0 from by unfold tyOf; rw [if_pos hn]] at h
    exact h
  · obtain ⟨r, hr, _, _, hs⟩ := (chainMain ks 0 ks.length (by omega)).2 0
      (by omega) fuel (by omega)
    rw [chainFieldValue_value ks ks.length (by omega)] at hr
    rw [hs (by omega)] at hr
    exact hr
  · obtain ⟨r, hr, _, _, hs⟩ := (chainMain ks (ks.length - 0) 0 rfl).2 0
      (by omega) fuel (by omega)
    rw [chainFieldValue_node ks 0 hn] at hr
    rw [hs (by omega)] at hr
    exact hr

/-- C4 witness: the depth-2 chain `Wrapper(Inner(u32))` (both tuple-struct
wrappers): the bare-literal document and the nested document build the same
`Wrapper(Inner(9000))` dynamic value. -/
theorem newtype_unwrapping_equivalence_witness :
    (0 < ([WrapKind.wTupleStruct, WrapKind.wTupleStruct] : List WrapKind).length
      ∧ 2 * ([WrapKind.wTupleStruct, WrapKind.wTupleStruct] : List WrapKind).length
          + 2 ≤ 6)
  ∧ (expectedTypeNew (chainReg [WrapKind.wTupleStruct, WrapKind.wTupleStruct]) 6
        (infoAt [WrapKind.wTupleStruct, WrapKind.wTupleStruct] 0)
      = some (chainFrom [WrapKind.wTupleStruct, WrapKind.wTupleStruct] 0)
    ∧ intoDynChain 6 (chainReg [WrapKind.wTupleStruct, WrapKind.wTupleStruct])
        (chainFrom [WrapKind.wTupleStruct, WrapKind.wTupleStruct] 0)
        (.value (.base10 9000))
      = some (.ok (wrapFrom [WrapKind.wTupleStruct, WrapKind.wTupleStruct] 0))
    ∧ intoDynChain 6 (chainReg [WrapKind.wTupleStruct, WrapKind.wTupleStruct])
        (chainFrom [WrapKind.wTupleStruct, WrapKind.wTupleStruct] 0)
        (.node (nodeAt [WrapKind.wTupleStruct, WrapKind.wTupleStruct] 0))
      = some (.ok (wrapFrom [WrapKind.wTupleStruct, WrapKind.wTupleStruct] 0)))
  ∧ wrapFrom [WrapKind.wTupleStruct, WrapKind.wTupleStruct] 0 =
      .dynTupleStruct (chainName 0)
        [.dynTupleStruct (chainName 1) [.prim (.int .u32 9000)]] := by
  refine ⟨⟨by decide, by decide⟩,
    newtype_unwrapping_equivalence [WrapKind.wTupleStruct, WrapKind.wTupleStruct]
      (by decide) 6 (by decide), ?_⟩
  rw [wrapFrom, wrapFrom, wrapFrom]
  simp [kindAt]

end Claims

end BevyKdlUi
